import Mathlib

/-!
# go-zenodo: a shallow embedding of the deposition client

The six operations of `deposition.go` are embedded as pure functions of the
package configuration (`Config`: the package variables of `gozenodo.go`) and
of an environment (`Env`) that stands for everything the package calls but
does not define: the HTTP transport, the URL parser behind `http.NewRequest`,
the file system, and the text layers of `encoding/json` and `time`.  Each
operation returns a `Run`: what the Go function returned (or that it
panicked), together with the requests it handed to `http.DefaultClient.Do`.

Go strings are embedded as `String`, Go `int` as the 64-bit range of `Int`,
Go `error` as `Option String` (the message; `none` is `nil`), Go pointers as
`Option` (`none` is `nil`), Go slices as `Option (List _)` (`none` is the
nil slice), Go `[]byte` as `List UInt8`.

A `String` is a sequence of Unicode scalar values, so the Go strings that
have a counterpart here are exactly those that hold valid UTF-8.  This
matters for the string fields of a value the caller builds: `json.Marshal`
does not refuse a string with other bytes, it writes each of them as U+FFFD,
and such a string is not read back as it was.  Every statement below about
the string fields of a Deposition is a statement about valid UTF-8 strings.
The content of a file and the body of a request are bytes, with no such
restriction.

`encoding/json` is embedded structurally: a JSON text is parsed by the
environment into a `JVal`, and the way a `JVal` is stored into the structs of
`deposition.go` (field selection by the `json` tags, case-insensitive keys,
`null` leaving a field as it is, members without a field skipped, no
`omitempty` on output) is defined here, field by field.
-/

namespace GoZenodo

/-! ## JSON values -/

/-- A JSON number literal: an integer literal, or any other literal kept as
text (it has a fraction or an exponent). -/
inductive JNumber where
  | int (n : Int)
  | lit (text : String)
deriving DecidableEq

/-- A JSON value; an object keeps its members in document order, duplicate
keys included. -/
inductive JVal where
  | null
  | bool (b : Bool)
  | num (n : JNumber)
  | str (s : String)
  | arr (items : List JVal)
  | obj (members : List (String × JVal))

/-- Go `int` on a 64-bit platform. -/
abbrev GoInt := {n : Int // -9223372036854775808 ≤ n ∧ n < 9223372036854775808}

/-- The zero value of Go `int`. -/
def GoInt.zero : GoInt := ⟨0, by decide⟩

/-! ## HTTP messages -/

/-- The bytes of a Go string that holds the text `s`: its UTF-8 encoding. -/
def utf8 (s : String) : List UInt8 := s.data.flatMap String.utf8EncodeChar

/-- The parts of an `http.Request` the package sets: the method; `url`, the
URL text given to `http.NewRequest`; `target`, the URL the request carries,
which is what the URL parser made of that text; the headers in the order
they were set; and the bytes of the body. -/
structure Request where
  method : String
  url : String
  target : String
  header : List (String × String)
  body : List UInt8
deriving DecidableEq

/-- `http.Header.Set`: replaces the value of the key, or adds the key. -/
def headerSet (h : List (String × String)) (key value : String) : List (String × String) :=
  if h.any (fun kv => kv.1 == key) then
    h.map (fun kv => if kv.1 == key then (key, value) else kv)
  else h ++ [(key, value)]

/-- The parts of an `http.Response` the package reads: the status code,
and what `io.ReadAll` gives for the body (`none` when reading fails). -/
structure Response where
  statusCode : Int
  body : Option String
deriving DecidableEq

/-- What the package takes from outside: `net/http`, `os`, and the parts of
`encoding/json` and `time` that work on text.  `T` is `time.Time`, `F` is
`float64`. -/
structure Env (T F : Type) where
  /-- The zero `time.Time`. -/
  zeroTime : T
  /-- The zero `float64`. -/
  zeroFloat : F
  /-- `time.Time.MarshalJSON`: the text of the JSON string, or an error. -/
  timeMarshal : T → Option String
  /-- `time.Time.UnmarshalJSON` on the text of a JSON string. -/
  timeUnmarshal : String → Option T
  /-- The number `json.Marshal` writes for a `float64`, or an error. -/
  floatMarshal : F → Option JNumber
  /-- The `float64` that `json.Unmarshal` reads from a number literal. -/
  floatUnmarshal : JNumber → Option F
  /-- The syntax layer of `json.Unmarshal`: the value, or the message of the
  syntax error. -/
  jsonParse : String → Except String JVal
  /-- The syntax layer of `json.Marshal`. -/
  jsonRender : JVal → String
  /-- The URL parser behind `http.NewRequest`: the message of the error for
  a URL it rejects, `none` for a URL it accepts. -/
  urlError : String → Option String
  /-- The URL parser behind `http.NewRequest`, on a URL text it accepts: the
  URL as the request carries it to the server, written back as text (the
  parser escapes what the text left unescaped, a space for instance, and the
  fragment is not sent). -/
  urlTarget : String → String
  /-- `os.ReadFile`: the bytes of the file, or the error message. -/
  readFile : String → Except String (List UInt8)
  /-- The round trip `http.DefaultClient.Do`: a transport error, or the
  response. -/
  roundTrip : Request → Except String Response

/-! ## How `encoding/json` stores a value into a Go variable

Every function takes the JSON value and the current content of the
variable and returns the new content, or `none` when `json.Unmarshal`
reports an error. -/

/-- Case folding of an object key, as `encoding/json` matches keys to
struct fields: ASCII letters ignore case, and the Kelvin sign and the long s
fold to `K` and `S`. -/
def foldRune (c : Char) : Char :=
  if c = Char.ofNat 0x212A then 'K'
  else if c = Char.ofNat 0x017F then 'S'
  else c.toUpper

/-- The folded form of a key. -/
def foldName (k : String) : List Char := k.data.map foldRune

/-- Position of the struct field that an object key selects among the
fields' JSON names, if any. -/
def fieldIndex : List String → String → Option Nat
  | [], _ => none
  | n :: ns, k => if foldName n = foldName k then some 0 else (fieldIndex ns k).map (· + 1)

/-- Applies a fallible function to every element, in order; the result is
an error as soon as one application is. -/
def mapAll {α β : Type} (f : α → Option β) : List α → Option (List β)
  | [] => some []
  | x :: xs =>
    match f x, mapAll f xs with
    | some y, some ys => some (y :: ys)
    | _, _ => none

/-- Into a `string`. -/
def unmarshalString : JVal → String → Option String
  | .null, cur => some cur
  | .str s, _ => some s
  | _, _ => none

/-- Into an `int`: an integer literal in range. -/
def unmarshalInt : JVal → GoInt → Option GoInt
  | .null, cur => some cur
  | .num (.int n), _ =>
    if h : -9223372036854775808 ≤ n ∧ n < 9223372036854775808 then some ⟨n, h⟩ else none
  | _, _ => none

/-- Into a `bool`. -/
def unmarshalBool : JVal → Bool → Option Bool
  | .null, cur => some cur
  | .bool b, _ => some b
  | _, _ => none

/-- Into a `time.Time`. -/
def unmarshalTime {T F : Type} (env : Env T F) : JVal → T → Option T
  | .null, cur => some cur
  | .str s, _ => env.timeUnmarshal s
  | _, _ => none

/-- Into a `float64`. -/
def unmarshalFloat {T F : Type} (env : Env T F) : JVal → F → Option F
  | .null, cur => some cur
  | .num n, _ => env.floatUnmarshal n
  | _, _ => none

/-- Into a slice: `null` gives the nil slice, an array gives its elements,
each stored into a fresh zero element.  (This is what Go does for a slice
that is decoded once.  For an object that repeats a key, Go stores the
elements of the later array into the elements the slice already holds; that
reuse is not represented here.) -/
def unmarshalSlice {α : Type} (elem : JVal → α → Option α) (zero : α) :
    JVal → Option (List α) → Option (Option (List α))
  | .null, _ => some none
  | .arr items, _ => (mapAll (fun x => elem x zero) items).map some
  | _, _ => none

/-- Into a struct: `null` leaves it as it is; an object stores its members
one after the other, in document order. -/
def unmarshalStruct {α : Type} (setField : α → String → JVal → Option α) :
    JVal → α → Option α
  | .null, cur => some cur
  | .obj members, cur => members.foldlM (fun acc kv => setField acc kv.1 kv.2) cur
  | _, _ => none

/-- What `json.Marshal` writes for a struct: an object with one member per
field, in declaration order; it fails when a field cannot be written. -/
def marshalFields (fields : List (String × Option JVal)) : Option JVal :=
  (mapAll (fun (kv : String × Option JVal) => kv.2.map (fun j => (kv.1, j))) fields).map .obj

/-- What `json.Marshal` writes for a slice. -/
def marshalSlice {α : Type} (elem : α → Option JVal) : Option (List α) → Option JVal
  | none => some .null
  | some xs => (mapAll elem xs).map .arr

/-- What `json.Marshal` writes for a `time.Time`. -/
def marshalTime {T F : Type} (env : Env T F) (t : T) : Option JVal :=
  (env.timeMarshal t).map .str

/-- What `json.Marshal` writes for a `float64`. -/
def marshalFloat {T F : Type} (env : Env T F) (x : F) : Option JVal :=
  (env.floatMarshal x).map .num

/-! ## The data model of deposition.go -/

/-- Go struct `DepositionFile` (deposition.go:242). -/
structure DepositionFile where
  ID : String
  Filename : String
  Filesize : GoInt
  Checksum : String
deriving DecidableEq

/-- The JSON names of the fields of `DepositionFile`, in declaration order. -/
def DepositionFile.jsonNames : List String :=
  ["id", "filename", "filesize", "checksum"]

/-- The zero value of `DepositionFile`. -/
def DepositionFile.zero : DepositionFile :=
  { ID := "",
    Filename := "",
    Filesize := GoInt.zero,
    Checksum := "" }

/-- Stores a JSON value into the field of a `DepositionFile` at position `i` of the declaration;
without a position the value is skipped. -/
def DepositionFile.setFieldAt (cur : DepositionFile) (i : Option Nat) (v : JVal) :
    Option DepositionFile :=
  if i = some 0 then (unmarshalString v cur.ID).map (fun x => { cur with ID := x })
  else if i = some 1 then (unmarshalString v cur.Filename).map (fun x => { cur with Filename := x })
  else if i = some 2 then (unmarshalInt v cur.Filesize).map (fun x => { cur with Filesize := x })
  else if i = some 3 then (unmarshalString v cur.Checksum).map (fun x => { cur with Checksum := x })
  else some cur

/-- Stores one object member into a `DepositionFile`; a key that selects no field is skipped. -/
def DepositionFile.setField (cur : DepositionFile) (k : String) (v : JVal) :
    Option DepositionFile :=
  DepositionFile.setFieldAt cur (fieldIndex DepositionFile.jsonNames k) v

/-- Stores a JSON value into a `DepositionFile`. -/
def DepositionFile.unmarshal : JVal → DepositionFile → Option DepositionFile :=
  unmarshalStruct (DepositionFile.setField)

/-- What `json.Marshal` writes for a `DepositionFile`: every field, in declaration order. -/
def DepositionFile.marshal (d : DepositionFile) : Option JVal :=
  marshalFields
    [("id", some (JVal.str d.ID)),
     ("filename", some (JVal.str d.Filename)),
     ("filesize", some (JVal.num (.int d.Filesize.val))),
     ("checksum", some (JVal.str d.Checksum))]

/-- Go struct `DepositionLinks` (deposition.go:31). -/
structure DepositionLinks where
  Bucket : String
  Discard : String
  Edit : String
  Files : String
  HTML : String
  LatestDraft : String
  LatestDraftHTML : String
  Publish : String
  Self : String
deriving DecidableEq

/-- The JSON names of the fields of `DepositionLinks`, in declaration order. -/
def DepositionLinks.jsonNames : List String :=
  ["bucket", "discard", "edit", "files", "html", "latest_draft", "latest_draft_html", "publish",
   "self"]

/-- The zero value of `DepositionLinks`. -/
def DepositionLinks.zero : DepositionLinks :=
  { Bucket := "",
    Discard := "",
    Edit := "",
    Files := "",
    HTML := "",
    LatestDraft := "",
    LatestDraftHTML := "",
    Publish := "",
    Self := "" }

/-- Stores a JSON value into the field of a `DepositionLinks` at position `i` of the declaration;
without a position the value is skipped. -/
def DepositionLinks.setFieldAt (cur : DepositionLinks) (i : Option Nat) (v : JVal) :
    Option DepositionLinks :=
  if i = some 0 then (unmarshalString v cur.Bucket).map (fun x => { cur with Bucket := x })
  else if i = some 1 then (unmarshalString v cur.Discard).map (fun x => { cur with Discard := x })
  else if i = some 2 then (unmarshalString v cur.Edit).map (fun x => { cur with Edit := x })
  else if i = some 3 then (unmarshalString v cur.Files).map (fun x => { cur with Files := x })
  else if i = some 4 then (unmarshalString v cur.HTML).map (fun x => { cur with HTML := x })
  else if i = some 5 then (unmarshalString v cur.LatestDraft).map (fun x => { cur with LatestDraft := x })
  else if i = some 6 then (unmarshalString v cur.LatestDraftHTML).map (fun x => { cur with LatestDraftHTML := x })
  else if i = some 7 then (unmarshalString v cur.Publish).map (fun x => { cur with Publish := x })
  else if i = some 8 then (unmarshalString v cur.Self).map (fun x => { cur with Self := x })
  else some cur

/-- Stores one object member into a `DepositionLinks`; a key that selects no field is skipped. -/
def DepositionLinks.setField (cur : DepositionLinks) (k : String) (v : JVal) :
    Option DepositionLinks :=
  DepositionLinks.setFieldAt cur (fieldIndex DepositionLinks.jsonNames k) v

/-- Stores a JSON value into a `DepositionLinks`. -/
def DepositionLinks.unmarshal : JVal → DepositionLinks → Option DepositionLinks :=
  unmarshalStruct (DepositionLinks.setField)

/-- What `json.Marshal` writes for a `DepositionLinks`: every field, in declaration order. -/
def DepositionLinks.marshal (d : DepositionLinks) : Option JVal :=
  marshalFields
    [("bucket", some (JVal.str d.Bucket)),
     ("discard", some (JVal.str d.Discard)),
     ("edit", some (JVal.str d.Edit)),
     ("files", some (JVal.str d.Files)),
     ("html", some (JVal.str d.HTML)),
     ("latest_draft", some (JVal.str d.LatestDraft)),
     ("latest_draft_html", some (JVal.str d.LatestDraftHTML)),
     ("publish", some (JVal.str d.Publish)),
     ("self", some (JVal.str d.Self))]

/-- Go struct `DepositionCreator` (deposition.go:186). -/
structure DepositionCreator where
  Name : String
  Affiliation : String
  ORCID : String
  GND : String
deriving DecidableEq

/-- The JSON names of the fields of `DepositionCreator`, in declaration order. -/
def DepositionCreator.jsonNames : List String :=
  ["name", "affiliation", "orcid", "gnd"]

/-- The zero value of `DepositionCreator`. -/
def DepositionCreator.zero : DepositionCreator :=
  { Name := "",
    Affiliation := "",
    ORCID := "",
    GND := "" }

/-- Stores a JSON value into the field of a `DepositionCreator` at position `i` of the declaration;
without a position the value is skipped. -/
def DepositionCreator.setFieldAt (cur : DepositionCreator) (i : Option Nat) (v : JVal) :
    Option DepositionCreator :=
  if i = some 0 then (unmarshalString v cur.Name).map (fun x => { cur with Name := x })
  else if i = some 1 then (unmarshalString v cur.Affiliation).map (fun x => { cur with Affiliation := x })
  else if i = some 2 then (unmarshalString v cur.ORCID).map (fun x => { cur with ORCID := x })
  else if i = some 3 then (unmarshalString v cur.GND).map (fun x => { cur with GND := x })
  else some cur

/-- Stores one object member into a `DepositionCreator`; a key that selects no field is skipped. -/
def DepositionCreator.setField (cur : DepositionCreator) (k : String) (v : JVal) :
    Option DepositionCreator :=
  DepositionCreator.setFieldAt cur (fieldIndex DepositionCreator.jsonNames k) v

/-- Stores a JSON value into a `DepositionCreator`. -/
def DepositionCreator.unmarshal : JVal → DepositionCreator → Option DepositionCreator :=
  unmarshalStruct (DepositionCreator.setField)

/-- What `json.Marshal` writes for a `DepositionCreator`: every field, in declaration order. -/
def DepositionCreator.marshal (d : DepositionCreator) : Option JVal :=
  marshalFields
    [("name", some (JVal.str d.Name)),
     ("affiliation", some (JVal.str d.Affiliation)),
     ("orcid", some (JVal.str d.ORCID)),
     ("gnd", some (JVal.str d.GND))]

/-- Go struct `DepositionIdentifier` (deposition.go:193). -/
structure DepositionIdentifier where
  Identifier : String
  Relation : String
  ResourceType : String
deriving DecidableEq

/-- The JSON names of the fields of `DepositionIdentifier`, in declaration order. -/
def DepositionIdentifier.jsonNames : List String :=
  ["identifier", "relation", "resource_type"]

/-- The zero value of `DepositionIdentifier`. -/
def DepositionIdentifier.zero : DepositionIdentifier :=
  { Identifier := "",
    Relation := "",
    ResourceType := "" }

/-- Stores a JSON value into the field of a `DepositionIdentifier` at position `i` of the declaration;
without a position the value is skipped. -/
def DepositionIdentifier.setFieldAt (cur : DepositionIdentifier) (i : Option Nat) (v : JVal) :
    Option DepositionIdentifier :=
  if i = some 0 then (unmarshalString v cur.Identifier).map (fun x => { cur with Identifier := x })
  else if i = some 1 then (unmarshalString v cur.Relation).map (fun x => { cur with Relation := x })
  else if i = some 2 then (unmarshalString v cur.ResourceType).map (fun x => { cur with ResourceType := x })
  else some cur

/-- Stores one object member into a `DepositionIdentifier`; a key that selects no field is skipped. -/
def DepositionIdentifier.setField (cur : DepositionIdentifier) (k : String) (v : JVal) :
    Option DepositionIdentifier :=
  DepositionIdentifier.setFieldAt cur (fieldIndex DepositionIdentifier.jsonNames k) v

/-- Stores a JSON value into a `DepositionIdentifier`. -/
def DepositionIdentifier.unmarshal : JVal → DepositionIdentifier → Option DepositionIdentifier :=
  unmarshalStruct (DepositionIdentifier.setField)

/-- What `json.Marshal` writes for a `DepositionIdentifier`: every field, in declaration order. -/
def DepositionIdentifier.marshal (d : DepositionIdentifier) : Option JVal :=
  marshalFields
    [("identifier", some (JVal.str d.Identifier)),
     ("relation", some (JVal.str d.Relation)),
     ("resource_type", some (JVal.str d.ResourceType))]

/-- Go struct `DepositionContributor` (deposition.go:199). -/
structure DepositionContributor where
  Name : String
  Type_ : String
  Affiliation : String
  ORCID : String
  GND : String
deriving DecidableEq

/-- The JSON names of the fields of `DepositionContributor`, in declaration order. -/
def DepositionContributor.jsonNames : List String :=
  ["name", "type", "affiliation", "orcid", "gnd"]

/-- The zero value of `DepositionContributor`. -/
def DepositionContributor.zero : DepositionContributor :=
  { Name := "",
    Type_ := "",
    Affiliation := "",
    ORCID := "",
    GND := "" }

/-- Stores a JSON value into the field of a `DepositionContributor` at position `i` of the declaration;
without a position the value is skipped. -/
def DepositionContributor.setFieldAt (cur : DepositionContributor) (i : Option Nat) (v : JVal) :
    Option DepositionContributor :=
  if i = some 0 then (unmarshalString v cur.Name).map (fun x => { cur with Name := x })
  else if i = some 1 then (unmarshalString v cur.Type_).map (fun x => { cur with Type_ := x })
  else if i = some 2 then (unmarshalString v cur.Affiliation).map (fun x => { cur with Affiliation := x })
  else if i = some 3 then (unmarshalString v cur.ORCID).map (fun x => { cur with ORCID := x })
  else if i = some 4 then (unmarshalString v cur.GND).map (fun x => { cur with GND := x })
  else some cur

/-- Stores one object member into a `DepositionContributor`; a key that selects no field is skipped. -/
def DepositionContributor.setField (cur : DepositionContributor) (k : String) (v : JVal) :
    Option DepositionContributor :=
  DepositionContributor.setFieldAt cur (fieldIndex DepositionContributor.jsonNames k) v

/-- Stores a JSON value into a `DepositionContributor`. -/
def DepositionContributor.unmarshal : JVal → DepositionContributor → Option DepositionContributor :=
  unmarshalStruct (DepositionContributor.setField)

/-- What `json.Marshal` writes for a `DepositionContributor`: every field, in declaration order. -/
def DepositionContributor.marshal (d : DepositionContributor) : Option JVal :=
  marshalFields
    [("name", some (JVal.str d.Name)),
     ("type", some (JVal.str d.Type_)),
     ("affiliation", some (JVal.str d.Affiliation)),
     ("orcid", some (JVal.str d.ORCID)),
     ("gnd", some (JVal.str d.GND))]

/-- Go struct `DepositionCommunity` (deposition.go:207). -/
structure DepositionCommunity where
  Identifier : String
deriving DecidableEq

/-- The JSON names of the fields of `DepositionCommunity`, in declaration order. -/
def DepositionCommunity.jsonNames : List String :=
  ["identifier"]

/-- The zero value of `DepositionCommunity`. -/
def DepositionCommunity.zero : DepositionCommunity :=
  { Identifier := "" }

/-- Stores a JSON value into the field of a `DepositionCommunity` at position `i` of the declaration;
without a position the value is skipped. -/
def DepositionCommunity.setFieldAt (cur : DepositionCommunity) (i : Option Nat) (v : JVal) :
    Option DepositionCommunity :=
  if i = some 0 then (unmarshalString v cur.Identifier).map (fun x => { cur with Identifier := x })
  else some cur

/-- Stores one object member into a `DepositionCommunity`; a key that selects no field is skipped. -/
def DepositionCommunity.setField (cur : DepositionCommunity) (k : String) (v : JVal) :
    Option DepositionCommunity :=
  DepositionCommunity.setFieldAt cur (fieldIndex DepositionCommunity.jsonNames k) v

/-- Stores a JSON value into a `DepositionCommunity`. -/
def DepositionCommunity.unmarshal : JVal → DepositionCommunity → Option DepositionCommunity :=
  unmarshalStruct (DepositionCommunity.setField)

/-- What `json.Marshal` writes for a `DepositionCommunity`: every field, in declaration order. -/
def DepositionCommunity.marshal (d : DepositionCommunity) : Option JVal :=
  marshalFields
    [("identifier", some (JVal.str d.Identifier))]

/-- Go struct `DepositionGrant` (deposition.go:211). -/
structure DepositionGrant where
  ID : String
deriving DecidableEq

/-- The JSON names of the fields of `DepositionGrant`, in declaration order. -/
def DepositionGrant.jsonNames : List String :=
  ["id"]

/-- The zero value of `DepositionGrant`. -/
def DepositionGrant.zero : DepositionGrant :=
  { ID := "" }

/-- Stores a JSON value into the field of a `DepositionGrant` at position `i` of the declaration;
without a position the value is skipped. -/
def DepositionGrant.setFieldAt (cur : DepositionGrant) (i : Option Nat) (v : JVal) :
    Option DepositionGrant :=
  if i = some 0 then (unmarshalString v cur.ID).map (fun x => { cur with ID := x })
  else some cur

/-- Stores one object member into a `DepositionGrant`; a key that selects no field is skipped. -/
def DepositionGrant.setField (cur : DepositionGrant) (k : String) (v : JVal) :
    Option DepositionGrant :=
  DepositionGrant.setFieldAt cur (fieldIndex DepositionGrant.jsonNames k) v

/-- Stores a JSON value into a `DepositionGrant`. -/
def DepositionGrant.unmarshal : JVal → DepositionGrant → Option DepositionGrant :=
  unmarshalStruct (DepositionGrant.setField)

/-- What `json.Marshal` writes for a `DepositionGrant`: every field, in declaration order. -/
def DepositionGrant.marshal (d : DepositionGrant) : Option JVal :=
  marshalFields
    [("id", some (JVal.str d.ID))]

/-- Go struct `DepositionThesisSupervisor` (deposition.go:215). -/
structure DepositionThesisSupervisor where
  Name : String
  Affiliation : String
  ORCID : String
  GND : String
deriving DecidableEq

/-- The JSON names of the fields of `DepositionThesisSupervisor`, in declaration order. -/
def DepositionThesisSupervisor.jsonNames : List String :=
  ["name", "affiliation", "orcid", "gnd"]

/-- The zero value of `DepositionThesisSupervisor`. -/
def DepositionThesisSupervisor.zero : DepositionThesisSupervisor :=
  { Name := "",
    Affiliation := "",
    ORCID := "",
    GND := "" }

/-- Stores a JSON value into the field of a `DepositionThesisSupervisor` at position `i` of the declaration;
without a position the value is skipped. -/
def DepositionThesisSupervisor.setFieldAt (cur : DepositionThesisSupervisor) (i : Option Nat) (v : JVal) :
    Option DepositionThesisSupervisor :=
  if i = some 0 then (unmarshalString v cur.Name).map (fun x => { cur with Name := x })
  else if i = some 1 then (unmarshalString v cur.Affiliation).map (fun x => { cur with Affiliation := x })
  else if i = some 2 then (unmarshalString v cur.ORCID).map (fun x => { cur with ORCID := x })
  else if i = some 3 then (unmarshalString v cur.GND).map (fun x => { cur with GND := x })
  else some cur

/-- Stores one object member into a `DepositionThesisSupervisor`; a key that selects no field is skipped. -/
def DepositionThesisSupervisor.setField (cur : DepositionThesisSupervisor) (k : String) (v : JVal) :
    Option DepositionThesisSupervisor :=
  DepositionThesisSupervisor.setFieldAt cur (fieldIndex DepositionThesisSupervisor.jsonNames k) v

/-- Stores a JSON value into a `DepositionThesisSupervisor`. -/
def DepositionThesisSupervisor.unmarshal : JVal → DepositionThesisSupervisor → Option DepositionThesisSupervisor :=
  unmarshalStruct (DepositionThesisSupervisor.setField)

/-- What `json.Marshal` writes for a `DepositionThesisSupervisor`: every field, in declaration order. -/
def DepositionThesisSupervisor.marshal (d : DepositionThesisSupervisor) : Option JVal :=
  marshalFields
    [("name", some (JVal.str d.Name)),
     ("affiliation", some (JVal.str d.Affiliation)),
     ("orcid", some (JVal.str d.ORCID)),
     ("gnd", some (JVal.str d.GND))]

/-- Go struct `DepositionSubject` (deposition.go:222). -/
structure DepositionSubject where
  Term : String
  Identifier : String
  Scheme : String
deriving DecidableEq

/-- The JSON names of the fields of `DepositionSubject`, in declaration order. -/
def DepositionSubject.jsonNames : List String :=
  ["term", "identifier", "scheme"]

/-- The zero value of `DepositionSubject`. -/
def DepositionSubject.zero : DepositionSubject :=
  { Term := "",
    Identifier := "",
    Scheme := "" }

/-- Stores a JSON value into the field of a `DepositionSubject` at position `i` of the declaration;
without a position the value is skipped. -/
def DepositionSubject.setFieldAt (cur : DepositionSubject) (i : Option Nat) (v : JVal) :
    Option DepositionSubject :=
  if i = some 0 then (unmarshalString v cur.Term).map (fun x => { cur with Term := x })
  else if i = some 1 then (unmarshalString v cur.Identifier).map (fun x => { cur with Identifier := x })
  else if i = some 2 then (unmarshalString v cur.Scheme).map (fun x => { cur with Scheme := x })
  else some cur

/-- Stores one object member into a `DepositionSubject`; a key that selects no field is skipped. -/
def DepositionSubject.setField (cur : DepositionSubject) (k : String) (v : JVal) :
    Option DepositionSubject :=
  DepositionSubject.setFieldAt cur (fieldIndex DepositionSubject.jsonNames k) v

/-- Stores a JSON value into a `DepositionSubject`. -/
def DepositionSubject.unmarshal : JVal → DepositionSubject → Option DepositionSubject :=
  unmarshalStruct (DepositionSubject.setField)

/-- What `json.Marshal` writes for a `DepositionSubject`: every field, in declaration order. -/
def DepositionSubject.marshal (d : DepositionSubject) : Option JVal :=
  marshalFields
    [("term", some (JVal.str d.Term)),
     ("identifier", some (JVal.str d.Identifier)),
     ("scheme", some (JVal.str d.Scheme))]

/-- Go struct `DepositionLocation` (deposition.go:228). -/
structure DepositionLocation (F : Type) where
  Lat : F
  Long : F
  Place : String
  Description : String
deriving DecidableEq

/-- The JSON names of the fields of `DepositionLocation`, in declaration order. -/
def DepositionLocation.jsonNames : List String :=
  ["lat", "long", "place", "description"]

/-- The zero value of `DepositionLocation`. -/
def DepositionLocation.zero {T F : Type} (env : Env T F) : (DepositionLocation F) :=
  { Lat := env.zeroFloat,
    Long := env.zeroFloat,
    Place := "",
    Description := "" }

/-- Stores a JSON value into the field of a `DepositionLocation` at position `i` of the declaration;
without a position the value is skipped. -/
def DepositionLocation.setFieldAt {T F : Type} (env : Env T F) (cur : (DepositionLocation F)) (i : Option Nat) (v : JVal) :
    Option (DepositionLocation F) :=
  if i = some 0 then (unmarshalFloat env v cur.Lat).map (fun x => { cur with Lat := x })
  else if i = some 1 then (unmarshalFloat env v cur.Long).map (fun x => { cur with Long := x })
  else if i = some 2 then (unmarshalString v cur.Place).map (fun x => { cur with Place := x })
  else if i = some 3 then (unmarshalString v cur.Description).map (fun x => { cur with Description := x })
  else some cur

/-- Stores one object member into a `DepositionLocation`; a key that selects no field is skipped. -/
def DepositionLocation.setField {T F : Type} (env : Env T F) (cur : (DepositionLocation F)) (k : String) (v : JVal) :
    Option (DepositionLocation F) :=
  DepositionLocation.setFieldAt env cur (fieldIndex DepositionLocation.jsonNames k) v

/-- Stores a JSON value into a `DepositionLocation`. -/
def DepositionLocation.unmarshal {T F : Type} (env : Env T F) : JVal → (DepositionLocation F) → Option (DepositionLocation F) :=
  unmarshalStruct (DepositionLocation.setField env)

/-- What `json.Marshal` writes for a `DepositionLocation`: every field, in declaration order. -/
def DepositionLocation.marshal {T F : Type} (env : Env T F) (d : (DepositionLocation F)) : Option JVal :=
  marshalFields
    [("lat", marshalFloat env d.Lat),
     ("long", marshalFloat env d.Long),
     ("place", some (JVal.str d.Place)),
     ("description", some (JVal.str d.Description))]

/-- Go struct `DepositionDate` (deposition.go:235). -/
structure DepositionDate where
  Start : String
  End : String
  Type_ : String
  Description : String
deriving DecidableEq

/-- The JSON names of the fields of `DepositionDate`, in declaration order. -/
def DepositionDate.jsonNames : List String :=
  ["start", "end", "type", "description"]

/-- The zero value of `DepositionDate`. -/
def DepositionDate.zero : DepositionDate :=
  { Start := "",
    End := "",
    Type_ := "",
    Description := "" }

/-- Stores a JSON value into the field of a `DepositionDate` at position `i` of the declaration;
without a position the value is skipped. -/
def DepositionDate.setFieldAt (cur : DepositionDate) (i : Option Nat) (v : JVal) :
    Option DepositionDate :=
  if i = some 0 then (unmarshalString v cur.Start).map (fun x => { cur with Start := x })
  else if i = some 1 then (unmarshalString v cur.End).map (fun x => { cur with End := x })
  else if i = some 2 then (unmarshalString v cur.Type_).map (fun x => { cur with Type_ := x })
  else if i = some 3 then (unmarshalString v cur.Description).map (fun x => { cur with Description := x })
  else some cur

/-- Stores one object member into a `DepositionDate`; a key that selects no field is skipped. -/
def DepositionDate.setField (cur : DepositionDate) (k : String) (v : JVal) :
    Option DepositionDate :=
  DepositionDate.setFieldAt cur (fieldIndex DepositionDate.jsonNames k) v

/-- Stores a JSON value into a `DepositionDate`. -/
def DepositionDate.unmarshal : JVal → DepositionDate → Option DepositionDate :=
  unmarshalStruct (DepositionDate.setField)

/-- What `json.Marshal` writes for a `DepositionDate`: every field, in declaration order. -/
def DepositionDate.marshal (d : DepositionDate) : Option JVal :=
  marshalFields
    [("start", some (JVal.str d.Start)),
     ("end", some (JVal.str d.End)),
     ("type", some (JVal.str d.Type_)),
     ("description", some (JVal.str d.Description))]

/-- Go struct `DepositionMetadata` (deposition.go:43). -/
structure DepositionMetadata (F : Type) where
  UploadType : String
  PublicationType : String
  ImageType : String
  PublicationDate : String
  Title : String
  Creators : Option (List DepositionCreator)
  Description : String
  AccessRight : String
  License : String
  EmbargoDate : String
  AccessConditions : String
  DOI : String
  PreserveDOI : Bool
  Keywords : Option (List String)
  Notes : String
  RelatedIdentifiers : Option (List DepositionIdentifier)
  Contributors : Option (List DepositionContributor)
  References : Option (List String)
  Communities : Option (List DepositionCommunity)
  Grants : Option (List DepositionGrant)
  JournalTitle : String
  JournalVolume : String
  JournalIssue : String
  JournalPages : String
  ConferenceTitle : String
  ConferenceAcronym : String
  ConferenceDates : String
  ConferencePlace : String
  ConferenceURL : String
  ConferenceSession : String
  ConferenceSessionPart : String
  ImprintPublisher : String
  ImprintISBN : String
  ImprintPlace : String
  PartOfTitle : String
  PartOfPages : String
  ThesisSupervisors : Option (List DepositionThesisSupervisor)
  ThesisUniversity : String
  Subjects : Option (List DepositionSubject)
  Version : String
  Language : String
  Locations : Option (List (DepositionLocation F))
  Dates : Option (List DepositionDate)
  Method : String
deriving DecidableEq

/-- The JSON names of the fields of `DepositionMetadata`, in declaration order. -/
def DepositionMetadata.jsonNames : List String :=
  ["upload_type", "publication_type", "image_type", "publication_date", "title", "creators",
   "description", "access_right", "license", "embargo_date", "access_conditions", "doi",
   "preserve_doi", "keywords", "notes", "related_identifiers", "contributors", "references",
   "communities", "grants", "journal_title", "journal_volume", "journal_issue", "journal_pages",
   "conference_title", "conference_acronym", "conference_dates", "conference_place",
   "conference_url", "conference_session", "conference_session_part", "imprint_publisher",
   "imprint_isbn", "imprint_place", "partof_title", "partof_pages", "thesis_supervisors",
   "thesis_university", "subjects", "version", "language", "locations", "dates", "method"]

/-- The zero value of `DepositionMetadata`. -/
def DepositionMetadata.zero {F : Type} : (DepositionMetadata F) :=
  { UploadType := "",
    PublicationType := "",
    ImageType := "",
    PublicationDate := "",
    Title := "",
    Creators := none,
    Description := "",
    AccessRight := "",
    License := "",
    EmbargoDate := "",
    AccessConditions := "",
    DOI := "",
    PreserveDOI := false,
    Keywords := none,
    Notes := "",
    RelatedIdentifiers := none,
    Contributors := none,
    References := none,
    Communities := none,
    Grants := none,
    JournalTitle := "",
    JournalVolume := "",
    JournalIssue := "",
    JournalPages := "",
    ConferenceTitle := "",
    ConferenceAcronym := "",
    ConferenceDates := "",
    ConferencePlace := "",
    ConferenceURL := "",
    ConferenceSession := "",
    ConferenceSessionPart := "",
    ImprintPublisher := "",
    ImprintISBN := "",
    ImprintPlace := "",
    PartOfTitle := "",
    PartOfPages := "",
    ThesisSupervisors := none,
    ThesisUniversity := "",
    Subjects := none,
    Version := "",
    Language := "",
    Locations := none,
    Dates := none,
    Method := "" }

/-- Stores a JSON value into the field of a `DepositionMetadata` at position `i` of the declaration;
without a position the value is skipped. -/
def DepositionMetadata.setFieldAt {T F : Type} (env : Env T F) (cur : (DepositionMetadata F)) (i : Option Nat) (v : JVal) :
    Option (DepositionMetadata F) :=
  if i = some 0 then (unmarshalString v cur.UploadType).map (fun x => { cur with UploadType := x })
  else if i = some 1 then (unmarshalString v cur.PublicationType).map (fun x => { cur with PublicationType := x })
  else if i = some 2 then (unmarshalString v cur.ImageType).map (fun x => { cur with ImageType := x })
  else if i = some 3 then (unmarshalString v cur.PublicationDate).map (fun x => { cur with PublicationDate := x })
  else if i = some 4 then (unmarshalString v cur.Title).map (fun x => { cur with Title := x })
  else if i = some 5 then (unmarshalSlice (DepositionCreator.unmarshal) DepositionCreator.zero v cur.Creators).map (fun x => { cur with Creators := x })
  else if i = some 6 then (unmarshalString v cur.Description).map (fun x => { cur with Description := x })
  else if i = some 7 then (unmarshalString v cur.AccessRight).map (fun x => { cur with AccessRight := x })
  else if i = some 8 then (unmarshalString v cur.License).map (fun x => { cur with License := x })
  else if i = some 9 then (unmarshalString v cur.EmbargoDate).map (fun x => { cur with EmbargoDate := x })
  else if i = some 10 then (unmarshalString v cur.AccessConditions).map (fun x => { cur with AccessConditions := x })
  else if i = some 11 then (unmarshalString v cur.DOI).map (fun x => { cur with DOI := x })
  else if i = some 12 then (unmarshalBool v cur.PreserveDOI).map (fun x => { cur with PreserveDOI := x })
  else if i = some 13 then (unmarshalSlice (unmarshalString) "" v cur.Keywords).map (fun x => { cur with Keywords := x })
  else if i = some 14 then (unmarshalString v cur.Notes).map (fun x => { cur with Notes := x })
  else if i = some 15 then (unmarshalSlice (DepositionIdentifier.unmarshal) DepositionIdentifier.zero v cur.RelatedIdentifiers).map (fun x => { cur with RelatedIdentifiers := x })
  else if i = some 16 then (unmarshalSlice (DepositionContributor.unmarshal) DepositionContributor.zero v cur.Contributors).map (fun x => { cur with Contributors := x })
  else if i = some 17 then (unmarshalSlice (unmarshalString) "" v cur.References).map (fun x => { cur with References := x })
  else if i = some 18 then (unmarshalSlice (DepositionCommunity.unmarshal) DepositionCommunity.zero v cur.Communities).map (fun x => { cur with Communities := x })
  else if i = some 19 then (unmarshalSlice (DepositionGrant.unmarshal) DepositionGrant.zero v cur.Grants).map (fun x => { cur with Grants := x })
  else if i = some 20 then (unmarshalString v cur.JournalTitle).map (fun x => { cur with JournalTitle := x })
  else if i = some 21 then (unmarshalString v cur.JournalVolume).map (fun x => { cur with JournalVolume := x })
  else if i = some 22 then (unmarshalString v cur.JournalIssue).map (fun x => { cur with JournalIssue := x })
  else if i = some 23 then (unmarshalString v cur.JournalPages).map (fun x => { cur with JournalPages := x })
  else if i = some 24 then (unmarshalString v cur.ConferenceTitle).map (fun x => { cur with ConferenceTitle := x })
  else if i = some 25 then (unmarshalString v cur.ConferenceAcronym).map (fun x => { cur with ConferenceAcronym := x })
  else if i = some 26 then (unmarshalString v cur.ConferenceDates).map (fun x => { cur with ConferenceDates := x })
  else if i = some 27 then (unmarshalString v cur.ConferencePlace).map (fun x => { cur with ConferencePlace := x })
  else if i = some 28 then (unmarshalString v cur.ConferenceURL).map (fun x => { cur with ConferenceURL := x })
  else if i = some 29 then (unmarshalString v cur.ConferenceSession).map (fun x => { cur with ConferenceSession := x })
  else if i = some 30 then (unmarshalString v cur.ConferenceSessionPart).map (fun x => { cur with ConferenceSessionPart := x })
  else if i = some 31 then (unmarshalString v cur.ImprintPublisher).map (fun x => { cur with ImprintPublisher := x })
  else if i = some 32 then (unmarshalString v cur.ImprintISBN).map (fun x => { cur with ImprintISBN := x })
  else if i = some 33 then (unmarshalString v cur.ImprintPlace).map (fun x => { cur with ImprintPlace := x })
  else if i = some 34 then (unmarshalString v cur.PartOfTitle).map (fun x => { cur with PartOfTitle := x })
  else if i = some 35 then (unmarshalString v cur.PartOfPages).map (fun x => { cur with PartOfPages := x })
  else if i = some 36 then (unmarshalSlice (DepositionThesisSupervisor.unmarshal) DepositionThesisSupervisor.zero v cur.ThesisSupervisors).map (fun x => { cur with ThesisSupervisors := x })
  else if i = some 37 then (unmarshalString v cur.ThesisUniversity).map (fun x => { cur with ThesisUniversity := x })
  else if i = some 38 then (unmarshalSlice (DepositionSubject.unmarshal) DepositionSubject.zero v cur.Subjects).map (fun x => { cur with Subjects := x })
  else if i = some 39 then (unmarshalString v cur.Version).map (fun x => { cur with Version := x })
  else if i = some 40 then (unmarshalString v cur.Language).map (fun x => { cur with Language := x })
  else if i = some 41 then (unmarshalSlice (DepositionLocation.unmarshal env) (DepositionLocation.zero env) v cur.Locations).map (fun x => { cur with Locations := x })
  else if i = some 42 then (unmarshalSlice (DepositionDate.unmarshal) DepositionDate.zero v cur.Dates).map (fun x => { cur with Dates := x })
  else if i = some 43 then (unmarshalString v cur.Method).map (fun x => { cur with Method := x })
  else some cur

/-- Stores one object member into a `DepositionMetadata`; a key that selects no field is skipped. -/
def DepositionMetadata.setField {T F : Type} (env : Env T F) (cur : (DepositionMetadata F)) (k : String) (v : JVal) :
    Option (DepositionMetadata F) :=
  DepositionMetadata.setFieldAt env cur (fieldIndex DepositionMetadata.jsonNames k) v

/-- Stores a JSON value into a `DepositionMetadata`. -/
def DepositionMetadata.unmarshal {T F : Type} (env : Env T F) : JVal → (DepositionMetadata F) → Option (DepositionMetadata F) :=
  unmarshalStruct (DepositionMetadata.setField env)

/-- What `json.Marshal` writes for a `DepositionMetadata`: every field, in declaration order. -/
def DepositionMetadata.marshal {T F : Type} (env : Env T F) (d : (DepositionMetadata F)) : Option JVal :=
  marshalFields
    [("upload_type", some (JVal.str d.UploadType)),
     ("publication_type", some (JVal.str d.PublicationType)),
     ("image_type", some (JVal.str d.ImageType)),
     ("publication_date", some (JVal.str d.PublicationDate)),
     ("title", some (JVal.str d.Title)),
     ("creators", marshalSlice (DepositionCreator.marshal) d.Creators),
     ("description", some (JVal.str d.Description)),
     ("access_right", some (JVal.str d.AccessRight)),
     ("license", some (JVal.str d.License)),
     ("embargo_date", some (JVal.str d.EmbargoDate)),
     ("access_conditions", some (JVal.str d.AccessConditions)),
     ("doi", some (JVal.str d.DOI)),
     ("preserve_doi", some (JVal.bool d.PreserveDOI)),
     ("keywords", marshalSlice (fun s => some (JVal.str s)) d.Keywords),
     ("notes", some (JVal.str d.Notes)),
     ("related_identifiers", marshalSlice (DepositionIdentifier.marshal) d.RelatedIdentifiers),
     ("contributors", marshalSlice (DepositionContributor.marshal) d.Contributors),
     ("references", marshalSlice (fun s => some (JVal.str s)) d.References),
     ("communities", marshalSlice (DepositionCommunity.marshal) d.Communities),
     ("grants", marshalSlice (DepositionGrant.marshal) d.Grants),
     ("journal_title", some (JVal.str d.JournalTitle)),
     ("journal_volume", some (JVal.str d.JournalVolume)),
     ("journal_issue", some (JVal.str d.JournalIssue)),
     ("journal_pages", some (JVal.str d.JournalPages)),
     ("conference_title", some (JVal.str d.ConferenceTitle)),
     ("conference_acronym", some (JVal.str d.ConferenceAcronym)),
     ("conference_dates", some (JVal.str d.ConferenceDates)),
     ("conference_place", some (JVal.str d.ConferencePlace)),
     ("conference_url", some (JVal.str d.ConferenceURL)),
     ("conference_session", some (JVal.str d.ConferenceSession)),
     ("conference_session_part", some (JVal.str d.ConferenceSessionPart)),
     ("imprint_publisher", some (JVal.str d.ImprintPublisher)),
     ("imprint_isbn", some (JVal.str d.ImprintISBN)),
     ("imprint_place", some (JVal.str d.ImprintPlace)),
     ("partof_title", some (JVal.str d.PartOfTitle)),
     ("partof_pages", some (JVal.str d.PartOfPages)),
     ("thesis_supervisors", marshalSlice (DepositionThesisSupervisor.marshal) d.ThesisSupervisors),
     ("thesis_university", some (JVal.str d.ThesisUniversity)),
     ("subjects", marshalSlice (DepositionSubject.marshal) d.Subjects),
     ("version", some (JVal.str d.Version)),
     ("language", some (JVal.str d.Language)),
     ("locations", marshalSlice (DepositionLocation.marshal env) d.Locations),
     ("dates", marshalSlice (DepositionDate.marshal) d.Dates),
     ("method", some (JVal.str d.Method))]

/-- Go struct `Deposition` (deposition.go:14). -/
structure Deposition (T F : Type) where
  Created : T
  DOI : String
  DOIURL : String
  Files : Option (List DepositionFile)
  ID : GoInt
  Links : DepositionLinks
  Metadata : (DepositionMetadata F)
  Modified : T
  Owner : GoInt
  RecordID : GoInt
  RecordURL : String
  State : String
  Submitted : Bool
  Title : String
deriving DecidableEq

/-- The JSON names of the fields of `Deposition`, in declaration order. -/
def Deposition.jsonNames : List String :=
  ["created", "doi", "doi_url", "files", "id", "links", "metadata", "modified", "owner",
   "record_id", "record_url", "state", "submitted", "title"]

/-- The zero value of `Deposition`. -/
def Deposition.zero {T F : Type} (env : Env T F) : (Deposition T F) :=
  { Created := env.zeroTime,
    DOI := "",
    DOIURL := "",
    Files := none,
    ID := GoInt.zero,
    Links := DepositionLinks.zero,
    Metadata := DepositionMetadata.zero,
    Modified := env.zeroTime,
    Owner := GoInt.zero,
    RecordID := GoInt.zero,
    RecordURL := "",
    State := "",
    Submitted := false,
    Title := "" }

/-- Stores a JSON value into the field of a `Deposition` at position `i` of the declaration;
without a position the value is skipped. -/
def Deposition.setFieldAt {T F : Type} (env : Env T F) (cur : (Deposition T F)) (i : Option Nat) (v : JVal) :
    Option (Deposition T F) :=
  if i = some 0 then (unmarshalTime env v cur.Created).map (fun x => { cur with Created := x })
  else if i = some 1 then (unmarshalString v cur.DOI).map (fun x => { cur with DOI := x })
  else if i = some 2 then (unmarshalString v cur.DOIURL).map (fun x => { cur with DOIURL := x })
  else if i = some 3 then (unmarshalSlice (DepositionFile.unmarshal) DepositionFile.zero v cur.Files).map (fun x => { cur with Files := x })
  else if i = some 4 then (unmarshalInt v cur.ID).map (fun x => { cur with ID := x })
  else if i = some 5 then (DepositionLinks.unmarshal v cur.Links).map (fun x => { cur with Links := x })
  else if i = some 6 then (DepositionMetadata.unmarshal env v cur.Metadata).map (fun x => { cur with Metadata := x })
  else if i = some 7 then (unmarshalTime env v cur.Modified).map (fun x => { cur with Modified := x })
  else if i = some 8 then (unmarshalInt v cur.Owner).map (fun x => { cur with Owner := x })
  else if i = some 9 then (unmarshalInt v cur.RecordID).map (fun x => { cur with RecordID := x })
  else if i = some 10 then (unmarshalString v cur.RecordURL).map (fun x => { cur with RecordURL := x })
  else if i = some 11 then (unmarshalString v cur.State).map (fun x => { cur with State := x })
  else if i = some 12 then (unmarshalBool v cur.Submitted).map (fun x => { cur with Submitted := x })
  else if i = some 13 then (unmarshalString v cur.Title).map (fun x => { cur with Title := x })
  else some cur

/-- Stores one object member into a `Deposition`; a key that selects no field is skipped. -/
def Deposition.setField {T F : Type} (env : Env T F) (cur : (Deposition T F)) (k : String) (v : JVal) :
    Option (Deposition T F) :=
  Deposition.setFieldAt env cur (fieldIndex Deposition.jsonNames k) v

/-- Stores a JSON value into a `Deposition`. -/
def Deposition.unmarshal {T F : Type} (env : Env T F) : JVal → (Deposition T F) → Option (Deposition T F) :=
  unmarshalStruct (Deposition.setField env)

/-- What `json.Marshal` writes for a `Deposition`: every field, in declaration order. -/
def Deposition.marshal {T F : Type} (env : Env T F) (d : (Deposition T F)) : Option JVal :=
  marshalFields
    [("created", marshalTime env d.Created),
     ("doi", some (JVal.str d.DOI)),
     ("doi_url", some (JVal.str d.DOIURL)),
     ("files", marshalSlice (DepositionFile.marshal) d.Files),
     ("id", some (JVal.num (.int d.ID.val))),
     ("links", DepositionLinks.marshal d.Links),
     ("metadata", DepositionMetadata.marshal env d.Metadata),
     ("modified", marshalTime env d.Modified),
     ("owner", some (JVal.num (.int d.Owner.val))),
     ("record_id", some (JVal.num (.int d.RecordID.val))),
     ("record_url", some (JVal.str d.RecordURL)),
     ("state", some (JVal.str d.State)),
     ("submitted", some (JVal.bool d.Submitted)),
     ("title", some (JVal.str d.Title))]

/-- Go struct `DepositionFileUploadLinks` (deposition.go:262). -/
structure DepositionFileUploadLinks where
  Self : String
  Version : String
  Uploads : String
deriving DecidableEq

/-- The JSON names of the fields of `DepositionFileUploadLinks`, in declaration order. -/
def DepositionFileUploadLinks.jsonNames : List String :=
  ["self", "version", "uploads"]

/-- The zero value of `DepositionFileUploadLinks`. -/
def DepositionFileUploadLinks.zero : DepositionFileUploadLinks :=
  { Self := "",
    Version := "",
    Uploads := "" }

/-- Stores a JSON value into the field of a `DepositionFileUploadLinks` at position `i` of the declaration;
without a position the value is skipped. -/
def DepositionFileUploadLinks.setFieldAt (cur : DepositionFileUploadLinks) (i : Option Nat) (v : JVal) :
    Option DepositionFileUploadLinks :=
  if i = some 0 then (unmarshalString v cur.Self).map (fun x => { cur with Self := x })
  else if i = some 1 then (unmarshalString v cur.Version).map (fun x => { cur with Version := x })
  else if i = some 2 then (unmarshalString v cur.Uploads).map (fun x => { cur with Uploads := x })
  else some cur

/-- Stores one object member into a `DepositionFileUploadLinks`; a key that selects no field is skipped. -/
def DepositionFileUploadLinks.setField (cur : DepositionFileUploadLinks) (k : String) (v : JVal) :
    Option DepositionFileUploadLinks :=
  DepositionFileUploadLinks.setFieldAt cur (fieldIndex DepositionFileUploadLinks.jsonNames k) v

/-- Stores a JSON value into a `DepositionFileUploadLinks`. -/
def DepositionFileUploadLinks.unmarshal : JVal → DepositionFileUploadLinks → Option DepositionFileUploadLinks :=
  unmarshalStruct (DepositionFileUploadLinks.setField)

/-- What `json.Marshal` writes for a `DepositionFileUploadLinks`: every field, in declaration order. -/
def DepositionFileUploadLinks.marshal (d : DepositionFileUploadLinks) : Option JVal :=
  marshalFields
    [("self", some (JVal.str d.Self)),
     ("version", some (JVal.str d.Version)),
     ("uploads", some (JVal.str d.Uploads))]

/-- Go struct `DepositionFileUpload` (deposition.go:249). -/
structure DepositionFileUpload (T : Type) where
  Created : T
  Updated : T
  VersionID : String
  Key : String
  Size : GoInt
  Mimetype : String
  Checksum : String
  IsHead : Bool
  DeleteMarker : Bool
  Links : DepositionFileUploadLinks
deriving DecidableEq

/-- The JSON names of the fields of `DepositionFileUpload`, in declaration order. -/
def DepositionFileUpload.jsonNames : List String :=
  ["created", "updated", "version_id", "key", "size", "mimetype", "checksum", "is_head",
   "delete_marker", "links"]

/-- The zero value of `DepositionFileUpload`. -/
def DepositionFileUpload.zero {T F : Type} (env : Env T F) : (DepositionFileUpload T) :=
  { Created := env.zeroTime,
    Updated := env.zeroTime,
    VersionID := "",
    Key := "",
    Size := GoInt.zero,
    Mimetype := "",
    Checksum := "",
    IsHead := false,
    DeleteMarker := false,
    Links := DepositionFileUploadLinks.zero }

/-- Stores a JSON value into the field of a `DepositionFileUpload` at position `i` of the declaration;
without a position the value is skipped. -/
def DepositionFileUpload.setFieldAt {T F : Type} (env : Env T F) (cur : (DepositionFileUpload T)) (i : Option Nat) (v : JVal) :
    Option (DepositionFileUpload T) :=
  if i = some 0 then (unmarshalTime env v cur.Created).map (fun x => { cur with Created := x })
  else if i = some 1 then (unmarshalTime env v cur.Updated).map (fun x => { cur with Updated := x })
  else if i = some 2 then (unmarshalString v cur.VersionID).map (fun x => { cur with VersionID := x })
  else if i = some 3 then (unmarshalString v cur.Key).map (fun x => { cur with Key := x })
  else if i = some 4 then (unmarshalInt v cur.Size).map (fun x => { cur with Size := x })
  else if i = some 5 then (unmarshalString v cur.Mimetype).map (fun x => { cur with Mimetype := x })
  else if i = some 6 then (unmarshalString v cur.Checksum).map (fun x => { cur with Checksum := x })
  else if i = some 7 then (unmarshalBool v cur.IsHead).map (fun x => { cur with IsHead := x })
  else if i = some 8 then (unmarshalBool v cur.DeleteMarker).map (fun x => { cur with DeleteMarker := x })
  else if i = some 9 then (DepositionFileUploadLinks.unmarshal v cur.Links).map (fun x => { cur with Links := x })
  else some cur

/-- Stores one object member into a `DepositionFileUpload`; a key that selects no field is skipped. -/
def DepositionFileUpload.setField {T F : Type} (env : Env T F) (cur : (DepositionFileUpload T)) (k : String) (v : JVal) :
    Option (DepositionFileUpload T) :=
  DepositionFileUpload.setFieldAt env cur (fieldIndex DepositionFileUpload.jsonNames k) v

/-- Stores a JSON value into a `DepositionFileUpload`. -/
def DepositionFileUpload.unmarshal {T F : Type} (env : Env T F) : JVal → (DepositionFileUpload T) → Option (DepositionFileUpload T) :=
  unmarshalStruct (DepositionFileUpload.setField env)

/-- What `json.Marshal` writes for a `DepositionFileUpload`: every field, in declaration order. -/
def DepositionFileUpload.marshal {T F : Type} (env : Env T F) (d : (DepositionFileUpload T)) : Option JVal :=
  marshalFields
    [("created", marshalTime env d.Created),
     ("updated", marshalTime env d.Updated),
     ("version_id", some (JVal.str d.VersionID)),
     ("key", some (JVal.str d.Key)),
     ("size", some (JVal.num (.int d.Size.val))),
     ("mimetype", some (JVal.str d.Mimetype)),
     ("checksum", some (JVal.str d.Checksum)),
     ("is_head", some (JVal.bool d.IsHead)),
     ("delete_marker", some (JVal.bool d.DeleteMarker)),
     ("links", DepositionFileUploadLinks.marshal d.Links)]
/-! ## Configuration (gozenodo.go) -/

/-- The package variables of gozenodo.go. -/
structure Config where
  SandboxURL : String
  ProdURL : String
  SandboxMode : Bool
  Token : String
deriving DecidableEq

/-- The package variables as gozenodo.go initialises them. -/
def Config.initial : Config :=
  { SandboxURL := "https://sandbox.zenodo.org",
    ProdURL := "https://zenodo.org",
    SandboxMode := true,
    Token := "" }

/-- Go `SetAccessToken`. -/
def SetAccessToken (c : Config) (token : String) : Config :=
  { c with Token := token }

/-- Go `SetSandboxMode`. -/
def SetSandboxMode (c : Config) (mode : Bool) : Config :=
  { c with SandboxMode := mode }

/-- The local `zenodoBaseURL` of the five deposition operations:
`SandboxURL`, replaced by `ProdURL` when `!SandboxMode`. -/
def zenodoBaseURL (c : Config) : String :=
  if !c.SandboxMode then c.ProdURL else c.SandboxURL

/-! ## Runs -/

/-- One call of an operation: it returned a result and an error, or it
panicked; either way with the requests it gave to `http.DefaultClient.Do`,
in order. -/
inductive Run (α : Type) where
  | returned (result : α) (err : Option String) (calls : List Request)
  | panicked (calls : List Request)

/-- The requests given to the HTTP client during the run. -/
def Run.calls {α : Type} : Run α → List Request
  | .returned _ _ calls => calls
  | .panicked calls => calls

/-- The error of a run that returned. -/
def Run.err {α : Type} : Run α → Option (Option String)
  | .returned _ err _ => some err
  | .panicked _ => none

/-- The result of a run that returned. -/
def Run.result {α : Type} : Run α → Option α
  | .returned result _ _ => some result
  | .panicked _ => none

/-- The run returned a non-nil error. -/
def Run.failed {α : Type} : Run α → Bool
  | .returned _ (some _) _ => true
  | _ => false

/-- The run returned a non-nil error whose message contains `text`. -/
def Run.errContains {α : Type} (r : Run α) (text : String) : Prop :=
  match r with
  | .returned _ (some msg) _ => List.IsInfix text.data msg.data
  | _ => False

instance {α : Type} (r : Run α) (text : String) : Decidable (r.errContains text) := by
  unfold Run.errContains
  split
  · exact inferInstance
  · exact inferInstance

/-! ## Calls into the standard library -/

/-- `http.NewRequest(method, url, strings.NewReader(body))`, the Go string
`body` given by its bytes: the error of the URL parser, or a request with no
header yet that carries the URL as parsed. -/
def newRequest {T F : Type} (env : Env T F) (method url : String) (body : List UInt8) :
    Except String Request :=
  match env.urlError url with
  | some e => .error e
  | none =>
    .ok { method := method, url := url, target := env.urlTarget url, header := [],
          body := body }

/-- `req.Header.Set(key, value)`. -/
def Request.setHeader (req : Request) (key value : String) : Request :=
  { req with header := headerSet req.header key value }

/-- Into a pointer: `null` gives nil; any other value is stored into the
value pointed to, allocated as a zero value when the pointer is nil. -/
def unmarshalPtr {α : Type} (elem : JVal → α → Option α) (zero : α) :
    JVal → Option α → Option (Option α)
  | .null, _ => some none
  | v, cur => (elem v (cur.getD zero)).map some

/-- The message standing for the error that `json.Unmarshal` returns when a
JSON value does not fit the Go type. -/
def unmarshalTypeError : String := "json: cannot unmarshal value into Go value"

/-- The message standing for the error that `json.Marshal` returns when a
value cannot be written. -/
def marshalError : String := "json: error calling MarshalJSON or unsupported value"

/-- `json.Unmarshal(data, &response)`, from the nil `response`, by the
store function `store` of the type of `response`. -/
def jsonUnmarshal {T F α : Type} (env : Env T F) (store : JVal → α → Option α)
    (data : String) (response : α) : Except String α :=
  match env.jsonParse data with
  | .error e => .error e
  | .ok v =>
    match store v response with
    | none => .error unmarshalTypeError
    | some r => .ok r

/-- Go struct `UpdateDepositionRequest` (deposition.go:430). -/
structure UpdateDepositionRequest (T F : Type) where
  Metadata : Option (Deposition T F)

/-- What `json.Marshal` writes for an `UpdateDepositionRequest`: the object
with the single member `metadata`, whose value is the whole deposition
pointed to (`null` for a nil pointer). -/
def UpdateDepositionRequest.marshal {T F : Type} (env : Env T F)
    (r : UpdateDepositionRequest T F) : Option JVal :=
  marshalFields
    [("metadata", match r.Metadata with
        | none => some JVal.null
        | some d => Deposition.marshal env d)]

/-! ## The operations of deposition.go -/

/-- Go `CreateDeposition` (deposition.go:268). -/
def CreateDeposition {T F : Type} (env : Env T F) (c : Config) :
    Run (Option (Deposition T F)) :=
  if c.Token = "" then .returned none (some "token not set. use SetAccessToken") []
  else
    let requestURL := zenodoBaseURL c ++ "/api/deposit/depositions"
    match newRequest env "POST" requestURL (utf8 "{}") with
    | .error err => .returned none (some err) []
    | .ok req =>
      let req := req.setHeader "Content-Type" "application/json"
      let req := req.setHeader "Authorization" ("Bearer " ++ c.Token)
      match env.roundTrip req with
      | .error err => .returned none (some err) [req]
      | .ok res =>
        match res.body with
        | none => .returned none (some "couldn't decode response from zenodo") [req]
        | some data =>
          if res.statusCode ≠ 201 then
            .returned none (some ("couldn't create deposition (" ++ data ++ ")")) [req]
          else
            match jsonUnmarshal env (unmarshalPtr (Deposition.unmarshal env) (Deposition.zero env)) data none with
            | .error err => .returned none (some err) [req]
            | .ok response => .returned response none [req]

/-- Go `GetDeposition` (deposition.go:311). -/
def GetDeposition {T F : Type} (env : Env T F) (c : Config) (id : GoInt) :
    Run (Option (Deposition T F)) :=
  if c.Token = "" then .returned none (some "token not set. use SetAccessToken") []
  else
    let requestURL := zenodoBaseURL c ++ "/api/deposit/depositions/" ++ toString id.val
    match newRequest env "GET" requestURL (utf8 "{}") with
    | .error err => .returned none (some err) []
    | .ok req =>
      let req := req.setHeader "Content-Type" "application/json"
      let req := req.setHeader "Authorization" ("Bearer " ++ c.Token)
      match env.roundTrip req with
      | .error err => .returned none (some err) [req]
      | .ok res =>
        match res.body with
        | none => .returned none (some "couldn't decode response from zenodo") [req]
        | some data =>
          if res.statusCode ≠ 200 then
            .returned none (some ("couldn't get deposition (" ++ data ++ ")")) [req]
          else
            match jsonUnmarshal env (unmarshalPtr (Deposition.unmarshal env) (Deposition.zero env)) data none with
            | .error err => .returned none (some err) [req]
            | .ok response => .returned response none [req]

/-- Go `DeleteDeposition` (deposition.go:354).  The body of the response is
not read.  (On a status other than 204 the Go code also prints the status
code to standard output, which is not part of a `Run`.) -/
def DeleteDeposition {T F : Type} (env : Env T F) (c : Config) (id : GoInt) : Run Unit :=
  if c.Token = "" then .returned () (some "token not set. use SetAccessToken") []
  else
    let requestURL := zenodoBaseURL c ++ "/api/deposit/depositions/" ++ toString id.val
    match newRequest env "DELETE" requestURL (utf8 "{}") with
    | .error err => .returned () (some err) []
    | .ok req =>
      let req := req.setHeader "Content-Type" "application/json"
      let req := req.setHeader "Authorization" ("Bearer " ++ c.Token)
      match env.roundTrip req with
      | .error err => .returned () (some err) [req]
      | .ok res =>
        if res.statusCode ≠ 204 then
          .returned () (some "couldn't delete deposition") [req]
        else .returned () none [req]

/-- Go `ListDepositions` (deposition.go:387). -/
def ListDepositions {T F : Type} (env : Env T F) (c : Config) :
    Run (Option (List (Option (Deposition T F)))) :=
  if c.Token = "" then .returned none (some "token not set. use SetAccessToken") []
  else
    let requestURL := zenodoBaseURL c ++ "/api/deposit/depositions"
    match newRequest env "GET" requestURL (utf8 "{}") with
    | .error err => .returned none (some err) []
    | .ok req =>
      let req := req.setHeader "Content-Type" "application/json"
      let req := req.setHeader "Authorization" ("Bearer " ++ c.Token)
      match env.roundTrip req with
      | .error err => .returned none (some err) [req]
      | .ok res =>
        match res.body with
        | none => .returned none (some "couldn't decode response from zenodo") [req]
        | some data =>
          if res.statusCode ≠ 200 then
            .returned none (some "couldn't get depositions") [req]
          else
            match jsonUnmarshal env
                (unmarshalSlice (unmarshalPtr (Deposition.unmarshal env) (Deposition.zero env)) none)
                data none with
            | .error err => .returned none (some err) [req]
            | .ok response => .returned response none [req]

/-- Go `UpdateDeposition` (deposition.go:434).  The request data is
marshalled before `d.ID` is read, so a nil `d` panics after `json.Marshal`
and before any request is built. -/
def UpdateDeposition {T F : Type} (env : Env T F) (c : Config) (d : Option (Deposition T F)) :
    Run (Option (Deposition T F)) :=
  if c.Token = "" then .returned none (some "token not set. use SetAccessToken") []
  else
    match UpdateDepositionRequest.marshal env { Metadata := d } with
    | none => .returned none (some marshalError) []
    | some newRequestData =>
      let jsonData := env.jsonRender newRequestData
      match d with
      | none => .panicked []
      | some d =>
        let requestURL := zenodoBaseURL c ++ "/api/deposit/depositions/" ++ toString d.ID.val
        match newRequest env "PUT" requestURL (utf8 jsonData) with
        | .error err => .returned none (some err) []
        | .ok req =>
          let req := req.setHeader "Content-Type" "application/json"
          let req := req.setHeader "Authorization" ("Bearer " ++ c.Token)
          match env.roundTrip req with
          | .error err => .returned none (some err) [req]
          | .ok res =>
            match res.body with
            | none => .returned none (some "couldn't decode response from zenodo") [req]
            | some data =>
              if res.statusCode ≠ 200 then
                .returned none (some ("couldn't updatedeposition (" ++ data ++ ")")) [req]
              else
                match jsonUnmarshal env
                    (unmarshalPtr (Deposition.unmarshal env) (Deposition.zero env)) data none with
                | .error err => .returned none (some err) [req]
                | .ok response => .returned response none [req]

/-- Go `UploadFile` (deposition.go:486). -/
def UploadFile {T F : Type} (env : Env T F) (c : Config) (bucketID fileName path : String) :
    Run (Option (DepositionFileUpload T)) :=
  if c.Token = "" then .returned none (some "token not set. use SetAccessToken") []
  else
    match env.readFile path with
    | .error err => .returned none (some err) []
    | .ok fileData =>
      let requestURL := bucketID ++ "/" ++ fileName
      match newRequest env "PUT" requestURL fileData with
      | .error err => .returned none (some err) []
      | .ok req =>
        let req := req.setHeader "Authorization" ("Bearer " ++ c.Token)
        match env.roundTrip req with
        | .error err => .returned none (some err) [req]
        | .ok res =>
          match res.body with
          | none => .returned none (some "couldn't decode response from zenodo") [req]
          | some data =>
            if res.statusCode ≠ 201 then
              .returned none (some "couldn't upload file") [req]
            else
              match jsonUnmarshal env
                  (unmarshalPtr (DepositionFileUpload.unmarshal env) (DepositionFileUpload.zero env))
                  data none with
              | .error err => .returned none (some err) [req]
              | .ok response => .returned response none [req]

/-! ## The requests the operations build -/

/-- The request of the five deposition operations: the method, the URL and
the body text given to `http.NewRequest`, then the header `Content-Type` and
the header `Authorization`, set in this order. -/
def jsonRequest {T F : Type} (env : Env T F) (c : Config) (method url body : String) :
    Request :=
  { method := method, url := url, target := env.urlTarget url,
    header := [("Content-Type", "application/json"), ("Authorization", "Bearer " ++ c.Token)],
    body := utf8 body }

/-- The request of `UploadFile`: only the header `Authorization` is set. -/
def uploadRequest {T F : Type} (env : Env T F) (c : Config) (url : String)
    (body : List UInt8) : Request :=
  { method := "PUT", url := url, target := env.urlTarget url,
    header := [("Authorization", "Bearer " ++ c.Token)],
    body := body }

/-- `http.Header.Get` on the headers of a request. -/
def Request.headerGet (req : Request) (key : String) : Option String :=
  req.header.lookup key

/-! ## Marshalling and unmarshalling invert each other -/

/-- The codecs of the standard library invert each other: a time or a
number that was written is read back as the same value. -/
def Env.CodecsInvert {T F : Type} (env : Env T F) : Prop :=
  (∀ t s, env.timeMarshal t = some s → env.timeUnmarshal s = some t) ∧
  (∀ x n, env.floatMarshal x = some n → env.floatUnmarshal n = some x)

/-- A location that is read back as it is written: each coordinate, once
written, is read back as the same number. -/
def DepositionLocation.ReadsBack {T F : Type} (env : Env T F) (l : DepositionLocation F) : Prop :=
  (∀ n, env.floatMarshal l.Lat = some n → env.floatUnmarshal n = some l.Lat) ∧
  (∀ n, env.floatMarshal l.Long = some n → env.floatUnmarshal n = some l.Long)

/-- Metadata that is read back as it is written: every location is. -/
def DepositionMetadata.ReadsBack {T F : Type} (env : Env T F) (m : DepositionMetadata F) : Prop :=
  ∀ ls, m.Locations = some ls → ∀ l ∈ ls, DepositionLocation.ReadsBack env l

/-- A deposition that is read back as it is written: both times, once
written, are read back as the same time, and the metadata is read back as it
is written. -/
def Deposition.ReadsBack {T F : Type} (env : Env T F) (d : Deposition T F) : Prop :=
  (∀ s, env.timeMarshal d.Created = some s → env.timeUnmarshal s = some d.Created) ∧
  (∀ s, env.timeMarshal d.Modified = some s → env.timeUnmarshal s = some d.Modified) ∧
  DepositionMetadata.ReadsBack env d.Metadata

/-- What the standard library reads, it can write: the zero time, the zero
number, and every time and number that was read from JSON. -/
def Env.WritesWhatItReads {T F : Type} (env : Env T F) : Prop :=
  (env.timeMarshal env.zeroTime).isSome = true ∧
  (env.floatMarshal env.zeroFloat).isSome = true ∧
  (∀ s t, env.timeUnmarshal s = some t → (env.timeMarshal t).isSome = true) ∧
  (∀ n x, env.floatUnmarshal n = some x → (env.floatMarshal x).isSome = true)

/-- A location that `json.Marshal` can write: both coordinates can be
written. -/
def DepositionLocation.Writable {T F : Type} (env : Env T F) (l : DepositionLocation F) : Prop :=
  (env.floatMarshal l.Lat).isSome = true ∧ (env.floatMarshal l.Long).isSome = true

/-- Metadata that `json.Marshal` can write: every location can be written. -/
def DepositionMetadata.Writable {T F : Type} (env : Env T F) (m : DepositionMetadata F) : Prop :=
  ∀ ls, m.Locations = some ls → ∀ l ∈ ls, DepositionLocation.Writable env l

/-- A deposition that `json.Marshal` can write: both times and the metadata
can be written. -/
def Deposition.Writable {T F : Type} (env : Env T F) (d : Deposition T F) : Prop :=
  (env.timeMarshal d.Created).isSome = true ∧ (env.timeMarshal d.Modified).isSome = true ∧
  DepositionMetadata.Writable env d.Metadata

/-! ## A mock environment

A stand-in for the standard library and the network, used to run the
operations on concrete inputs: files and JSON documents are looked up in
tables, the server is a function, and the URL parser rejects ASCII control
characters, escapes a space and leaves the fragment out of what is sent (as
`net/url` and `net/http` do). -/

/-- A mock `time.Time`: a time that has an RFC 3339 text, or one whose year
is outside 0..9999, which `MarshalJSON` refuses. -/
inductive MockTime where
  | at (text : String)
  | yearOutOfRange
deriving DecidableEq

/-- A mock `float64`: a finite number, kept as its literal, or NaN, which
`json.Marshal` refuses. -/
inductive MockFloat where
  | finite (n : JNumber)
  | nan
deriving DecidableEq

/-- Mock of the text of a JSON string: the quotation mark (34) and the
backslash (92) are escaped with a backslash. -/
def mockEscape (s : String) : String :=
  String.join (s.data.map (fun ch =>
    if ch = Char.ofNat 34 ∨ ch = Char.ofNat 92 then "\\" ++ ch.toString else ch.toString))

mutual
/-- Mock of the syntax layer of `json.Marshal`: compact JSON text. -/
def mockRender : JVal → String
  | .null => "null"
  | .bool true => "true"
  | .bool false => "false"
  | .num (.int n) => toString n
  | .num (.lit text) => text
  | .str s => "\"" ++ mockEscape s ++ "\""
  | .arr items => "[" ++ mockRenderItems items ++ "]"
  | .obj members => "\x7b" ++ mockRenderMembers members ++ "\x7d"
/-- The elements of an array, separated by commas. -/
def mockRenderItems : List JVal → String
  | [] => ""
  | [x] => mockRender x
  | x :: xs => mockRender x ++ "," ++ mockRenderItems xs
/-- The members of an object, separated by commas. -/
def mockRenderMembers : List (String × JVal) → String
  | [] => ""
  | [(k, v)] => "\"" ++ mockEscape k ++ "\":" ++ mockRender v
  | (k, v) :: ms => "\"" ++ mockEscape k ++ "\":" ++ mockRender v ++ "," ++ mockRenderMembers ms
end

/-- Mock of the URL a request carries to the server: the text before the
first number sign (35), every space (32) written as `%20`. -/
def mockTarget (url : String) : String :=
  String.join ((url.data.takeWhile (fun ch => ch ≠ Char.ofNat 35)).map (fun ch =>
    if ch = Char.ofNat 32 then "%20" else ch.toString))

/-- The mock environment over a table of files (path and bytes), a table of
JSON documents and a server. -/
def mockEnv (files : List (String × List UInt8)) (docs : List (String × JVal))
    (server : Request → Except String Response) : Env MockTime MockFloat :=
  { zeroTime := .at "0001-01-01T00:00:00Z",
    zeroFloat := .finite (.int 0),
    timeMarshal := fun t =>
      match t with
      | .at text => some text
      | .yearOutOfRange => none,
    timeUnmarshal := fun s => some (.at s),
    floatMarshal := fun x =>
      match x with
      | .finite n => some n
      | .nan => none,
    floatUnmarshal := fun n => some (.finite n),
    jsonParse := fun s =>
      match docs.lookup s with
      | some v => .ok v
      | none => .error "invalid character looking for beginning of value",
    jsonRender := mockRender,
    urlError := fun url =>
      if url.data.any (fun ch => ch.val < 0x20 || ch.val == 0x7f) then
        some "net/url: invalid control character in URL"
      else none,
    urlTarget := mockTarget,
    readFile := fun path =>
      match files.lookup path with
      | some content => .ok content
      | none => .error ("open " ++ path ++ ": no such file or directory"),
    roundTrip := server }

/-- A server that counts as unreachable. -/
def noServer : Request → Except String Response :=
  fun _ => .error "dial tcp: connection refused"

/-- A server that answers every request with the same response. -/
def fixedServer (statusCode : Int) (body : String) : Request → Except String Response :=
  fun _ => .ok { statusCode := statusCode, body := some body }

/-- A response body of the create operation, as text. -/
def createdBody : String := "\x7b\"id\": 42, \"state\": \"inprogress\"\x7d"

/-- The JSON value of `createdBody`. -/
def createdDoc : JVal := .obj [("id", .num (.int 42)), ("state", .str "inprogress")]

/-- A response body of the list operation, as text: three depositions. -/
def listBody : String := "[\x7b\"id\": 3\x7d, \x7b\"id\": 1\x7d, \x7b\"id\": 2\x7d]"

/-- The JSON value of `listBody`. -/
def listDoc : JVal :=
  .arr [.obj [("id", .num (.int 3))], .obj [("id", .num (.int 1))], .obj [("id", .num (.int 2))]]

/-- A response body of the create operation with a member that the
Deposition type does not declare, as text. -/
def conceptBody : String := "\x7b\"id\": 42, \"conceptrecid\": \"41\"\x7d"

/-- The members of the JSON object of `conceptBody`. -/
def conceptMembers : List (String × JVal) :=
  [("id", .num (.int 42)), ("conceptrecid", .str "41")]

/-- The mock environment of a server that answers every request with the
status 201 and `conceptBody`. -/
def conceptEnv : Env MockTime MockFloat :=
  mockEnv [] [(conceptBody, .obj conceptMembers)] (fixedServer 201 conceptBody)

/-- The mock environment of a server that answers every request with the
status 201 and `createdBody`. -/
def createdEnv : Env MockTime MockFloat :=
  mockEnv [] [(createdBody, createdDoc)] (fixedServer 201 createdBody)

/-- The mock environment of a server that answers every request with the
status 200 and `listBody`. -/
def listEnv : Env MockTime MockFloat :=
  mockEnv [] [(listBody, listDoc)] (fixedServer 200 listBody)

/-- The mock environment of a server that answers every request with the
given status and the body `null`, the JSON text of the null value; the local
file "f.txt" exists. -/
def nullEnv (statusCode : Int) : Env MockTime MockFloat :=
  mockEnv [("f.txt", utf8 "hello")] [("null", .null)] (fixedServer statusCode "null")

/-- The run made exactly one round trip, and it completed with `res`. -/
def Answered {T F α : Type} (env : Env T F) (r : Run α) (res : Response) : Prop :=
  ∃ req, r.calls = [req] ∧ env.roundTrip req = .ok res

/-! ## What an operation returns once its round trip has completed -/

/-- After a completed round trip, `CreateDeposition` returns according to the body
and the status code of the response alone. -/
theorem CreateDeposition_of_answered {T F : Type} (env : Env T F) (c : Config)
    (req : Request) (res : Response)
    (hc : (CreateDeposition env c).calls = [req]) (hr : env.roundTrip req = .ok res) :
    CreateDeposition env c =
      match res.body with
      | none => .returned none (some "couldn't decode response from zenodo") [req]
      | some data =>
        if res.statusCode ≠ 201 then .returned none (some ("couldn't create deposition (" ++ data ++ ")")) [req]
        else
          match jsonUnmarshal env (unmarshalPtr (Deposition.unmarshal env) (Deposition.zero env)) data none with
          | .error err => .returned none (some err) [req]
          | .ok response => .returned response none [req] := by
  revert hc
  simp only [CreateDeposition]
  repeat' split
  all_goals (intro hc; simp [Run.calls] at hc; try (subst hc; simp_all))

/-- After a completed round trip, `GetDeposition` returns according to the body
and the status code of the response alone. -/
theorem GetDeposition_of_answered {T F : Type} (env : Env T F) (c : Config) (id : GoInt)
    (req : Request) (res : Response)
    (hc : (GetDeposition env c id).calls = [req]) (hr : env.roundTrip req = .ok res) :
    GetDeposition env c id =
      match res.body with
      | none => .returned none (some "couldn't decode response from zenodo") [req]
      | some data =>
        if res.statusCode ≠ 200 then .returned none (some ("couldn't get deposition (" ++ data ++ ")")) [req]
        else
          match jsonUnmarshal env (unmarshalPtr (Deposition.unmarshal env) (Deposition.zero env)) data none with
          | .error err => .returned none (some err) [req]
          | .ok response => .returned response none [req] := by
  revert hc
  simp only [GetDeposition]
  repeat' split
  all_goals (intro hc; simp [Run.calls] at hc; try (subst hc; simp_all))

/-- After a completed round trip, `UpdateDeposition` returns according to the body
and the status code of the response alone. -/
theorem UpdateDeposition_of_answered {T F : Type} (env : Env T F) (c : Config) (d : Option (Deposition T F))
    (req : Request) (res : Response)
    (hc : (UpdateDeposition env c d).calls = [req]) (hr : env.roundTrip req = .ok res) :
    UpdateDeposition env c d =
      match res.body with
      | none => .returned none (some "couldn't decode response from zenodo") [req]
      | some data =>
        if res.statusCode ≠ 200 then .returned none (some ("couldn't updatedeposition (" ++ data ++ ")")) [req]
        else
          match jsonUnmarshal env (unmarshalPtr (Deposition.unmarshal env) (Deposition.zero env)) data none with
          | .error err => .returned none (some err) [req]
          | .ok response => .returned response none [req] := by
  revert hc
  simp only [UpdateDeposition]
  repeat' split
  all_goals (intro hc; simp [Run.calls] at hc; try (subst hc; simp_all))

/-- After a completed round trip, `ListDepositions` returns according to the body
and the status code of the response alone. -/
theorem ListDepositions_of_answered {T F : Type} (env : Env T F) (c : Config)
    (req : Request) (res : Response)
    (hc : (ListDepositions env c).calls = [req]) (hr : env.roundTrip req = .ok res) :
    ListDepositions env c =
      match res.body with
      | none => .returned none (some "couldn't decode response from zenodo") [req]
      | some data =>
        if res.statusCode ≠ 200 then .returned none (some "couldn't get depositions") [req]
        else
          match jsonUnmarshal env (unmarshalSlice (unmarshalPtr (Deposition.unmarshal env) (Deposition.zero env)) none) data none with
          | .error err => .returned none (some err) [req]
          | .ok response => .returned response none [req] := by
  revert hc
  simp only [ListDepositions]
  repeat' split
  all_goals (intro hc; simp [Run.calls] at hc; try (subst hc; simp_all))

/-- After a completed round trip, `UploadFile` returns according to the body
and the status code of the response alone. -/
theorem UploadFile_of_answered {T F : Type} (env : Env T F) (c : Config) (bucketID fileName path : String)
    (req : Request) (res : Response)
    (hc : (UploadFile env c bucketID fileName path).calls = [req]) (hr : env.roundTrip req = .ok res) :
    UploadFile env c bucketID fileName path =
      match res.body with
      | none => .returned none (some "couldn't decode response from zenodo") [req]
      | some data =>
        if res.statusCode ≠ 201 then .returned none (some "couldn't upload file") [req]
        else
          match jsonUnmarshal env (unmarshalPtr (DepositionFileUpload.unmarshal env) (DepositionFileUpload.zero env)) data none with
          | .error err => .returned none (some err) [req]
          | .ok response => .returned response none [req] := by
  revert hc
  simp only [UploadFile]
  repeat' split
  all_goals (intro hc; simp [Run.calls] at hc; try (subst hc; simp_all))

/-- After a completed round trip, `DeleteDeposition` returns according to the
status code of the response alone. -/
theorem DeleteDeposition_of_answered {T F : Type} (env : Env T F) (c : Config) (id : GoInt)
    (req : Request) (res : Response)
    (hc : (DeleteDeposition env c id).calls = [req]) (hr : env.roundTrip req = .ok res) :
    DeleteDeposition env c id =
      if res.statusCode ≠ 204 then .returned () (some "couldn't delete deposition") [req]
      else .returned () none [req] := by
  revert hc
  simp only [DeleteDeposition]
  repeat' split
  all_goals (intro hc; simp [Run.calls] at hc; try (subst hc; simp_all))
/-! ## The requests an operation gives to the HTTP client -/

/-- Setting `Content-Type` and then `Authorization` on a request without
headers gives these two headers, in this order. -/
theorem headerSet_json (a b : String) :
    headerSet (headerSet [] "Content-Type" a) "Authorization" b
      = [("Content-Type", a), ("Authorization", b)] := by
  simp [headerSet]

/-- Setting `Authorization` on a request without headers gives this header
alone. -/
theorem headerSet_upload (b : String) :
    headerSet [] "Authorization" b = [("Authorization", b)] := by
  simp [headerSet]

/-- With the token set, `CreateDeposition` gives the HTTP client exactly one
request when `http.NewRequest` accepts the URL, and none when it rejects it. -/
theorem CreateDeposition_calls {T F : Type} (env : Env T F) (c : Config)
    (ht : c.Token ≠ "") :
    (CreateDeposition env c).calls =
      match env.urlError (zenodoBaseURL c ++ "/api/deposit/depositions") with
      | some _ => []
      | none => [jsonRequest env c "POST" (zenodoBaseURL c ++ "/api/deposit/depositions") "{}"] := by
  simp only [CreateDeposition, newRequest, jsonRequest, uploadRequest, Request.setHeader, ht, if_false]
  cases env.urlError (zenodoBaseURL c ++ "/api/deposit/depositions") with
  | some e => rfl
  | none =>
    simp only [headerSet_json, headerSet_upload]
    repeat' split
    all_goals rfl

/-- With the token set, `GetDeposition` gives the HTTP client exactly one
request when `http.NewRequest` accepts the URL, and none when it rejects it. -/
theorem GetDeposition_calls {T F : Type} (env : Env T F) (c : Config) (id : GoInt)
    (ht : c.Token ≠ "") :
    (GetDeposition env c id).calls =
      match env.urlError (zenodoBaseURL c ++ "/api/deposit/depositions/" ++ toString id.val) with
      | some _ => []
      | none => [jsonRequest env c "GET" (zenodoBaseURL c ++ "/api/deposit/depositions/" ++ toString id.val) "{}"] := by
  simp only [GetDeposition, newRequest, jsonRequest, uploadRequest, Request.setHeader, ht, if_false]
  cases env.urlError (zenodoBaseURL c ++ "/api/deposit/depositions/" ++ toString id.val) with
  | some e => rfl
  | none =>
    simp only [headerSet_json, headerSet_upload]
    repeat' split
    all_goals rfl

/-- With the token set, `DeleteDeposition` gives the HTTP client exactly one
request when `http.NewRequest` accepts the URL, and none when it rejects it. -/
theorem DeleteDeposition_calls {T F : Type} (env : Env T F) (c : Config) (id : GoInt)
    (ht : c.Token ≠ "") :
    (DeleteDeposition env c id).calls =
      match env.urlError (zenodoBaseURL c ++ "/api/deposit/depositions/" ++ toString id.val) with
      | some _ => []
      | none => [jsonRequest env c "DELETE" (zenodoBaseURL c ++ "/api/deposit/depositions/" ++ toString id.val) "{}"] := by
  simp only [DeleteDeposition, newRequest, jsonRequest, uploadRequest, Request.setHeader, ht, if_false]
  cases env.urlError (zenodoBaseURL c ++ "/api/deposit/depositions/" ++ toString id.val) with
  | some e => rfl
  | none =>
    simp only [headerSet_json, headerSet_upload]
    repeat' split
    all_goals rfl

/-- With the token set, `ListDepositions` gives the HTTP client exactly one
request when `http.NewRequest` accepts the URL, and none when it rejects it. -/
theorem ListDepositions_calls {T F : Type} (env : Env T F) (c : Config)
    (ht : c.Token ≠ "") :
    (ListDepositions env c).calls =
      match env.urlError (zenodoBaseURL c ++ "/api/deposit/depositions") with
      | some _ => []
      | none => [jsonRequest env c "GET" (zenodoBaseURL c ++ "/api/deposit/depositions") "{}"] := by
  simp only [ListDepositions, newRequest, jsonRequest, uploadRequest, Request.setHeader, ht, if_false]
  cases env.urlError (zenodoBaseURL c ++ "/api/deposit/depositions") with
  | some e => rfl
  | none =>
    simp only [headerSet_json, headerSet_upload]
    repeat' split
    all_goals rfl

/-- With the token set, `UpdateDeposition` gives the HTTP client exactly one
request when `http.NewRequest` accepts the URL, and none when it rejects it. -/
theorem UpdateDeposition_calls {T F : Type} (env : Env T F) (c : Config) (d : Deposition T F) (j : JVal)
    (ht : c.Token ≠ "")
    (hm : UpdateDepositionRequest.marshal env { Metadata := some d } = some j) :
    (UpdateDeposition env c (some d)).calls =
      match env.urlError (zenodoBaseURL c ++ "/api/deposit/depositions/" ++ toString d.ID.val) with
      | some _ => []
      | none => [jsonRequest env c "PUT" (zenodoBaseURL c ++ "/api/deposit/depositions/" ++ toString d.ID.val)
        (env.jsonRender j)] := by
  simp only [UpdateDeposition, newRequest, jsonRequest, uploadRequest, Request.setHeader, ht, if_false, hm]
  cases env.urlError (zenodoBaseURL c ++ "/api/deposit/depositions/" ++ toString d.ID.val) with
  | some e => rfl
  | none =>
    simp only [headerSet_json, headerSet_upload]
    repeat' split
    all_goals rfl

/-- With the token set, `UploadFile` gives the HTTP client exactly one
request when `http.NewRequest` accepts the URL, and none when it rejects it. -/
theorem UploadFile_calls {T F : Type} (env : Env T F) (c : Config) (bucketID fileName path : String)
    (fileData : List UInt8)
    (ht : c.Token ≠ "")
    (hf : env.readFile path = .ok fileData) :
    (UploadFile env c bucketID fileName path).calls =
      match env.urlError (bucketID ++ "/" ++ fileName) with
      | some _ => []
      | none => [uploadRequest env c (bucketID ++ "/" ++ fileName) fileData] := by
  simp only [UploadFile, newRequest, jsonRequest, uploadRequest, Request.setHeader, ht, if_false, hf]
  cases env.urlError (bucketID ++ "/" ++ fileName) with
  | some e => rfl
  | none =>
    simp only [headerSet_json, headerSet_upload]
    repeat' split
    all_goals rfl
/-- Every request that `CreateDeposition` gives to the HTTP client is the one
request it builds. -/
theorem CreateDeposition_issued {T F : Type} (env : Env T F) (c : Config)
    (req : Request) (h : req ∈ (CreateDeposition env c).calls) :
    req = jsonRequest env c "POST" (zenodoBaseURL c ++ "/api/deposit/depositions") "{}" := by
  by_cases ht : c.Token = ""
  · simp [CreateDeposition, ht, Run.calls] at h
  · rw [CreateDeposition_calls env c ht] at h
    cases hu : env.urlError (zenodoBaseURL c ++ "/api/deposit/depositions") <;> simp [hu] at h
    exact h

/-- Every request that `GetDeposition` gives to the HTTP client is the one
request it builds. -/
theorem GetDeposition_issued {T F : Type} (env : Env T F) (c : Config) (id : GoInt)
    (req : Request) (h : req ∈ (GetDeposition env c id).calls) :
    req = jsonRequest env c "GET" (zenodoBaseURL c ++ "/api/deposit/depositions/" ++ toString id.val) "{}" := by
  by_cases ht : c.Token = ""
  · simp [GetDeposition, ht, Run.calls] at h
  · rw [GetDeposition_calls env c id ht] at h
    cases hu : env.urlError (zenodoBaseURL c ++ "/api/deposit/depositions/" ++ toString id.val) <;> simp [hu] at h
    exact h

/-- Every request that `DeleteDeposition` gives to the HTTP client is the one
request it builds. -/
theorem DeleteDeposition_issued {T F : Type} (env : Env T F) (c : Config) (id : GoInt)
    (req : Request) (h : req ∈ (DeleteDeposition env c id).calls) :
    req = jsonRequest env c "DELETE" (zenodoBaseURL c ++ "/api/deposit/depositions/" ++ toString id.val) "{}" := by
  by_cases ht : c.Token = ""
  · simp [DeleteDeposition, ht, Run.calls] at h
  · rw [DeleteDeposition_calls env c id ht] at h
    cases hu : env.urlError (zenodoBaseURL c ++ "/api/deposit/depositions/" ++ toString id.val) <;> simp [hu] at h
    exact h

/-- Every request that `ListDepositions` gives to the HTTP client is the one
request it builds. -/
theorem ListDepositions_issued {T F : Type} (env : Env T F) (c : Config)
    (req : Request) (h : req ∈ (ListDepositions env c).calls) :
    req = jsonRequest env c "GET" (zenodoBaseURL c ++ "/api/deposit/depositions") "{}" := by
  by_cases ht : c.Token = ""
  · simp [ListDepositions, ht, Run.calls] at h
  · rw [ListDepositions_calls env c ht] at h
    cases hu : env.urlError (zenodoBaseURL c ++ "/api/deposit/depositions") <;> simp [hu] at h
    exact h

/-- Every request that `UpdateDeposition` gives to the HTTP client is the one
request it builds, whose body is the rendering of the marshalled request
data. -/
theorem UpdateDeposition_issued {T F : Type} (env : Env T F) (c : Config)
    (d : Option (Deposition T F)) (req : Request)
    (h : req ∈ (UpdateDeposition env c d).calls) :
    ∃ d0 j, d = some d0 ∧ UpdateDepositionRequest.marshal env { Metadata := d } = some j ∧
      req = jsonRequest env c "PUT"
        (zenodoBaseURL c ++ "/api/deposit/depositions/" ++ toString d0.ID.val)
        (env.jsonRender j) := by
  by_cases ht : c.Token = ""
  · simp [UpdateDeposition, ht, Run.calls] at h
  · cases d with
    | none =>
      simp only [UpdateDeposition, ht, if_false] at h
      split at h <;> simp [Run.calls] at h
    | some d0 =>
      cases hm : UpdateDepositionRequest.marshal env { Metadata := some d0 } with
      | none => simp [UpdateDeposition, ht, hm, Run.calls] at h
      | some j =>
        rw [UpdateDeposition_calls env c d0 j ht hm] at h
        cases hu : env.urlError
            (zenodoBaseURL c ++ "/api/deposit/depositions/" ++ toString d0.ID.val) <;>
          simp [hu] at h
        exact ⟨d0, j, rfl, rfl, h⟩

/-- Every request that `UploadFile` gives to the HTTP client is the one
request it builds, whose body is the content of the local file. -/
theorem UploadFile_issued {T F : Type} (env : Env T F) (c : Config)
    (bucketID fileName path : String) (req : Request)
    (h : req ∈ (UploadFile env c bucketID fileName path).calls) :
    ∃ fileData, env.readFile path = .ok fileData ∧
      req = uploadRequest env c (bucketID ++ "/" ++ fileName) fileData := by
  by_cases ht : c.Token = ""
  · simp [UploadFile, ht, Run.calls] at h
  · cases hf : env.readFile path with
    | error e => simp [UploadFile, ht, hf, Run.calls] at h
    | ok fileData =>
      rw [UploadFile_calls env c bucketID fileName path fileData ht hf] at h
      cases hu : env.urlError (bucketID ++ "/" ++ fileName) <;> simp [hu] at h
      exact ⟨fileData, rfl, h⟩
theorem unmarshalInt_val (n cur : GoInt) :
    unmarshalInt (JVal.num (.int n.val)) cur = some n := by
  simp [unmarshalInt, n.property]

theorem unmarshalString_str (x : String) (j : JVal) (h : some (JVal.str x) = some j) :
    unmarshalString j "" = some x := by
  cases h
  rfl

theorem unmarshalTime_marshalTime {T F : Type} (env : Env T F) (hc : env.CodecsInvert)
    (t : T) (j : JVal) (h : marshalTime env t = some j) (cur : T) :
    unmarshalTime env j cur = some t := by
  simp only [marshalTime, Option.map_eq_some'] at h
  obtain ⟨s, hs, rfl⟩ := h
  exact hc.1 t s hs

theorem unmarshalFloat_marshalFloat {T F : Type} (env : Env T F) (hc : env.CodecsInvert)
    (x : F) (j : JVal) (h : marshalFloat env x = some j) (cur : F) :
    unmarshalFloat env j cur = some x := by
  simp only [marshalFloat, Option.map_eq_some'] at h
  obtain ⟨n, hn, rfl⟩ := h
  exact hc.2 x n hn

theorem unmarshalTime_of_readsBack {T F : Type} (env : Env T F) (t : T) (j : JVal)
    (hr : ∀ s, env.timeMarshal t = some s → env.timeUnmarshal s = some t)
    (h : marshalTime env t = some j) (cur : T) :
    unmarshalTime env j cur = some t := by
  simp only [marshalTime, Option.map_eq_some'] at h
  obtain ⟨s, hs, rfl⟩ := h
  exact hr s hs

theorem unmarshalFloat_of_readsBack {T F : Type} (env : Env T F) (x : F) (j : JVal)
    (hr : ∀ n, env.floatMarshal x = some n → env.floatUnmarshal n = some x)
    (h : marshalFloat env x = some j) (cur : F) :
    unmarshalFloat env j cur = some x := by
  simp only [marshalFloat, Option.map_eq_some'] at h
  obtain ⟨n, hn, rfl⟩ := h
  exact hr n hn

theorem mapAll_eq_some_cons {α β : Type} (f : α → Option β) (x : α) (xs : List α)
    (ys : List β) (h : mapAll f (x :: xs) = some ys) :
    ∃ y ys0, f x = some y ∧ mapAll f xs = some ys0 ∧ ys = y :: ys0 := by
  simp only [mapAll] at h
  split at h
  · rename_i y ys0 hy hys0
    exact ⟨y, ys0, hy, hys0, by simpa using h.symm⟩
  · cases h

theorem mapAll_invert {α β : Type} (f : α → Option β) (g : β → Option α)
    (hfg : ∀ x y, f x = some y → g y = some x) (xs : List α) (ys : List β)
    (h : mapAll f xs = some ys) : mapAll g ys = some xs := by
  induction xs generalizing ys with
  | nil =>
    simp only [mapAll, Option.some.injEq] at h
    subst h
    rfl
  | cons x xs ih =>
    obtain ⟨y, ys0, hy, hys0, rfl⟩ := mapAll_eq_some_cons f x xs ys h
    simp [mapAll, hfg x y hy, ih ys0 hys0]

theorem mapAll_invert_mem {α β : Type} (f : α → Option β) (g : β → Option α)
    (xs : List α) (hfg : ∀ x ∈ xs, ∀ y, f x = some y → g y = some x) (ys : List β)
    (h : mapAll f xs = some ys) : mapAll g ys = some xs := by
  induction xs generalizing ys with
  | nil =>
    simp only [mapAll, Option.some.injEq] at h
    subst h
    rfl
  | cons x xs ih =>
    obtain ⟨y, ys0, hy, hys0, rfl⟩ := mapAll_eq_some_cons f x xs ys h
    have hx := hfg x (List.mem_cons_self x xs) y hy
    have hxs := ih (fun z hz => hfg z (List.mem_cons_of_mem x hz)) ys0 hys0
    simp [mapAll, hx, hxs]

theorem unmarshalSlice_marshalSlice_mem {α : Type} (elemM : α → Option JVal)
    (elemU : JVal → α → Option α) (zero : α) (s cur : Option (List α)) (j : JVal)
    (helem : ∀ xs, s = some xs → ∀ x ∈ xs, ∀ j, elemM x = some j → elemU j zero = some x)
    (h : marshalSlice elemM s = some j) :
    unmarshalSlice elemU zero j cur = some s := by
  cases s with
  | none =>
    simp [marshalSlice] at h
    subst h
    rfl
  | some xs =>
    simp only [marshalSlice, Option.map_eq_some'] at h
    obtain ⟨js, hjs, rfl⟩ := h
    simp [unmarshalSlice,
      mapAll_invert_mem elemM (fun x => elemU x zero) xs (helem xs rfl) js hjs]

theorem unmarshalSlice_marshalSlice {α : Type} (elemM : α → Option JVal)
    (elemU : JVal → α → Option α) (zero : α)
    (helem : ∀ x j, elemM x = some j → elemU j zero = some x)
    (s cur : Option (List α)) (j : JVal) (h : marshalSlice elemM s = some j) :
    unmarshalSlice elemU zero j cur = some s := by
  cases s with
  | none =>
    simp [marshalSlice] at h
    subst h
    rfl
  | some xs =>
    simp only [marshalSlice, Option.map_eq_some'] at h
    obtain ⟨js, hjs, rfl⟩ := h
    simp [unmarshalSlice, mapAll_invert elemM (fun x => elemU x zero) helem xs js hjs]

theorem marshalFields_mem (fields : List (String × Option JVal)) (j : JVal)
    (h : marshalFields fields = some j) (k : String) (o : Option JVal) (hk : (k, o) ∈ fields) :
    ∃ v, o = some v := by
  simp only [marshalFields, Option.map_eq_some'] at h
  obtain ⟨kvs, hkvs, -⟩ := h
  induction fields generalizing kvs with
  | nil => cases hk
  | cons f fs ih =>
    obtain ⟨y, ys0, hy, hys0, _⟩ := mapAll_eq_some_cons _ f fs kvs hkvs
    rcases List.mem_cons.mp hk with hk | hk
    · subst hk
      simp only [Option.map_eq_some'] at hy
      obtain ⟨v, hv, _⟩ := hy
      exact ⟨v, hv⟩
    · exact ih hk ys0 hys0

theorem DepositionFile_setField_id (cur : DepositionFile) (v : JVal) :
    DepositionFile.setField cur "id" v =
      (unmarshalString v cur.ID).map (fun x => { cur with ID := x }) := by
  unfold DepositionFile.setField
  rw [show fieldIndex DepositionFile.jsonNames "id" = some 0 by decide]
  rfl

theorem DepositionFile_setField_filename (cur : DepositionFile) (v : JVal) :
    DepositionFile.setField cur "filename" v =
      (unmarshalString v cur.Filename).map (fun x => { cur with Filename := x }) := by
  unfold DepositionFile.setField
  rw [show fieldIndex DepositionFile.jsonNames "filename" = some 1 by decide]
  rfl

theorem DepositionFile_setField_filesize (cur : DepositionFile) (v : JVal) :
    DepositionFile.setField cur "filesize" v =
      (unmarshalInt v cur.Filesize).map (fun x => { cur with Filesize := x }) := by
  unfold DepositionFile.setField
  rw [show fieldIndex DepositionFile.jsonNames "filesize" = some 2 by decide]
  rfl

theorem DepositionFile_setField_checksum (cur : DepositionFile) (v : JVal) :
    DepositionFile.setField cur "checksum" v =
      (unmarshalString v cur.Checksum).map (fun x => { cur with Checksum := x }) := by
  unfold DepositionFile.setField
  rw [show fieldIndex DepositionFile.jsonNames "checksum" = some 3 by decide]
  rfl

/-- Unmarshalling what `json.Marshal` wrote for a `DepositionFile` gives the value back. -/
theorem DepositionFile_unmarshal_marshal
    (d cur : DepositionFile) (j : JVal)
    (h : DepositionFile.marshal d = some j) :
    DepositionFile.unmarshal j cur = some d := by
  obtain ⟨a0, a1, a2, a3⟩ := d
  simp only [DepositionFile.marshal] at h
  simp only [marshalFields, mapAll, Option.map_some', Option.some.injEq] at h
  subst h
  simp only [DepositionFile.unmarshal, unmarshalStruct, List.foldlM_cons, List.foldlM_nil,
    unmarshalString, unmarshalInt_val, unmarshalBool, Option.map_some',
    Option.bind_eq_bind, Option.some_bind, Option.pure_def,
    DepositionFile_setField_id, DepositionFile_setField_filename,
    DepositionFile_setField_filesize, DepositionFile_setField_checksum]

theorem DepositionLinks_setField_bucket (cur : DepositionLinks) (v : JVal) :
    DepositionLinks.setField cur "bucket" v =
      (unmarshalString v cur.Bucket).map (fun x => { cur with Bucket := x }) := by
  unfold DepositionLinks.setField
  rw [show fieldIndex DepositionLinks.jsonNames "bucket" = some 0 by decide]
  rfl

theorem DepositionLinks_setField_discard (cur : DepositionLinks) (v : JVal) :
    DepositionLinks.setField cur "discard" v =
      (unmarshalString v cur.Discard).map (fun x => { cur with Discard := x }) := by
  unfold DepositionLinks.setField
  rw [show fieldIndex DepositionLinks.jsonNames "discard" = some 1 by decide]
  rfl

theorem DepositionLinks_setField_edit (cur : DepositionLinks) (v : JVal) :
    DepositionLinks.setField cur "edit" v =
      (unmarshalString v cur.Edit).map (fun x => { cur with Edit := x }) := by
  unfold DepositionLinks.setField
  rw [show fieldIndex DepositionLinks.jsonNames "edit" = some 2 by decide]
  rfl

theorem DepositionLinks_setField_files (cur : DepositionLinks) (v : JVal) :
    DepositionLinks.setField cur "files" v =
      (unmarshalString v cur.Files).map (fun x => { cur with Files := x }) := by
  unfold DepositionLinks.setField
  rw [show fieldIndex DepositionLinks.jsonNames "files" = some 3 by decide]
  rfl

theorem DepositionLinks_setField_html (cur : DepositionLinks) (v : JVal) :
    DepositionLinks.setField cur "html" v =
      (unmarshalString v cur.HTML).map (fun x => { cur with HTML := x }) := by
  unfold DepositionLinks.setField
  rw [show fieldIndex DepositionLinks.jsonNames "html" = some 4 by decide]
  rfl

theorem DepositionLinks_setField_latest_draft (cur : DepositionLinks) (v : JVal) :
    DepositionLinks.setField cur "latest_draft" v =
      (unmarshalString v cur.LatestDraft).map (fun x => { cur with LatestDraft := x }) := by
  unfold DepositionLinks.setField
  rw [show fieldIndex DepositionLinks.jsonNames "latest_draft" = some 5 by decide]
  rfl

theorem DepositionLinks_setField_latest_draft_html (cur : DepositionLinks) (v : JVal) :
    DepositionLinks.setField cur "latest_draft_html" v =
      (unmarshalString v cur.LatestDraftHTML).map (fun x => { cur with LatestDraftHTML := x }) := by
  unfold DepositionLinks.setField
  rw [show fieldIndex DepositionLinks.jsonNames "latest_draft_html" = some 6 by decide]
  rfl

theorem DepositionLinks_setField_publish (cur : DepositionLinks) (v : JVal) :
    DepositionLinks.setField cur "publish" v =
      (unmarshalString v cur.Publish).map (fun x => { cur with Publish := x }) := by
  unfold DepositionLinks.setField
  rw [show fieldIndex DepositionLinks.jsonNames "publish" = some 7 by decide]
  rfl

theorem DepositionLinks_setField_self (cur : DepositionLinks) (v : JVal) :
    DepositionLinks.setField cur "self" v =
      (unmarshalString v cur.Self).map (fun x => { cur with Self := x }) := by
  unfold DepositionLinks.setField
  rw [show fieldIndex DepositionLinks.jsonNames "self" = some 8 by decide]
  rfl

/-- Unmarshalling what `json.Marshal` wrote for a `DepositionLinks` gives the value back. -/
theorem DepositionLinks_unmarshal_marshal
    (d cur : DepositionLinks) (j : JVal)
    (h : DepositionLinks.marshal d = some j) :
    DepositionLinks.unmarshal j cur = some d := by
  obtain ⟨a0, a1, a2, a3, a4, a5, a6, a7, a8⟩ := d
  simp only [DepositionLinks.marshal] at h
  simp only [marshalFields, mapAll, Option.map_some', Option.some.injEq] at h
  subst h
  simp only [DepositionLinks.unmarshal, unmarshalStruct, List.foldlM_cons, List.foldlM_nil,
    unmarshalString, unmarshalInt_val, unmarshalBool, Option.map_some',
    Option.bind_eq_bind, Option.some_bind, Option.pure_def,
    DepositionLinks_setField_bucket, DepositionLinks_setField_discard,
    DepositionLinks_setField_edit, DepositionLinks_setField_files, DepositionLinks_setField_html,
    DepositionLinks_setField_latest_draft, DepositionLinks_setField_latest_draft_html,
    DepositionLinks_setField_publish, DepositionLinks_setField_self]

theorem DepositionCreator_setField_name (cur : DepositionCreator) (v : JVal) :
    DepositionCreator.setField cur "name" v =
      (unmarshalString v cur.Name).map (fun x => { cur with Name := x }) := by
  unfold DepositionCreator.setField
  rw [show fieldIndex DepositionCreator.jsonNames "name" = some 0 by decide]
  rfl

theorem DepositionCreator_setField_affiliation (cur : DepositionCreator) (v : JVal) :
    DepositionCreator.setField cur "affiliation" v =
      (unmarshalString v cur.Affiliation).map (fun x => { cur with Affiliation := x }) := by
  unfold DepositionCreator.setField
  rw [show fieldIndex DepositionCreator.jsonNames "affiliation" = some 1 by decide]
  rfl

theorem DepositionCreator_setField_orcid (cur : DepositionCreator) (v : JVal) :
    DepositionCreator.setField cur "orcid" v =
      (unmarshalString v cur.ORCID).map (fun x => { cur with ORCID := x }) := by
  unfold DepositionCreator.setField
  rw [show fieldIndex DepositionCreator.jsonNames "orcid" = some 2 by decide]
  rfl

theorem DepositionCreator_setField_gnd (cur : DepositionCreator) (v : JVal) :
    DepositionCreator.setField cur "gnd" v =
      (unmarshalString v cur.GND).map (fun x => { cur with GND := x }) := by
  unfold DepositionCreator.setField
  rw [show fieldIndex DepositionCreator.jsonNames "gnd" = some 3 by decide]
  rfl

/-- Unmarshalling what `json.Marshal` wrote for a `DepositionCreator` gives the value back. -/
theorem DepositionCreator_unmarshal_marshal
    (d cur : DepositionCreator) (j : JVal)
    (h : DepositionCreator.marshal d = some j) :
    DepositionCreator.unmarshal j cur = some d := by
  obtain ⟨a0, a1, a2, a3⟩ := d
  simp only [DepositionCreator.marshal] at h
  simp only [marshalFields, mapAll, Option.map_some', Option.some.injEq] at h
  subst h
  simp only [DepositionCreator.unmarshal, unmarshalStruct, List.foldlM_cons, List.foldlM_nil,
    unmarshalString, unmarshalInt_val, unmarshalBool, Option.map_some',
    Option.bind_eq_bind, Option.some_bind, Option.pure_def,
    DepositionCreator_setField_name, DepositionCreator_setField_affiliation,
    DepositionCreator_setField_orcid, DepositionCreator_setField_gnd]

theorem DepositionIdentifier_setField_identifier (cur : DepositionIdentifier) (v : JVal) :
    DepositionIdentifier.setField cur "identifier" v =
      (unmarshalString v cur.Identifier).map (fun x => { cur with Identifier := x }) := by
  unfold DepositionIdentifier.setField
  rw [show fieldIndex DepositionIdentifier.jsonNames "identifier" = some 0 by decide]
  rfl

theorem DepositionIdentifier_setField_relation (cur : DepositionIdentifier) (v : JVal) :
    DepositionIdentifier.setField cur "relation" v =
      (unmarshalString v cur.Relation).map (fun x => { cur with Relation := x }) := by
  unfold DepositionIdentifier.setField
  rw [show fieldIndex DepositionIdentifier.jsonNames "relation" = some 1 by decide]
  rfl

theorem DepositionIdentifier_setField_resource_type (cur : DepositionIdentifier) (v : JVal) :
    DepositionIdentifier.setField cur "resource_type" v =
      (unmarshalString v cur.ResourceType).map (fun x => { cur with ResourceType := x }) := by
  unfold DepositionIdentifier.setField
  rw [show fieldIndex DepositionIdentifier.jsonNames "resource_type" = some 2 by decide]
  rfl

/-- Unmarshalling what `json.Marshal` wrote for a `DepositionIdentifier` gives the value back. -/
theorem DepositionIdentifier_unmarshal_marshal
    (d cur : DepositionIdentifier) (j : JVal)
    (h : DepositionIdentifier.marshal d = some j) :
    DepositionIdentifier.unmarshal j cur = some d := by
  obtain ⟨a0, a1, a2⟩ := d
  simp only [DepositionIdentifier.marshal] at h
  simp only [marshalFields, mapAll, Option.map_some', Option.some.injEq] at h
  subst h
  simp only [DepositionIdentifier.unmarshal, unmarshalStruct, List.foldlM_cons, List.foldlM_nil,
    unmarshalString, unmarshalInt_val, unmarshalBool, Option.map_some',
    Option.bind_eq_bind, Option.some_bind, Option.pure_def,
    DepositionIdentifier_setField_identifier, DepositionIdentifier_setField_relation,
    DepositionIdentifier_setField_resource_type]

theorem DepositionContributor_setField_name (cur : DepositionContributor) (v : JVal) :
    DepositionContributor.setField cur "name" v =
      (unmarshalString v cur.Name).map (fun x => { cur with Name := x }) := by
  unfold DepositionContributor.setField
  rw [show fieldIndex DepositionContributor.jsonNames "name" = some 0 by decide]
  rfl

theorem DepositionContributor_setField_type (cur : DepositionContributor) (v : JVal) :
    DepositionContributor.setField cur "type" v =
      (unmarshalString v cur.Type_).map (fun x => { cur with Type_ := x }) := by
  unfold DepositionContributor.setField
  rw [show fieldIndex DepositionContributor.jsonNames "type" = some 1 by decide]
  rfl

theorem DepositionContributor_setField_affiliation (cur : DepositionContributor) (v : JVal) :
    DepositionContributor.setField cur "affiliation" v =
      (unmarshalString v cur.Affiliation).map (fun x => { cur with Affiliation := x }) := by
  unfold DepositionContributor.setField
  rw [show fieldIndex DepositionContributor.jsonNames "affiliation" = some 2 by decide]
  rfl

theorem DepositionContributor_setField_orcid (cur : DepositionContributor) (v : JVal) :
    DepositionContributor.setField cur "orcid" v =
      (unmarshalString v cur.ORCID).map (fun x => { cur with ORCID := x }) := by
  unfold DepositionContributor.setField
  rw [show fieldIndex DepositionContributor.jsonNames "orcid" = some 3 by decide]
  rfl

theorem DepositionContributor_setField_gnd (cur : DepositionContributor) (v : JVal) :
    DepositionContributor.setField cur "gnd" v =
      (unmarshalString v cur.GND).map (fun x => { cur with GND := x }) := by
  unfold DepositionContributor.setField
  rw [show fieldIndex DepositionContributor.jsonNames "gnd" = some 4 by decide]
  rfl

/-- Unmarshalling what `json.Marshal` wrote for a `DepositionContributor` gives the value back. -/
theorem DepositionContributor_unmarshal_marshal
    (d cur : DepositionContributor) (j : JVal)
    (h : DepositionContributor.marshal d = some j) :
    DepositionContributor.unmarshal j cur = some d := by
  obtain ⟨a0, a1, a2, a3, a4⟩ := d
  simp only [DepositionContributor.marshal] at h
  simp only [marshalFields, mapAll, Option.map_some', Option.some.injEq] at h
  subst h
  simp only [DepositionContributor.unmarshal, unmarshalStruct, List.foldlM_cons, List.foldlM_nil,
    unmarshalString, unmarshalInt_val, unmarshalBool, Option.map_some',
    Option.bind_eq_bind, Option.some_bind, Option.pure_def,
    DepositionContributor_setField_name, DepositionContributor_setField_type,
    DepositionContributor_setField_affiliation, DepositionContributor_setField_orcid,
    DepositionContributor_setField_gnd]

theorem DepositionCommunity_setField_identifier (cur : DepositionCommunity) (v : JVal) :
    DepositionCommunity.setField cur "identifier" v =
      (unmarshalString v cur.Identifier).map (fun x => { cur with Identifier := x }) := by
  unfold DepositionCommunity.setField
  rw [show fieldIndex DepositionCommunity.jsonNames "identifier" = some 0 by decide]
  rfl

/-- Unmarshalling what `json.Marshal` wrote for a `DepositionCommunity` gives the value back. -/
theorem DepositionCommunity_unmarshal_marshal
    (d cur : DepositionCommunity) (j : JVal)
    (h : DepositionCommunity.marshal d = some j) :
    DepositionCommunity.unmarshal j cur = some d := by
  obtain ⟨a0⟩ := d
  simp only [DepositionCommunity.marshal] at h
  simp only [marshalFields, mapAll, Option.map_some', Option.some.injEq] at h
  subst h
  simp only [DepositionCommunity.unmarshal, unmarshalStruct, List.foldlM_cons, List.foldlM_nil,
    unmarshalString, unmarshalInt_val, unmarshalBool, Option.map_some',
    Option.bind_eq_bind, Option.some_bind, Option.pure_def,
    DepositionCommunity_setField_identifier]

theorem DepositionGrant_setField_id (cur : DepositionGrant) (v : JVal) :
    DepositionGrant.setField cur "id" v =
      (unmarshalString v cur.ID).map (fun x => { cur with ID := x }) := by
  unfold DepositionGrant.setField
  rw [show fieldIndex DepositionGrant.jsonNames "id" = some 0 by decide]
  rfl

/-- Unmarshalling what `json.Marshal` wrote for a `DepositionGrant` gives the value back. -/
theorem DepositionGrant_unmarshal_marshal
    (d cur : DepositionGrant) (j : JVal)
    (h : DepositionGrant.marshal d = some j) :
    DepositionGrant.unmarshal j cur = some d := by
  obtain ⟨a0⟩ := d
  simp only [DepositionGrant.marshal] at h
  simp only [marshalFields, mapAll, Option.map_some', Option.some.injEq] at h
  subst h
  simp only [DepositionGrant.unmarshal, unmarshalStruct, List.foldlM_cons, List.foldlM_nil,
    unmarshalString, unmarshalInt_val, unmarshalBool, Option.map_some',
    Option.bind_eq_bind, Option.some_bind, Option.pure_def,
    DepositionGrant_setField_id]

theorem DepositionThesisSupervisor_setField_name (cur : DepositionThesisSupervisor) (v : JVal) :
    DepositionThesisSupervisor.setField cur "name" v =
      (unmarshalString v cur.Name).map (fun x => { cur with Name := x }) := by
  unfold DepositionThesisSupervisor.setField
  rw [show fieldIndex DepositionThesisSupervisor.jsonNames "name" = some 0 by decide]
  rfl

theorem DepositionThesisSupervisor_setField_affiliation (cur : DepositionThesisSupervisor) (v : JVal) :
    DepositionThesisSupervisor.setField cur "affiliation" v =
      (unmarshalString v cur.Affiliation).map (fun x => { cur with Affiliation := x }) := by
  unfold DepositionThesisSupervisor.setField
  rw [show fieldIndex DepositionThesisSupervisor.jsonNames "affiliation" = some 1 by decide]
  rfl

theorem DepositionThesisSupervisor_setField_orcid (cur : DepositionThesisSupervisor) (v : JVal) :
    DepositionThesisSupervisor.setField cur "orcid" v =
      (unmarshalString v cur.ORCID).map (fun x => { cur with ORCID := x }) := by
  unfold DepositionThesisSupervisor.setField
  rw [show fieldIndex DepositionThesisSupervisor.jsonNames "orcid" = some 2 by decide]
  rfl

theorem DepositionThesisSupervisor_setField_gnd (cur : DepositionThesisSupervisor) (v : JVal) :
    DepositionThesisSupervisor.setField cur "gnd" v =
      (unmarshalString v cur.GND).map (fun x => { cur with GND := x }) := by
  unfold DepositionThesisSupervisor.setField
  rw [show fieldIndex DepositionThesisSupervisor.jsonNames "gnd" = some 3 by decide]
  rfl

/-- Unmarshalling what `json.Marshal` wrote for a `DepositionThesisSupervisor` gives the value back. -/
theorem DepositionThesisSupervisor_unmarshal_marshal
    (d cur : DepositionThesisSupervisor) (j : JVal)
    (h : DepositionThesisSupervisor.marshal d = some j) :
    DepositionThesisSupervisor.unmarshal j cur = some d := by
  obtain ⟨a0, a1, a2, a3⟩ := d
  simp only [DepositionThesisSupervisor.marshal] at h
  simp only [marshalFields, mapAll, Option.map_some', Option.some.injEq] at h
  subst h
  simp only [DepositionThesisSupervisor.unmarshal, unmarshalStruct, List.foldlM_cons, List.foldlM_nil,
    unmarshalString, unmarshalInt_val, unmarshalBool, Option.map_some',
    Option.bind_eq_bind, Option.some_bind, Option.pure_def,
    DepositionThesisSupervisor_setField_name, DepositionThesisSupervisor_setField_affiliation,
    DepositionThesisSupervisor_setField_orcid, DepositionThesisSupervisor_setField_gnd]

theorem DepositionSubject_setField_term (cur : DepositionSubject) (v : JVal) :
    DepositionSubject.setField cur "term" v =
      (unmarshalString v cur.Term).map (fun x => { cur with Term := x }) := by
  unfold DepositionSubject.setField
  rw [show fieldIndex DepositionSubject.jsonNames "term" = some 0 by decide]
  rfl

theorem DepositionSubject_setField_identifier (cur : DepositionSubject) (v : JVal) :
    DepositionSubject.setField cur "identifier" v =
      (unmarshalString v cur.Identifier).map (fun x => { cur with Identifier := x }) := by
  unfold DepositionSubject.setField
  rw [show fieldIndex DepositionSubject.jsonNames "identifier" = some 1 by decide]
  rfl

theorem DepositionSubject_setField_scheme (cur : DepositionSubject) (v : JVal) :
    DepositionSubject.setField cur "scheme" v =
      (unmarshalString v cur.Scheme).map (fun x => { cur with Scheme := x }) := by
  unfold DepositionSubject.setField
  rw [show fieldIndex DepositionSubject.jsonNames "scheme" = some 2 by decide]
  rfl

/-- Unmarshalling what `json.Marshal` wrote for a `DepositionSubject` gives the value back. -/
theorem DepositionSubject_unmarshal_marshal
    (d cur : DepositionSubject) (j : JVal)
    (h : DepositionSubject.marshal d = some j) :
    DepositionSubject.unmarshal j cur = some d := by
  obtain ⟨a0, a1, a2⟩ := d
  simp only [DepositionSubject.marshal] at h
  simp only [marshalFields, mapAll, Option.map_some', Option.some.injEq] at h
  subst h
  simp only [DepositionSubject.unmarshal, unmarshalStruct, List.foldlM_cons, List.foldlM_nil,
    unmarshalString, unmarshalInt_val, unmarshalBool, Option.map_some',
    Option.bind_eq_bind, Option.some_bind, Option.pure_def,
    DepositionSubject_setField_term, DepositionSubject_setField_identifier,
    DepositionSubject_setField_scheme]

theorem DepositionLocation_setField_lat {T F : Type} (env : Env T F) (cur : (DepositionLocation F)) (v : JVal) :
    DepositionLocation.setField env cur "lat" v =
      (unmarshalFloat env v cur.Lat).map (fun x => { cur with Lat := x }) := by
  unfold DepositionLocation.setField
  rw [show fieldIndex DepositionLocation.jsonNames "lat" = some 0 by decide]
  rfl

theorem DepositionLocation_setField_long {T F : Type} (env : Env T F) (cur : (DepositionLocation F)) (v : JVal) :
    DepositionLocation.setField env cur "long" v =
      (unmarshalFloat env v cur.Long).map (fun x => { cur with Long := x }) := by
  unfold DepositionLocation.setField
  rw [show fieldIndex DepositionLocation.jsonNames "long" = some 1 by decide]
  rfl

theorem DepositionLocation_setField_place {T F : Type} (env : Env T F) (cur : (DepositionLocation F)) (v : JVal) :
    DepositionLocation.setField env cur "place" v =
      (unmarshalString v cur.Place).map (fun x => { cur with Place := x }) := by
  unfold DepositionLocation.setField
  rw [show fieldIndex DepositionLocation.jsonNames "place" = some 2 by decide]
  rfl

theorem DepositionLocation_setField_description {T F : Type} (env : Env T F) (cur : (DepositionLocation F)) (v : JVal) :
    DepositionLocation.setField env cur "description" v =
      (unmarshalString v cur.Description).map (fun x => { cur with Description := x }) := by
  unfold DepositionLocation.setField
  rw [show fieldIndex DepositionLocation.jsonNames "description" = some 3 by decide]
  rfl

/-- Unmarshalling what `json.Marshal` wrote for a `DepositionLocation` gives the value back,
when its times and numbers are read back as they are written. -/
theorem DepositionLocation_unmarshal_marshal_of_readsBack {T F : Type} (env : Env T F)
    (d cur : (DepositionLocation F)) (j : JVal) (hr : DepositionLocation.ReadsBack env d)
    (h : DepositionLocation.marshal env d = some j) :
    DepositionLocation.unmarshal env j cur = some d := by
  obtain ⟨a0, a1, a2, a3⟩ := d
  simp only [DepositionLocation.marshal] at h
  obtain ⟨j0, h0⟩ := marshalFields_mem _ j h "lat" (marshalFloat env a0) (by simp)
  obtain ⟨j1, h1⟩ := marshalFields_mem _ j h "long" (marshalFloat env a1) (by simp)
  simp only [marshalFields, mapAll, Option.map_some', Option.some.injEq, h0, h1] at h
  subst h
  have u0 := fun c => unmarshalFloat_of_readsBack env a0 j0 hr.1 h0 c
  have u1 := fun c => unmarshalFloat_of_readsBack env a1 j1 hr.2 h1 c
  simp only [DepositionLocation.unmarshal, unmarshalStruct, List.foldlM_cons, List.foldlM_nil,
    unmarshalString, unmarshalInt_val, unmarshalBool, Option.map_some',
    Option.bind_eq_bind, Option.some_bind, Option.pure_def, u0, u1,
    DepositionLocation_setField_lat, DepositionLocation_setField_long,
    DepositionLocation_setField_place, DepositionLocation_setField_description]

/-- When the codecs invert each other, every `DepositionLocation` is read back as it is written. -/
theorem DepositionLocation_readsBack_of_codecsInvert {T F : Type} (env : Env T F)
    (hc : env.CodecsInvert) (d : (DepositionLocation F)) : DepositionLocation.ReadsBack env d := by
  exact ⟨fun n hn => hc.2 _ n hn, fun n hn => hc.2 _ n hn⟩

/-- Unmarshalling what `json.Marshal` wrote for a `DepositionLocation` gives the value back. -/
theorem DepositionLocation_unmarshal_marshal {T F : Type} (env : Env T F) (hc : env.CodecsInvert)
    (d cur : (DepositionLocation F)) (j : JVal)
    (h : DepositionLocation.marshal env d = some j) :
    DepositionLocation.unmarshal env j cur = some d :=
  DepositionLocation_unmarshal_marshal_of_readsBack env d cur j
    (DepositionLocation_readsBack_of_codecsInvert env hc d) h

theorem DepositionDate_setField_start (cur : DepositionDate) (v : JVal) :
    DepositionDate.setField cur "start" v =
      (unmarshalString v cur.Start).map (fun x => { cur with Start := x }) := by
  unfold DepositionDate.setField
  rw [show fieldIndex DepositionDate.jsonNames "start" = some 0 by decide]
  rfl

theorem DepositionDate_setField_end (cur : DepositionDate) (v : JVal) :
    DepositionDate.setField cur "end" v =
      (unmarshalString v cur.End).map (fun x => { cur with End := x }) := by
  unfold DepositionDate.setField
  rw [show fieldIndex DepositionDate.jsonNames "end" = some 1 by decide]
  rfl

theorem DepositionDate_setField_type (cur : DepositionDate) (v : JVal) :
    DepositionDate.setField cur "type" v =
      (unmarshalString v cur.Type_).map (fun x => { cur with Type_ := x }) := by
  unfold DepositionDate.setField
  rw [show fieldIndex DepositionDate.jsonNames "type" = some 2 by decide]
  rfl

theorem DepositionDate_setField_description (cur : DepositionDate) (v : JVal) :
    DepositionDate.setField cur "description" v =
      (unmarshalString v cur.Description).map (fun x => { cur with Description := x }) := by
  unfold DepositionDate.setField
  rw [show fieldIndex DepositionDate.jsonNames "description" = some 3 by decide]
  rfl

/-- Unmarshalling what `json.Marshal` wrote for a `DepositionDate` gives the value back. -/
theorem DepositionDate_unmarshal_marshal
    (d cur : DepositionDate) (j : JVal)
    (h : DepositionDate.marshal d = some j) :
    DepositionDate.unmarshal j cur = some d := by
  obtain ⟨a0, a1, a2, a3⟩ := d
  simp only [DepositionDate.marshal] at h
  simp only [marshalFields, mapAll, Option.map_some', Option.some.injEq] at h
  subst h
  simp only [DepositionDate.unmarshal, unmarshalStruct, List.foldlM_cons, List.foldlM_nil,
    unmarshalString, unmarshalInt_val, unmarshalBool, Option.map_some',
    Option.bind_eq_bind, Option.some_bind, Option.pure_def,
    DepositionDate_setField_start, DepositionDate_setField_end, DepositionDate_setField_type,
    DepositionDate_setField_description]

theorem DepositionMetadata_setField_upload_type {T F : Type} (env : Env T F) (cur : (DepositionMetadata F)) (v : JVal) :
    DepositionMetadata.setField env cur "upload_type" v =
      (unmarshalString v cur.UploadType).map (fun x => { cur with UploadType := x }) := by
  unfold DepositionMetadata.setField
  rw [show fieldIndex DepositionMetadata.jsonNames "upload_type" = some 0 by decide]
  rfl

theorem DepositionMetadata_setField_publication_type {T F : Type} (env : Env T F) (cur : (DepositionMetadata F)) (v : JVal) :
    DepositionMetadata.setField env cur "publication_type" v =
      (unmarshalString v cur.PublicationType).map (fun x => { cur with PublicationType := x }) := by
  unfold DepositionMetadata.setField
  rw [show fieldIndex DepositionMetadata.jsonNames "publication_type" = some 1 by decide]
  rfl

theorem DepositionMetadata_setField_image_type {T F : Type} (env : Env T F) (cur : (DepositionMetadata F)) (v : JVal) :
    DepositionMetadata.setField env cur "image_type" v =
      (unmarshalString v cur.ImageType).map (fun x => { cur with ImageType := x }) := by
  unfold DepositionMetadata.setField
  rw [show fieldIndex DepositionMetadata.jsonNames "image_type" = some 2 by decide]
  rfl

theorem DepositionMetadata_setField_publication_date {T F : Type} (env : Env T F) (cur : (DepositionMetadata F)) (v : JVal) :
    DepositionMetadata.setField env cur "publication_date" v =
      (unmarshalString v cur.PublicationDate).map (fun x => { cur with PublicationDate := x }) := by
  unfold DepositionMetadata.setField
  rw [show fieldIndex DepositionMetadata.jsonNames "publication_date" = some 3 by decide]
  rfl

theorem DepositionMetadata_setField_title {T F : Type} (env : Env T F) (cur : (DepositionMetadata F)) (v : JVal) :
    DepositionMetadata.setField env cur "title" v =
      (unmarshalString v cur.Title).map (fun x => { cur with Title := x }) := by
  unfold DepositionMetadata.setField
  rw [show fieldIndex DepositionMetadata.jsonNames "title" = some 4 by decide]
  rfl

theorem DepositionMetadata_setField_creators {T F : Type} (env : Env T F) (cur : (DepositionMetadata F)) (v : JVal) :
    DepositionMetadata.setField env cur "creators" v =
      (unmarshalSlice (DepositionCreator.unmarshal) DepositionCreator.zero v cur.Creators).map (fun x => { cur with Creators := x }) := by
  unfold DepositionMetadata.setField
  rw [show fieldIndex DepositionMetadata.jsonNames "creators" = some 5 by decide]
  rfl

theorem DepositionMetadata_setField_description {T F : Type} (env : Env T F) (cur : (DepositionMetadata F)) (v : JVal) :
    DepositionMetadata.setField env cur "description" v =
      (unmarshalString v cur.Description).map (fun x => { cur with Description := x }) := by
  unfold DepositionMetadata.setField
  rw [show fieldIndex DepositionMetadata.jsonNames "description" = some 6 by decide]
  rfl

theorem DepositionMetadata_setField_access_right {T F : Type} (env : Env T F) (cur : (DepositionMetadata F)) (v : JVal) :
    DepositionMetadata.setField env cur "access_right" v =
      (unmarshalString v cur.AccessRight).map (fun x => { cur with AccessRight := x }) := by
  unfold DepositionMetadata.setField
  rw [show fieldIndex DepositionMetadata.jsonNames "access_right" = some 7 by decide]
  rfl

theorem DepositionMetadata_setField_license {T F : Type} (env : Env T F) (cur : (DepositionMetadata F)) (v : JVal) :
    DepositionMetadata.setField env cur "license" v =
      (unmarshalString v cur.License).map (fun x => { cur with License := x }) := by
  unfold DepositionMetadata.setField
  rw [show fieldIndex DepositionMetadata.jsonNames "license" = some 8 by decide]
  rfl

theorem DepositionMetadata_setField_embargo_date {T F : Type} (env : Env T F) (cur : (DepositionMetadata F)) (v : JVal) :
    DepositionMetadata.setField env cur "embargo_date" v =
      (unmarshalString v cur.EmbargoDate).map (fun x => { cur with EmbargoDate := x }) := by
  unfold DepositionMetadata.setField
  rw [show fieldIndex DepositionMetadata.jsonNames "embargo_date" = some 9 by decide]
  rfl

theorem DepositionMetadata_setField_access_conditions {T F : Type} (env : Env T F) (cur : (DepositionMetadata F)) (v : JVal) :
    DepositionMetadata.setField env cur "access_conditions" v =
      (unmarshalString v cur.AccessConditions).map (fun x => { cur with AccessConditions := x }) := by
  unfold DepositionMetadata.setField
  rw [show fieldIndex DepositionMetadata.jsonNames "access_conditions" = some 10 by decide]
  rfl

theorem DepositionMetadata_setField_doi {T F : Type} (env : Env T F) (cur : (DepositionMetadata F)) (v : JVal) :
    DepositionMetadata.setField env cur "doi" v =
      (unmarshalString v cur.DOI).map (fun x => { cur with DOI := x }) := by
  unfold DepositionMetadata.setField
  rw [show fieldIndex DepositionMetadata.jsonNames "doi" = some 11 by decide]
  rfl

theorem DepositionMetadata_setField_preserve_doi {T F : Type} (env : Env T F) (cur : (DepositionMetadata F)) (v : JVal) :
    DepositionMetadata.setField env cur "preserve_doi" v =
      (unmarshalBool v cur.PreserveDOI).map (fun x => { cur with PreserveDOI := x }) := by
  unfold DepositionMetadata.setField
  rw [show fieldIndex DepositionMetadata.jsonNames "preserve_doi" = some 12 by decide]
  rfl

theorem DepositionMetadata_setField_keywords {T F : Type} (env : Env T F) (cur : (DepositionMetadata F)) (v : JVal) :
    DepositionMetadata.setField env cur "keywords" v =
      (unmarshalSlice (unmarshalString) "" v cur.Keywords).map (fun x => { cur with Keywords := x }) := by
  unfold DepositionMetadata.setField
  rw [show fieldIndex DepositionMetadata.jsonNames "keywords" = some 13 by decide]
  rfl

theorem DepositionMetadata_setField_notes {T F : Type} (env : Env T F) (cur : (DepositionMetadata F)) (v : JVal) :
    DepositionMetadata.setField env cur "notes" v =
      (unmarshalString v cur.Notes).map (fun x => { cur with Notes := x }) := by
  unfold DepositionMetadata.setField
  rw [show fieldIndex DepositionMetadata.jsonNames "notes" = some 14 by decide]
  rfl

theorem DepositionMetadata_setField_related_identifiers {T F : Type} (env : Env T F) (cur : (DepositionMetadata F)) (v : JVal) :
    DepositionMetadata.setField env cur "related_identifiers" v =
      (unmarshalSlice (DepositionIdentifier.unmarshal) DepositionIdentifier.zero v cur.RelatedIdentifiers).map (fun x => { cur with RelatedIdentifiers := x }) := by
  unfold DepositionMetadata.setField
  rw [show fieldIndex DepositionMetadata.jsonNames "related_identifiers" = some 15 by decide]
  rfl

theorem DepositionMetadata_setField_contributors {T F : Type} (env : Env T F) (cur : (DepositionMetadata F)) (v : JVal) :
    DepositionMetadata.setField env cur "contributors" v =
      (unmarshalSlice (DepositionContributor.unmarshal) DepositionContributor.zero v cur.Contributors).map (fun x => { cur with Contributors := x }) := by
  unfold DepositionMetadata.setField
  rw [show fieldIndex DepositionMetadata.jsonNames "contributors" = some 16 by decide]
  rfl

theorem DepositionMetadata_setField_references {T F : Type} (env : Env T F) (cur : (DepositionMetadata F)) (v : JVal) :
    DepositionMetadata.setField env cur "references" v =
      (unmarshalSlice (unmarshalString) "" v cur.References).map (fun x => { cur with References := x }) := by
  unfold DepositionMetadata.setField
  rw [show fieldIndex DepositionMetadata.jsonNames "references" = some 17 by decide]
  rfl

theorem DepositionMetadata_setField_communities {T F : Type} (env : Env T F) (cur : (DepositionMetadata F)) (v : JVal) :
    DepositionMetadata.setField env cur "communities" v =
      (unmarshalSlice (DepositionCommunity.unmarshal) DepositionCommunity.zero v cur.Communities).map (fun x => { cur with Communities := x }) := by
  unfold DepositionMetadata.setField
  rw [show fieldIndex DepositionMetadata.jsonNames "communities" = some 18 by decide]
  rfl

theorem DepositionMetadata_setField_grants {T F : Type} (env : Env T F) (cur : (DepositionMetadata F)) (v : JVal) :
    DepositionMetadata.setField env cur "grants" v =
      (unmarshalSlice (DepositionGrant.unmarshal) DepositionGrant.zero v cur.Grants).map (fun x => { cur with Grants := x }) := by
  unfold DepositionMetadata.setField
  rw [show fieldIndex DepositionMetadata.jsonNames "grants" = some 19 by decide]
  rfl

theorem DepositionMetadata_setField_journal_title {T F : Type} (env : Env T F) (cur : (DepositionMetadata F)) (v : JVal) :
    DepositionMetadata.setField env cur "journal_title" v =
      (unmarshalString v cur.JournalTitle).map (fun x => { cur with JournalTitle := x }) := by
  unfold DepositionMetadata.setField
  rw [show fieldIndex DepositionMetadata.jsonNames "journal_title" = some 20 by decide]
  rfl

theorem DepositionMetadata_setField_journal_volume {T F : Type} (env : Env T F) (cur : (DepositionMetadata F)) (v : JVal) :
    DepositionMetadata.setField env cur "journal_volume" v =
      (unmarshalString v cur.JournalVolume).map (fun x => { cur with JournalVolume := x }) := by
  unfold DepositionMetadata.setField
  rw [show fieldIndex DepositionMetadata.jsonNames "journal_volume" = some 21 by decide]
  rfl

theorem DepositionMetadata_setField_journal_issue {T F : Type} (env : Env T F) (cur : (DepositionMetadata F)) (v : JVal) :
    DepositionMetadata.setField env cur "journal_issue" v =
      (unmarshalString v cur.JournalIssue).map (fun x => { cur with JournalIssue := x }) := by
  unfold DepositionMetadata.setField
  rw [show fieldIndex DepositionMetadata.jsonNames "journal_issue" = some 22 by decide]
  rfl

theorem DepositionMetadata_setField_journal_pages {T F : Type} (env : Env T F) (cur : (DepositionMetadata F)) (v : JVal) :
    DepositionMetadata.setField env cur "journal_pages" v =
      (unmarshalString v cur.JournalPages).map (fun x => { cur with JournalPages := x }) := by
  unfold DepositionMetadata.setField
  rw [show fieldIndex DepositionMetadata.jsonNames "journal_pages" = some 23 by decide]
  rfl

theorem DepositionMetadata_setField_conference_title {T F : Type} (env : Env T F) (cur : (DepositionMetadata F)) (v : JVal) :
    DepositionMetadata.setField env cur "conference_title" v =
      (unmarshalString v cur.ConferenceTitle).map (fun x => { cur with ConferenceTitle := x }) := by
  unfold DepositionMetadata.setField
  rw [show fieldIndex DepositionMetadata.jsonNames "conference_title" = some 24 by decide]
  rfl

theorem DepositionMetadata_setField_conference_acronym {T F : Type} (env : Env T F) (cur : (DepositionMetadata F)) (v : JVal) :
    DepositionMetadata.setField env cur "conference_acronym" v =
      (unmarshalString v cur.ConferenceAcronym).map (fun x => { cur with ConferenceAcronym := x }) := by
  unfold DepositionMetadata.setField
  rw [show fieldIndex DepositionMetadata.jsonNames "conference_acronym" = some 25 by decide]
  rfl

theorem DepositionMetadata_setField_conference_dates {T F : Type} (env : Env T F) (cur : (DepositionMetadata F)) (v : JVal) :
    DepositionMetadata.setField env cur "conference_dates" v =
      (unmarshalString v cur.ConferenceDates).map (fun x => { cur with ConferenceDates := x }) := by
  unfold DepositionMetadata.setField
  rw [show fieldIndex DepositionMetadata.jsonNames "conference_dates" = some 26 by decide]
  rfl

theorem DepositionMetadata_setField_conference_place {T F : Type} (env : Env T F) (cur : (DepositionMetadata F)) (v : JVal) :
    DepositionMetadata.setField env cur "conference_place" v =
      (unmarshalString v cur.ConferencePlace).map (fun x => { cur with ConferencePlace := x }) := by
  unfold DepositionMetadata.setField
  rw [show fieldIndex DepositionMetadata.jsonNames "conference_place" = some 27 by decide]
  rfl

theorem DepositionMetadata_setField_conference_url {T F : Type} (env : Env T F) (cur : (DepositionMetadata F)) (v : JVal) :
    DepositionMetadata.setField env cur "conference_url" v =
      (unmarshalString v cur.ConferenceURL).map (fun x => { cur with ConferenceURL := x }) := by
  unfold DepositionMetadata.setField
  rw [show fieldIndex DepositionMetadata.jsonNames "conference_url" = some 28 by decide]
  rfl

theorem DepositionMetadata_setField_conference_session {T F : Type} (env : Env T F) (cur : (DepositionMetadata F)) (v : JVal) :
    DepositionMetadata.setField env cur "conference_session" v =
      (unmarshalString v cur.ConferenceSession).map (fun x => { cur with ConferenceSession := x }) := by
  unfold DepositionMetadata.setField
  rw [show fieldIndex DepositionMetadata.jsonNames "conference_session" = some 29 by decide]
  rfl

theorem DepositionMetadata_setField_conference_session_part {T F : Type} (env : Env T F) (cur : (DepositionMetadata F)) (v : JVal) :
    DepositionMetadata.setField env cur "conference_session_part" v =
      (unmarshalString v cur.ConferenceSessionPart).map (fun x => { cur with ConferenceSessionPart := x }) := by
  unfold DepositionMetadata.setField
  rw [show fieldIndex DepositionMetadata.jsonNames "conference_session_part" = some 30 by decide]
  rfl

theorem DepositionMetadata_setField_imprint_publisher {T F : Type} (env : Env T F) (cur : (DepositionMetadata F)) (v : JVal) :
    DepositionMetadata.setField env cur "imprint_publisher" v =
      (unmarshalString v cur.ImprintPublisher).map (fun x => { cur with ImprintPublisher := x }) := by
  unfold DepositionMetadata.setField
  rw [show fieldIndex DepositionMetadata.jsonNames "imprint_publisher" = some 31 by decide]
  rfl

theorem DepositionMetadata_setField_imprint_isbn {T F : Type} (env : Env T F) (cur : (DepositionMetadata F)) (v : JVal) :
    DepositionMetadata.setField env cur "imprint_isbn" v =
      (unmarshalString v cur.ImprintISBN).map (fun x => { cur with ImprintISBN := x }) := by
  unfold DepositionMetadata.setField
  rw [show fieldIndex DepositionMetadata.jsonNames "imprint_isbn" = some 32 by decide]
  rfl

theorem DepositionMetadata_setField_imprint_place {T F : Type} (env : Env T F) (cur : (DepositionMetadata F)) (v : JVal) :
    DepositionMetadata.setField env cur "imprint_place" v =
      (unmarshalString v cur.ImprintPlace).map (fun x => { cur with ImprintPlace := x }) := by
  unfold DepositionMetadata.setField
  rw [show fieldIndex DepositionMetadata.jsonNames "imprint_place" = some 33 by decide]
  rfl

theorem DepositionMetadata_setField_partof_title {T F : Type} (env : Env T F) (cur : (DepositionMetadata F)) (v : JVal) :
    DepositionMetadata.setField env cur "partof_title" v =
      (unmarshalString v cur.PartOfTitle).map (fun x => { cur with PartOfTitle := x }) := by
  unfold DepositionMetadata.setField
  rw [show fieldIndex DepositionMetadata.jsonNames "partof_title" = some 34 by decide]
  rfl

theorem DepositionMetadata_setField_partof_pages {T F : Type} (env : Env T F) (cur : (DepositionMetadata F)) (v : JVal) :
    DepositionMetadata.setField env cur "partof_pages" v =
      (unmarshalString v cur.PartOfPages).map (fun x => { cur with PartOfPages := x }) := by
  unfold DepositionMetadata.setField
  rw [show fieldIndex DepositionMetadata.jsonNames "partof_pages" = some 35 by decide]
  rfl

theorem DepositionMetadata_setField_thesis_supervisors {T F : Type} (env : Env T F) (cur : (DepositionMetadata F)) (v : JVal) :
    DepositionMetadata.setField env cur "thesis_supervisors" v =
      (unmarshalSlice (DepositionThesisSupervisor.unmarshal) DepositionThesisSupervisor.zero v cur.ThesisSupervisors).map (fun x => { cur with ThesisSupervisors := x }) := by
  unfold DepositionMetadata.setField
  rw [show fieldIndex DepositionMetadata.jsonNames "thesis_supervisors" = some 36 by decide]
  rfl

theorem DepositionMetadata_setField_thesis_university {T F : Type} (env : Env T F) (cur : (DepositionMetadata F)) (v : JVal) :
    DepositionMetadata.setField env cur "thesis_university" v =
      (unmarshalString v cur.ThesisUniversity).map (fun x => { cur with ThesisUniversity := x }) := by
  unfold DepositionMetadata.setField
  rw [show fieldIndex DepositionMetadata.jsonNames "thesis_university" = some 37 by decide]
  rfl

theorem DepositionMetadata_setField_subjects {T F : Type} (env : Env T F) (cur : (DepositionMetadata F)) (v : JVal) :
    DepositionMetadata.setField env cur "subjects" v =
      (unmarshalSlice (DepositionSubject.unmarshal) DepositionSubject.zero v cur.Subjects).map (fun x => { cur with Subjects := x }) := by
  unfold DepositionMetadata.setField
  rw [show fieldIndex DepositionMetadata.jsonNames "subjects" = some 38 by decide]
  rfl

theorem DepositionMetadata_setField_version {T F : Type} (env : Env T F) (cur : (DepositionMetadata F)) (v : JVal) :
    DepositionMetadata.setField env cur "version" v =
      (unmarshalString v cur.Version).map (fun x => { cur with Version := x }) := by
  unfold DepositionMetadata.setField
  rw [show fieldIndex DepositionMetadata.jsonNames "version" = some 39 by decide]
  rfl

theorem DepositionMetadata_setField_language {T F : Type} (env : Env T F) (cur : (DepositionMetadata F)) (v : JVal) :
    DepositionMetadata.setField env cur "language" v =
      (unmarshalString v cur.Language).map (fun x => { cur with Language := x }) := by
  unfold DepositionMetadata.setField
  rw [show fieldIndex DepositionMetadata.jsonNames "language" = some 40 by decide]
  rfl

theorem DepositionMetadata_setField_locations {T F : Type} (env : Env T F) (cur : (DepositionMetadata F)) (v : JVal) :
    DepositionMetadata.setField env cur "locations" v =
      (unmarshalSlice (DepositionLocation.unmarshal env) (DepositionLocation.zero env) v cur.Locations).map (fun x => { cur with Locations := x }) := by
  unfold DepositionMetadata.setField
  rw [show fieldIndex DepositionMetadata.jsonNames "locations" = some 41 by decide]
  rfl

theorem DepositionMetadata_setField_dates {T F : Type} (env : Env T F) (cur : (DepositionMetadata F)) (v : JVal) :
    DepositionMetadata.setField env cur "dates" v =
      (unmarshalSlice (DepositionDate.unmarshal) DepositionDate.zero v cur.Dates).map (fun x => { cur with Dates := x }) := by
  unfold DepositionMetadata.setField
  rw [show fieldIndex DepositionMetadata.jsonNames "dates" = some 42 by decide]
  rfl

theorem DepositionMetadata_setField_method {T F : Type} (env : Env T F) (cur : (DepositionMetadata F)) (v : JVal) :
    DepositionMetadata.setField env cur "method" v =
      (unmarshalString v cur.Method).map (fun x => { cur with Method := x }) := by
  unfold DepositionMetadata.setField
  rw [show fieldIndex DepositionMetadata.jsonNames "method" = some 43 by decide]
  rfl

/-- Unmarshalling what `json.Marshal` wrote for a `DepositionMetadata` gives the value back,
when its times and numbers are read back as they are written. -/
theorem DepositionMetadata_unmarshal_marshal_of_readsBack {T F : Type} (env : Env T F)
    (d cur : (DepositionMetadata F)) (j : JVal) (hr : DepositionMetadata.ReadsBack env d)
    (h : DepositionMetadata.marshal env d = some j) :
    DepositionMetadata.unmarshal env j cur = some d := by
  obtain ⟨a0, a1, a2, a3, a4, a5, a6, a7, a8, a9, a10, a11, a12, a13, a14, a15, a16, a17, a18, a19, a20, a21, a22, a23, a24, a25, a26, a27, a28, a29, a30, a31, a32, a33, a34, a35, a36, a37, a38, a39, a40, a41, a42, a43⟩ := d
  simp only [DepositionMetadata.marshal] at h
  obtain ⟨j5, h5⟩ := marshalFields_mem _ j h "creators" (marshalSlice (DepositionCreator.marshal) a5) (by simp)
  obtain ⟨j13, h13⟩ := marshalFields_mem _ j h "keywords" (marshalSlice (fun s => some (JVal.str s)) a13) (by simp)
  obtain ⟨j15, h15⟩ := marshalFields_mem _ j h "related_identifiers" (marshalSlice (DepositionIdentifier.marshal) a15) (by simp)
  obtain ⟨j16, h16⟩ := marshalFields_mem _ j h "contributors" (marshalSlice (DepositionContributor.marshal) a16) (by simp)
  obtain ⟨j17, h17⟩ := marshalFields_mem _ j h "references" (marshalSlice (fun s => some (JVal.str s)) a17) (by simp)
  obtain ⟨j18, h18⟩ := marshalFields_mem _ j h "communities" (marshalSlice (DepositionCommunity.marshal) a18) (by simp)
  obtain ⟨j19, h19⟩ := marshalFields_mem _ j h "grants" (marshalSlice (DepositionGrant.marshal) a19) (by simp)
  obtain ⟨j36, h36⟩ := marshalFields_mem _ j h "thesis_supervisors" (marshalSlice (DepositionThesisSupervisor.marshal) a36) (by simp)
  obtain ⟨j38, h38⟩ := marshalFields_mem _ j h "subjects" (marshalSlice (DepositionSubject.marshal) a38) (by simp)
  obtain ⟨j41, h41⟩ := marshalFields_mem _ j h "locations" (marshalSlice (DepositionLocation.marshal env) a41) (by simp)
  obtain ⟨j42, h42⟩ := marshalFields_mem _ j h "dates" (marshalSlice (DepositionDate.marshal) a42) (by simp)
  simp only [marshalFields, mapAll, Option.map_some', Option.some.injEq, h5, h13, h15, h16, h17, h18, h19, h36, h38, h41, h42] at h
  subst h
  have u5 := fun c => unmarshalSlice_marshalSlice _ _ (DepositionCreator.zero) (fun x j hx => DepositionCreator_unmarshal_marshal x (DepositionCreator.zero) j hx) a5 c j5 h5
  have u13 := fun c => unmarshalSlice_marshalSlice _ _ ("") (unmarshalString_str) a13 c j13 h13
  have u15 := fun c => unmarshalSlice_marshalSlice _ _ (DepositionIdentifier.zero) (fun x j hx => DepositionIdentifier_unmarshal_marshal x (DepositionIdentifier.zero) j hx) a15 c j15 h15
  have u16 := fun c => unmarshalSlice_marshalSlice _ _ (DepositionContributor.zero) (fun x j hx => DepositionContributor_unmarshal_marshal x (DepositionContributor.zero) j hx) a16 c j16 h16
  have u17 := fun c => unmarshalSlice_marshalSlice _ _ ("") (unmarshalString_str) a17 c j17 h17
  have u18 := fun c => unmarshalSlice_marshalSlice _ _ (DepositionCommunity.zero) (fun x j hx => DepositionCommunity_unmarshal_marshal x (DepositionCommunity.zero) j hx) a18 c j18 h18
  have u19 := fun c => unmarshalSlice_marshalSlice _ _ (DepositionGrant.zero) (fun x j hx => DepositionGrant_unmarshal_marshal x (DepositionGrant.zero) j hx) a19 c j19 h19
  have u36 := fun c => unmarshalSlice_marshalSlice _ _ (DepositionThesisSupervisor.zero) (fun x j hx => DepositionThesisSupervisor_unmarshal_marshal x (DepositionThesisSupervisor.zero) j hx) a36 c j36 h36
  have u38 := fun c => unmarshalSlice_marshalSlice _ _ (DepositionSubject.zero) (fun x j hx => DepositionSubject_unmarshal_marshal x (DepositionSubject.zero) j hx) a38 c j38 h38
  have u41 := fun c => unmarshalSlice_marshalSlice_mem _ _ (DepositionLocation.zero env) a41 c j41
    (fun xs hxs x hx j hj => DepositionLocation_unmarshal_marshal_of_readsBack env x
      (DepositionLocation.zero env) j (hr xs hxs x hx) hj) h41
  have u42 := fun c => unmarshalSlice_marshalSlice _ _ (DepositionDate.zero) (fun x j hx => DepositionDate_unmarshal_marshal x (DepositionDate.zero) j hx) a42 c j42 h42
  simp only [DepositionMetadata.unmarshal, unmarshalStruct, List.foldlM_cons, List.foldlM_nil,
    unmarshalString, unmarshalInt_val, unmarshalBool, Option.map_some',
    Option.bind_eq_bind, Option.some_bind, Option.pure_def, u5, u13, u15, u16, u17, u18, u19, u36, u38, u41, u42,
    DepositionMetadata_setField_upload_type, DepositionMetadata_setField_publication_type,
    DepositionMetadata_setField_image_type, DepositionMetadata_setField_publication_date,
    DepositionMetadata_setField_title, DepositionMetadata_setField_creators,
    DepositionMetadata_setField_description, DepositionMetadata_setField_access_right,
    DepositionMetadata_setField_license, DepositionMetadata_setField_embargo_date,
    DepositionMetadata_setField_access_conditions, DepositionMetadata_setField_doi,
    DepositionMetadata_setField_preserve_doi, DepositionMetadata_setField_keywords,
    DepositionMetadata_setField_notes, DepositionMetadata_setField_related_identifiers,
    DepositionMetadata_setField_contributors, DepositionMetadata_setField_references,
    DepositionMetadata_setField_communities, DepositionMetadata_setField_grants,
    DepositionMetadata_setField_journal_title, DepositionMetadata_setField_journal_volume,
    DepositionMetadata_setField_journal_issue, DepositionMetadata_setField_journal_pages,
    DepositionMetadata_setField_conference_title, DepositionMetadata_setField_conference_acronym,
    DepositionMetadata_setField_conference_dates, DepositionMetadata_setField_conference_place,
    DepositionMetadata_setField_conference_url, DepositionMetadata_setField_conference_session,
    DepositionMetadata_setField_conference_session_part,
    DepositionMetadata_setField_imprint_publisher, DepositionMetadata_setField_imprint_isbn,
    DepositionMetadata_setField_imprint_place, DepositionMetadata_setField_partof_title,
    DepositionMetadata_setField_partof_pages, DepositionMetadata_setField_thesis_supervisors,
    DepositionMetadata_setField_thesis_university, DepositionMetadata_setField_subjects,
    DepositionMetadata_setField_version, DepositionMetadata_setField_language,
    DepositionMetadata_setField_locations, DepositionMetadata_setField_dates,
    DepositionMetadata_setField_method]

/-- When the codecs invert each other, every `DepositionMetadata` is read back as it is written. -/
theorem DepositionMetadata_readsBack_of_codecsInvert {T F : Type} (env : Env T F)
    (hc : env.CodecsInvert) (d : (DepositionMetadata F)) : DepositionMetadata.ReadsBack env d := by
  intro ls _ l _
  exact DepositionLocation_readsBack_of_codecsInvert env hc l

/-- Unmarshalling what `json.Marshal` wrote for a `DepositionMetadata` gives the value back. -/
theorem DepositionMetadata_unmarshal_marshal {T F : Type} (env : Env T F) (hc : env.CodecsInvert)
    (d cur : (DepositionMetadata F)) (j : JVal)
    (h : DepositionMetadata.marshal env d = some j) :
    DepositionMetadata.unmarshal env j cur = some d :=
  DepositionMetadata_unmarshal_marshal_of_readsBack env d cur j
    (DepositionMetadata_readsBack_of_codecsInvert env hc d) h

theorem Deposition_setField_created {T F : Type} (env : Env T F) (cur : (Deposition T F)) (v : JVal) :
    Deposition.setField env cur "created" v =
      (unmarshalTime env v cur.Created).map (fun x => { cur with Created := x }) := by
  unfold Deposition.setField
  rw [show fieldIndex Deposition.jsonNames "created" = some 0 by decide]
  rfl

theorem Deposition_setField_doi {T F : Type} (env : Env T F) (cur : (Deposition T F)) (v : JVal) :
    Deposition.setField env cur "doi" v =
      (unmarshalString v cur.DOI).map (fun x => { cur with DOI := x }) := by
  unfold Deposition.setField
  rw [show fieldIndex Deposition.jsonNames "doi" = some 1 by decide]
  rfl

theorem Deposition_setField_doi_url {T F : Type} (env : Env T F) (cur : (Deposition T F)) (v : JVal) :
    Deposition.setField env cur "doi_url" v =
      (unmarshalString v cur.DOIURL).map (fun x => { cur with DOIURL := x }) := by
  unfold Deposition.setField
  rw [show fieldIndex Deposition.jsonNames "doi_url" = some 2 by decide]
  rfl

theorem Deposition_setField_files {T F : Type} (env : Env T F) (cur : (Deposition T F)) (v : JVal) :
    Deposition.setField env cur "files" v =
      (unmarshalSlice (DepositionFile.unmarshal) DepositionFile.zero v cur.Files).map (fun x => { cur with Files := x }) := by
  unfold Deposition.setField
  rw [show fieldIndex Deposition.jsonNames "files" = some 3 by decide]
  rfl

theorem Deposition_setField_id {T F : Type} (env : Env T F) (cur : (Deposition T F)) (v : JVal) :
    Deposition.setField env cur "id" v =
      (unmarshalInt v cur.ID).map (fun x => { cur with ID := x }) := by
  unfold Deposition.setField
  rw [show fieldIndex Deposition.jsonNames "id" = some 4 by decide]
  rfl

theorem Deposition_setField_links {T F : Type} (env : Env T F) (cur : (Deposition T F)) (v : JVal) :
    Deposition.setField env cur "links" v =
      (DepositionLinks.unmarshal v cur.Links).map (fun x => { cur with Links := x }) := by
  unfold Deposition.setField
  rw [show fieldIndex Deposition.jsonNames "links" = some 5 by decide]
  rfl

theorem Deposition_setField_metadata {T F : Type} (env : Env T F) (cur : (Deposition T F)) (v : JVal) :
    Deposition.setField env cur "metadata" v =
      (DepositionMetadata.unmarshal env v cur.Metadata).map (fun x => { cur with Metadata := x }) := by
  unfold Deposition.setField
  rw [show fieldIndex Deposition.jsonNames "metadata" = some 6 by decide]
  rfl

theorem Deposition_setField_modified {T F : Type} (env : Env T F) (cur : (Deposition T F)) (v : JVal) :
    Deposition.setField env cur "modified" v =
      (unmarshalTime env v cur.Modified).map (fun x => { cur with Modified := x }) := by
  unfold Deposition.setField
  rw [show fieldIndex Deposition.jsonNames "modified" = some 7 by decide]
  rfl

theorem Deposition_setField_owner {T F : Type} (env : Env T F) (cur : (Deposition T F)) (v : JVal) :
    Deposition.setField env cur "owner" v =
      (unmarshalInt v cur.Owner).map (fun x => { cur with Owner := x }) := by
  unfold Deposition.setField
  rw [show fieldIndex Deposition.jsonNames "owner" = some 8 by decide]
  rfl

theorem Deposition_setField_record_id {T F : Type} (env : Env T F) (cur : (Deposition T F)) (v : JVal) :
    Deposition.setField env cur "record_id" v =
      (unmarshalInt v cur.RecordID).map (fun x => { cur with RecordID := x }) := by
  unfold Deposition.setField
  rw [show fieldIndex Deposition.jsonNames "record_id" = some 9 by decide]
  rfl

theorem Deposition_setField_record_url {T F : Type} (env : Env T F) (cur : (Deposition T F)) (v : JVal) :
    Deposition.setField env cur "record_url" v =
      (unmarshalString v cur.RecordURL).map (fun x => { cur with RecordURL := x }) := by
  unfold Deposition.setField
  rw [show fieldIndex Deposition.jsonNames "record_url" = some 10 by decide]
  rfl

theorem Deposition_setField_state {T F : Type} (env : Env T F) (cur : (Deposition T F)) (v : JVal) :
    Deposition.setField env cur "state" v =
      (unmarshalString v cur.State).map (fun x => { cur with State := x }) := by
  unfold Deposition.setField
  rw [show fieldIndex Deposition.jsonNames "state" = some 11 by decide]
  rfl

theorem Deposition_setField_submitted {T F : Type} (env : Env T F) (cur : (Deposition T F)) (v : JVal) :
    Deposition.setField env cur "submitted" v =
      (unmarshalBool v cur.Submitted).map (fun x => { cur with Submitted := x }) := by
  unfold Deposition.setField
  rw [show fieldIndex Deposition.jsonNames "submitted" = some 12 by decide]
  rfl

theorem Deposition_setField_title {T F : Type} (env : Env T F) (cur : (Deposition T F)) (v : JVal) :
    Deposition.setField env cur "title" v =
      (unmarshalString v cur.Title).map (fun x => { cur with Title := x }) := by
  unfold Deposition.setField
  rw [show fieldIndex Deposition.jsonNames "title" = some 13 by decide]
  rfl

/-- Unmarshalling what `json.Marshal` wrote for a `Deposition` gives the value back,
when its times and numbers are read back as they are written. -/
theorem Deposition_unmarshal_marshal_of_readsBack {T F : Type} (env : Env T F)
    (d cur : (Deposition T F)) (j : JVal) (hr : Deposition.ReadsBack env d)
    (h : Deposition.marshal env d = some j) :
    Deposition.unmarshal env j cur = some d := by
  obtain ⟨a0, a1, a2, a3, a4, a5, a6, a7, a8, a9, a10, a11, a12, a13⟩ := d
  simp only [Deposition.marshal] at h
  obtain ⟨j0, h0⟩ := marshalFields_mem _ j h "created" (marshalTime env a0) (by simp)
  obtain ⟨j3, h3⟩ := marshalFields_mem _ j h "files" (marshalSlice (DepositionFile.marshal) a3) (by simp)
  obtain ⟨j5, h5⟩ := marshalFields_mem _ j h "links" (DepositionLinks.marshal a5) (by simp)
  obtain ⟨j6, h6⟩ := marshalFields_mem _ j h "metadata" (DepositionMetadata.marshal env a6) (by simp)
  obtain ⟨j7, h7⟩ := marshalFields_mem _ j h "modified" (marshalTime env a7) (by simp)
  simp only [marshalFields, mapAll, Option.map_some', Option.some.injEq, h0, h3, h5, h6, h7] at h
  subst h
  have u0 := fun c => unmarshalTime_of_readsBack env a0 j0 hr.1 h0 c
  have u3 := fun c => unmarshalSlice_marshalSlice _ _ (DepositionFile.zero) (fun x j hx => DepositionFile_unmarshal_marshal x (DepositionFile.zero) j hx) a3 c j3 h3
  have u5 := fun c => DepositionLinks_unmarshal_marshal a5 c j5 h5
  have u6 := fun c => DepositionMetadata_unmarshal_marshal_of_readsBack env a6 c j6 hr.2.2 h6
  have u7 := fun c => unmarshalTime_of_readsBack env a7 j7 hr.2.1 h7 c
  simp only [Deposition.unmarshal, unmarshalStruct, List.foldlM_cons, List.foldlM_nil,
    unmarshalString, unmarshalInt_val, unmarshalBool, Option.map_some',
    Option.bind_eq_bind, Option.some_bind, Option.pure_def, u0, u3, u5, u6, u7,
    Deposition_setField_created, Deposition_setField_doi, Deposition_setField_doi_url,
    Deposition_setField_files, Deposition_setField_id, Deposition_setField_links,
    Deposition_setField_metadata, Deposition_setField_modified, Deposition_setField_owner,
    Deposition_setField_record_id, Deposition_setField_record_url, Deposition_setField_state,
    Deposition_setField_submitted, Deposition_setField_title]

/-- When the codecs invert each other, every `Deposition` is read back as it is written. -/
theorem Deposition_readsBack_of_codecsInvert {T F : Type} (env : Env T F)
    (hc : env.CodecsInvert) (d : (Deposition T F)) : Deposition.ReadsBack env d := by
  exact ⟨fun s hs => hc.1 _ s hs, fun s hs => hc.1 _ s hs,
    DepositionMetadata_readsBack_of_codecsInvert env hc d.Metadata⟩

/-- Unmarshalling what `json.Marshal` wrote for a `Deposition` gives the value back. -/
theorem Deposition_unmarshal_marshal {T F : Type} (env : Env T F) (hc : env.CodecsInvert)
    (d cur : (Deposition T F)) (j : JVal)
    (h : Deposition.marshal env d = some j) :
    Deposition.unmarshal env j cur = some d :=
  Deposition_unmarshal_marshal_of_readsBack env d cur j
    (Deposition_readsBack_of_codecsInvert env hc d) h

theorem DepositionFileUploadLinks_setField_self (cur : DepositionFileUploadLinks) (v : JVal) :
    DepositionFileUploadLinks.setField cur "self" v =
      (unmarshalString v cur.Self).map (fun x => { cur with Self := x }) := by
  unfold DepositionFileUploadLinks.setField
  rw [show fieldIndex DepositionFileUploadLinks.jsonNames "self" = some 0 by decide]
  rfl

theorem DepositionFileUploadLinks_setField_version (cur : DepositionFileUploadLinks) (v : JVal) :
    DepositionFileUploadLinks.setField cur "version" v =
      (unmarshalString v cur.Version).map (fun x => { cur with Version := x }) := by
  unfold DepositionFileUploadLinks.setField
  rw [show fieldIndex DepositionFileUploadLinks.jsonNames "version" = some 1 by decide]
  rfl

theorem DepositionFileUploadLinks_setField_uploads (cur : DepositionFileUploadLinks) (v : JVal) :
    DepositionFileUploadLinks.setField cur "uploads" v =
      (unmarshalString v cur.Uploads).map (fun x => { cur with Uploads := x }) := by
  unfold DepositionFileUploadLinks.setField
  rw [show fieldIndex DepositionFileUploadLinks.jsonNames "uploads" = some 2 by decide]
  rfl

/-- Unmarshalling what `json.Marshal` wrote for a `DepositionFileUploadLinks` gives the value back. -/
theorem DepositionFileUploadLinks_unmarshal_marshal
    (d cur : DepositionFileUploadLinks) (j : JVal)
    (h : DepositionFileUploadLinks.marshal d = some j) :
    DepositionFileUploadLinks.unmarshal j cur = some d := by
  obtain ⟨a0, a1, a2⟩ := d
  simp only [DepositionFileUploadLinks.marshal] at h
  simp only [marshalFields, mapAll, Option.map_some', Option.some.injEq] at h
  subst h
  simp only [DepositionFileUploadLinks.unmarshal, unmarshalStruct, List.foldlM_cons, List.foldlM_nil,
    unmarshalString, unmarshalInt_val, unmarshalBool, Option.map_some',
    Option.bind_eq_bind, Option.some_bind, Option.pure_def,
    DepositionFileUploadLinks_setField_self, DepositionFileUploadLinks_setField_version,
    DepositionFileUploadLinks_setField_uploads]

theorem DepositionFileUpload_setField_created {T F : Type} (env : Env T F) (cur : (DepositionFileUpload T)) (v : JVal) :
    DepositionFileUpload.setField env cur "created" v =
      (unmarshalTime env v cur.Created).map (fun x => { cur with Created := x }) := by
  unfold DepositionFileUpload.setField
  rw [show fieldIndex DepositionFileUpload.jsonNames "created" = some 0 by decide]
  rfl

theorem DepositionFileUpload_setField_updated {T F : Type} (env : Env T F) (cur : (DepositionFileUpload T)) (v : JVal) :
    DepositionFileUpload.setField env cur "updated" v =
      (unmarshalTime env v cur.Updated).map (fun x => { cur with Updated := x }) := by
  unfold DepositionFileUpload.setField
  rw [show fieldIndex DepositionFileUpload.jsonNames "updated" = some 1 by decide]
  rfl

theorem DepositionFileUpload_setField_version_id {T F : Type} (env : Env T F) (cur : (DepositionFileUpload T)) (v : JVal) :
    DepositionFileUpload.setField env cur "version_id" v =
      (unmarshalString v cur.VersionID).map (fun x => { cur with VersionID := x }) := by
  unfold DepositionFileUpload.setField
  rw [show fieldIndex DepositionFileUpload.jsonNames "version_id" = some 2 by decide]
  rfl

theorem DepositionFileUpload_setField_key {T F : Type} (env : Env T F) (cur : (DepositionFileUpload T)) (v : JVal) :
    DepositionFileUpload.setField env cur "key" v =
      (unmarshalString v cur.Key).map (fun x => { cur with Key := x }) := by
  unfold DepositionFileUpload.setField
  rw [show fieldIndex DepositionFileUpload.jsonNames "key" = some 3 by decide]
  rfl

theorem DepositionFileUpload_setField_size {T F : Type} (env : Env T F) (cur : (DepositionFileUpload T)) (v : JVal) :
    DepositionFileUpload.setField env cur "size" v =
      (unmarshalInt v cur.Size).map (fun x => { cur with Size := x }) := by
  unfold DepositionFileUpload.setField
  rw [show fieldIndex DepositionFileUpload.jsonNames "size" = some 4 by decide]
  rfl

theorem DepositionFileUpload_setField_mimetype {T F : Type} (env : Env T F) (cur : (DepositionFileUpload T)) (v : JVal) :
    DepositionFileUpload.setField env cur "mimetype" v =
      (unmarshalString v cur.Mimetype).map (fun x => { cur with Mimetype := x }) := by
  unfold DepositionFileUpload.setField
  rw [show fieldIndex DepositionFileUpload.jsonNames "mimetype" = some 5 by decide]
  rfl

theorem DepositionFileUpload_setField_checksum {T F : Type} (env : Env T F) (cur : (DepositionFileUpload T)) (v : JVal) :
    DepositionFileUpload.setField env cur "checksum" v =
      (unmarshalString v cur.Checksum).map (fun x => { cur with Checksum := x }) := by
  unfold DepositionFileUpload.setField
  rw [show fieldIndex DepositionFileUpload.jsonNames "checksum" = some 6 by decide]
  rfl

theorem DepositionFileUpload_setField_is_head {T F : Type} (env : Env T F) (cur : (DepositionFileUpload T)) (v : JVal) :
    DepositionFileUpload.setField env cur "is_head" v =
      (unmarshalBool v cur.IsHead).map (fun x => { cur with IsHead := x }) := by
  unfold DepositionFileUpload.setField
  rw [show fieldIndex DepositionFileUpload.jsonNames "is_head" = some 7 by decide]
  rfl

theorem DepositionFileUpload_setField_delete_marker {T F : Type} (env : Env T F) (cur : (DepositionFileUpload T)) (v : JVal) :
    DepositionFileUpload.setField env cur "delete_marker" v =
      (unmarshalBool v cur.DeleteMarker).map (fun x => { cur with DeleteMarker := x }) := by
  unfold DepositionFileUpload.setField
  rw [show fieldIndex DepositionFileUpload.jsonNames "delete_marker" = some 8 by decide]
  rfl

theorem DepositionFileUpload_setField_links {T F : Type} (env : Env T F) (cur : (DepositionFileUpload T)) (v : JVal) :
    DepositionFileUpload.setField env cur "links" v =
      (DepositionFileUploadLinks.unmarshal v cur.Links).map (fun x => { cur with Links := x }) := by
  unfold DepositionFileUpload.setField
  rw [show fieldIndex DepositionFileUpload.jsonNames "links" = some 9 by decide]
  rfl

/-- Unmarshalling what `json.Marshal` wrote for a `DepositionFileUpload` gives the value back. -/
theorem DepositionFileUpload_unmarshal_marshal {T F : Type} (env : Env T F) (hc : env.CodecsInvert)
    (d cur : (DepositionFileUpload T)) (j : JVal)
    (h : DepositionFileUpload.marshal env d = some j) :
    DepositionFileUpload.unmarshal env j cur = some d := by
  obtain ⟨a0, a1, a2, a3, a4, a5, a6, a7, a8, a9⟩ := d
  simp only [DepositionFileUpload.marshal] at h
  obtain ⟨j0, h0⟩ := marshalFields_mem _ j h "created" (marshalTime env a0) (by simp)
  obtain ⟨j1, h1⟩ := marshalFields_mem _ j h "updated" (marshalTime env a1) (by simp)
  obtain ⟨j9, h9⟩ := marshalFields_mem _ j h "links" (DepositionFileUploadLinks.marshal a9) (by simp)
  simp only [marshalFields, mapAll, Option.map_some', Option.some.injEq, h0, h1, h9] at h
  subst h
  have u0 := fun c => unmarshalTime_marshalTime env hc a0 j0 h0 c
  have u1 := fun c => unmarshalTime_marshalTime env hc a1 j1 h1 c
  have u9 := fun c => DepositionFileUploadLinks_unmarshal_marshal a9 c j9 h9
  simp only [DepositionFileUpload.unmarshal, unmarshalStruct, List.foldlM_cons, List.foldlM_nil,
    unmarshalString, unmarshalInt_val, unmarshalBool, Option.map_some',
    Option.bind_eq_bind, Option.some_bind, Option.pure_def, u0, u1, u9,
    DepositionFileUpload_setField_created, DepositionFileUpload_setField_updated,
    DepositionFileUpload_setField_version_id, DepositionFileUpload_setField_key,
    DepositionFileUpload_setField_size, DepositionFileUpload_setField_mimetype,
    DepositionFileUpload_setField_checksum, DepositionFileUpload_setField_is_head,
    DepositionFileUpload_setField_delete_marker, DepositionFileUpload_setField_links]
/-- The codecs of the mock environment invert each other. -/
theorem mockEnv_codecsInvert (files : List (String × List UInt8)) (docs : List (String × JVal))
    (server : Request → Except String Response) :
    (mockEnv files docs server).CodecsInvert := by
  constructor
  · intro t s h
    cases t <;> simp [mockEnv] at h ⊢
    exact h.symm
  · intro x n h
    cases x <;> simp [mockEnv] at h ⊢
    exact h.symm

/-- The object that `json.Marshal` writes for a `Deposition` has the member
`title`, whose value is the string `d.Title`. -/
theorem Deposition_marshal_title {T F : Type} (env : Env T F) (d : Deposition T F) (j : JVal)
    (h : Deposition.marshal env d = some j) :
    ∃ members, j = .obj members ∧ members.lookup "title" = some (.str d.Title) := by
  simp only [Deposition.marshal] at h
  obtain ⟨j0, h0⟩ := marshalFields_mem _ j h "created" (marshalTime env d.Created) (by simp)
  obtain ⟨j3, h3⟩ := marshalFields_mem _ j h "files"
    (marshalSlice (DepositionFile.marshal) d.Files) (by simp)
  obtain ⟨j5, h5⟩ := marshalFields_mem _ j h "links" (DepositionLinks.marshal d.Links) (by simp)
  obtain ⟨j6, h6⟩ := marshalFields_mem _ j h "metadata"
    (DepositionMetadata.marshal env d.Metadata) (by simp)
  obtain ⟨j7, h7⟩ := marshalFields_mem _ j h "modified" (marshalTime env d.Modified) (by simp)
  simp only [marshalFields, mapAll, Option.map_some', Option.some.injEq, h0, h3, h5, h6, h7] at h
  subst h
  exact ⟨_, rfl, by simp [List.lookup]⟩

/-- A value stored at a position other than that of `ID` leaves `ID` as it
is. -/
theorem Deposition_setFieldAt_ID_other {T F : Type} (env : Env T F) (cur d : Deposition T F)
    (i : Option Nat) (v : JVal) (h : Deposition.setFieldAt env cur i v = some d)
    (hi : i ≠ some 4) : d.ID = cur.ID := by
  unfold Deposition.setFieldAt at h
  by_cases h0 : i = some 0
  · rw [if_pos h0, Option.map_eq_some'] at h
    obtain ⟨x, -, rfl⟩ := h
    rfl
  rw [if_neg h0] at h
  by_cases h1 : i = some 1
  · rw [if_pos h1, Option.map_eq_some'] at h
    obtain ⟨x, -, rfl⟩ := h
    rfl
  rw [if_neg h1] at h
  by_cases h2 : i = some 2
  · rw [if_pos h2, Option.map_eq_some'] at h
    obtain ⟨x, -, rfl⟩ := h
    rfl
  rw [if_neg h2] at h
  by_cases h3 : i = some 3
  · rw [if_pos h3, Option.map_eq_some'] at h
    obtain ⟨x, -, rfl⟩ := h
    rfl
  rw [if_neg h3] at h
  by_cases h4 : i = some 4
  · exact absurd h4 hi
  rw [if_neg h4] at h
  by_cases h5 : i = some 5
  · rw [if_pos h5, Option.map_eq_some'] at h
    obtain ⟨x, -, rfl⟩ := h
    rfl
  rw [if_neg h5] at h
  by_cases h6 : i = some 6
  · rw [if_pos h6, Option.map_eq_some'] at h
    obtain ⟨x, -, rfl⟩ := h
    rfl
  rw [if_neg h6] at h
  by_cases h7 : i = some 7
  · rw [if_pos h7, Option.map_eq_some'] at h
    obtain ⟨x, -, rfl⟩ := h
    rfl
  rw [if_neg h7] at h
  by_cases h8 : i = some 8
  · rw [if_pos h8, Option.map_eq_some'] at h
    obtain ⟨x, -, rfl⟩ := h
    rfl
  rw [if_neg h8] at h
  by_cases h9 : i = some 9
  · rw [if_pos h9, Option.map_eq_some'] at h
    obtain ⟨x, -, rfl⟩ := h
    rfl
  rw [if_neg h9] at h
  by_cases h10 : i = some 10
  · rw [if_pos h10, Option.map_eq_some'] at h
    obtain ⟨x, -, rfl⟩ := h
    rfl
  rw [if_neg h10] at h
  by_cases h11 : i = some 11
  · rw [if_pos h11, Option.map_eq_some'] at h
    obtain ⟨x, -, rfl⟩ := h
    rfl
  rw [if_neg h11] at h
  by_cases h12 : i = some 12
  · rw [if_pos h12, Option.map_eq_some'] at h
    obtain ⟨x, -, rfl⟩ := h
    rfl
  rw [if_neg h12] at h
  by_cases h13 : i = some 13
  · rw [if_pos h13, Option.map_eq_some'] at h
    obtain ⟨x, -, rfl⟩ := h
    rfl
  rw [if_neg h13] at h
  cases h
  rfl

/-- A value stored at a position other than that of `State` leaves `State` as it
is. -/
theorem Deposition_setFieldAt_State_other {T F : Type} (env : Env T F) (cur d : Deposition T F)
    (i : Option Nat) (v : JVal) (h : Deposition.setFieldAt env cur i v = some d)
    (hi : i ≠ some 11) : d.State = cur.State := by
  unfold Deposition.setFieldAt at h
  by_cases h0 : i = some 0
  · rw [if_pos h0, Option.map_eq_some'] at h
    obtain ⟨x, -, rfl⟩ := h
    rfl
  rw [if_neg h0] at h
  by_cases h1 : i = some 1
  · rw [if_pos h1, Option.map_eq_some'] at h
    obtain ⟨x, -, rfl⟩ := h
    rfl
  rw [if_neg h1] at h
  by_cases h2 : i = some 2
  · rw [if_pos h2, Option.map_eq_some'] at h
    obtain ⟨x, -, rfl⟩ := h
    rfl
  rw [if_neg h2] at h
  by_cases h3 : i = some 3
  · rw [if_pos h3, Option.map_eq_some'] at h
    obtain ⟨x, -, rfl⟩ := h
    rfl
  rw [if_neg h3] at h
  by_cases h4 : i = some 4
  · rw [if_pos h4, Option.map_eq_some'] at h
    obtain ⟨x, -, rfl⟩ := h
    rfl
  rw [if_neg h4] at h
  by_cases h5 : i = some 5
  · rw [if_pos h5, Option.map_eq_some'] at h
    obtain ⟨x, -, rfl⟩ := h
    rfl
  rw [if_neg h5] at h
  by_cases h6 : i = some 6
  · rw [if_pos h6, Option.map_eq_some'] at h
    obtain ⟨x, -, rfl⟩ := h
    rfl
  rw [if_neg h6] at h
  by_cases h7 : i = some 7
  · rw [if_pos h7, Option.map_eq_some'] at h
    obtain ⟨x, -, rfl⟩ := h
    rfl
  rw [if_neg h7] at h
  by_cases h8 : i = some 8
  · rw [if_pos h8, Option.map_eq_some'] at h
    obtain ⟨x, -, rfl⟩ := h
    rfl
  rw [if_neg h8] at h
  by_cases h9 : i = some 9
  · rw [if_pos h9, Option.map_eq_some'] at h
    obtain ⟨x, -, rfl⟩ := h
    rfl
  rw [if_neg h9] at h
  by_cases h10 : i = some 10
  · rw [if_pos h10, Option.map_eq_some'] at h
    obtain ⟨x, -, rfl⟩ := h
    rfl
  rw [if_neg h10] at h
  by_cases h11 : i = some 11
  · exact absurd h11 hi
  rw [if_neg h11] at h
  by_cases h12 : i = some 12
  · rw [if_pos h12, Option.map_eq_some'] at h
    obtain ⟨x, -, rfl⟩ := h
    rfl
  rw [if_neg h12] at h
  by_cases h13 : i = some 13
  · rw [if_pos h13, Option.map_eq_some'] at h
    obtain ⟨x, -, rfl⟩ := h
    rfl
  rw [if_neg h13] at h
  cases h
  rfl
/-! ## Unmarshalling an object member by member -/

theorem mapAll_of_forall₂ {α β : Type} (f : α → Option β) (xs : List α) (ys : List β)
    (h : List.Forall₂ (fun x y => f x = some y) xs ys) : mapAll f xs = some ys := by
  induction h with
  | nil => rfl
  | cons hxy _ ih => simp [mapAll, hxy, ih]

/-- The number `n` stored at the position of `ID` sets `ID` to `n`. -/
theorem Deposition_setFieldAt_ID_int {T F : Type} (env : Env T F) (cur d : Deposition T F)
    (n : Int) (h : Deposition.setFieldAt env cur (some 4) (.num (.int n)) = some d) :
    d.ID.val = n := by
  unfold Deposition.setFieldAt at h
  rw [if_neg (show ¬ (some 4 : Option Nat) = some 0 by decide),
    if_neg (show ¬ (some 4 : Option Nat) = some 1 by decide),
    if_neg (show ¬ (some 4 : Option Nat) = some 2 by decide),
    if_neg (show ¬ (some 4 : Option Nat) = some 3 by decide), if_pos rfl] at h
  simp only [unmarshalInt, Option.map_eq_some'] at h
  obtain ⟨x, hx, rfl⟩ := h
  split at hx
  · cases hx
    rfl
  · cases hx

/-- The string `s` stored at the position of `State` sets `State` to `s`. -/
theorem Deposition_setFieldAt_State_str {T F : Type} (env : Env T F) (cur d : Deposition T F)
    (s : String) (h : Deposition.setFieldAt env cur (some 11) (.str s) = some d) :
    d.State = s := by
  unfold Deposition.setFieldAt at h
  rw [if_neg (show ¬ (some 11 : Option Nat) = some 0 by decide),
    if_neg (show ¬ (some 11 : Option Nat) = some 1 by decide),
    if_neg (show ¬ (some 11 : Option Nat) = some 2 by decide),
    if_neg (show ¬ (some 11 : Option Nat) = some 3 by decide),
    if_neg (show ¬ (some 11 : Option Nat) = some 4 by decide),
    if_neg (show ¬ (some 11 : Option Nat) = some 5 by decide),
    if_neg (show ¬ (some 11 : Option Nat) = some 6 by decide),
    if_neg (show ¬ (some 11 : Option Nat) = some 7 by decide),
    if_neg (show ¬ (some 11 : Option Nat) = some 8 by decide),
    if_neg (show ¬ (some 11 : Option Nat) = some 9 by decide),
    if_neg (show ¬ (some 11 : Option Nat) = some 10 by decide), if_pos rfl] at h
  simp only [unmarshalString, Option.map_eq_some', Option.some.injEq] at h
  obtain ⟨x, hx, rfl⟩ := h
  exact hx.symm

/-- After all members are stored, a property of the struct holds when every
member that touches it establishes it, every other member keeps it, and
either it held at the start or some member touches it. -/
theorem foldlM_establish {α : Type} (setField : α → String → JVal → Option α)
    (touches : String → Prop) (good : JVal → Prop) (P : α → Prop)
    (hset : ∀ cur d k v, setField cur k v = some d → touches k → good v → P d)
    (hkeep : ∀ cur d k v, setField cur k v = some d → ¬ touches k → P cur → P d)
    (members : List (String × JVal)) (cur d : α)
    (h : members.foldlM (fun acc kv => setField acc kv.1 kv.2) cur = some d)
    (hgood : ∀ kv ∈ members, touches kv.1 → good kv.2)
    (hstart : P cur ∨ ∃ kv ∈ members, touches kv.1) : P d := by
  induction members generalizing cur with
  | nil =>
    simp only [List.foldlM_nil, Option.pure_def, Option.some.injEq] at h
    subst h
    rcases hstart with hp | ⟨kv, hkv, -⟩
    · exact hp
    · cases hkv
  | cons m ms ih =>
    simp only [List.foldlM_cons, Option.bind_eq_bind, Option.bind_eq_some] at h
    obtain ⟨c1, hc1, hrest⟩ := h
    apply ih c1 hrest (fun kv hkv => hgood kv (List.mem_cons_of_mem _ hkv))
    by_cases ht : touches m.1
    · exact Or.inl (hset cur c1 m.1 m.2 hc1 ht (hgood m (List.mem_cons_self _ _) ht))
    · rcases hstart with hp | ⟨kv, hkv, hkt⟩
      · exact Or.inl (hkeep cur c1 m.1 m.2 hc1 ht hp)
      · rcases List.mem_cons.mp hkv with rfl | hkv
        · exact absurd hkt ht
        · exact Or.inr ⟨kv, hkv, hkt⟩

/-- An object in which the member `id` occurs, and in which every member
that selects the field `ID` holds the number `n`, is unmarshalled into a
Deposition whose `ID` is `n`. -/
theorem Deposition_unmarshal_ID {T F : Type} (env : Env T F) (members : List (String × JVal))
    (cur d : Deposition T F) (n : Int)
    (h : Deposition.unmarshal env (.obj members) cur = some d)
    (hmem : ("id", JVal.num (.int n)) ∈ members)
    (hall : ∀ kv ∈ members, fieldIndex Deposition.jsonNames kv.1 = some 4 →
      kv.2 = JVal.num (.int n)) :
    d.ID.val = n := by
  refine foldlM_establish (Deposition.setField env)
    (fun k => fieldIndex Deposition.jsonNames k = some 4) (fun v => v = JVal.num (.int n))
    (fun d => d.ID.val = n) ?_ ?_ members cur d h hall
    (Or.inr ⟨_, hmem, (by decide : fieldIndex Deposition.jsonNames "id" = some 4)⟩)
  · intro cur d k v hs hk hv
    subst hv
    unfold Deposition.setField at hs
    rw [hk] at hs
    exact Deposition_setFieldAt_ID_int env cur d n hs
  · intro cur d k v hs hk hp
    rw [Deposition_setFieldAt_ID_other env cur d _ v hs hk]
    exact hp

/-- An object in which the member `state` occurs, and in which every member
that selects the field `State` holds the string `s`, is unmarshalled into a
Deposition whose `State` is `s`. -/
theorem Deposition_unmarshal_State {T F : Type} (env : Env T F)
    (members : List (String × JVal)) (cur d : Deposition T F) (s : String)
    (h : Deposition.unmarshal env (.obj members) cur = some d)
    (hmem : ("state", JVal.str s) ∈ members)
    (hall : ∀ kv ∈ members, fieldIndex Deposition.jsonNames kv.1 = some 11 →
      kv.2 = JVal.str s) :
    d.State = s := by
  refine foldlM_establish (Deposition.setField env)
    (fun k => fieldIndex Deposition.jsonNames k = some 11) (fun v => v = JVal.str s)
    (fun d => d.State = s) ?_ ?_ members cur d h hall
    (Or.inr ⟨_, hmem, (by decide : fieldIndex Deposition.jsonNames "state" = some 11)⟩)
  · intro cur d k v hs hk hv
    subst hv
    unfold Deposition.setField at hs
    rw [hk] at hs
    exact Deposition_setFieldAt_State_str env cur d s hs
  · intro cur d k v hs hk hp
    rw [Deposition_setFieldAt_State_other env cur d _ v hs hk]
    exact hp

/-! ## What was unmarshalled can be marshalled -/

theorem mapAll_isSome {α β : Type} (f : α → Option β) (xs : List α)
    (h : ∀ x ∈ xs, (f x).isSome = true) : (mapAll f xs).isSome = true := by
  induction xs with
  | nil => rfl
  | cons x xs ih =>
    obtain ⟨y, hy⟩ := Option.isSome_iff_exists.mp (h x (List.mem_cons_self _ _))
    obtain ⟨ys, hys⟩ := Option.isSome_iff_exists.mp
      (ih (fun z hz => h z (List.mem_cons_of_mem _ hz)))
    simp [mapAll, hy, hys]

theorem marshalSlice_isSome_of_mem {α : Type} (elem : α → Option JVal) (s : Option (List α))
    (h : ∀ xs, s = some xs → ∀ x ∈ xs, (elem x).isSome = true) :
    (marshalSlice elem s).isSome = true := by
  cases s with
  | none => rfl
  | some xs =>
    obtain ⟨js, hjs⟩ := Option.isSome_iff_exists.mp (mapAll_isSome elem xs (h xs rfl))
    simp [marshalSlice, hjs]

theorem marshalSlice_isSome {α : Type} (elem : α → Option JVal)
    (h : ∀ x, (elem x).isSome = true) (s : Option (List α)) :
    (marshalSlice elem s).isSome = true :=
  marshalSlice_isSome_of_mem elem s (fun _ _ x _ => h x)

theorem mapAll_forall_mem {α β : Type} (f : α → Option β) (P : β → Prop)
    (hf : ∀ x y, f x = some y → P y) (xs : List α) (ys : List β)
    (h : mapAll f xs = some ys) : ∀ y ∈ ys, P y := by
  induction xs generalizing ys with
  | nil =>
    simp only [mapAll, Option.some.injEq] at h
    subst h
    intro y hy
    cases hy
  | cons x xs ih =>
    obtain ⟨y0, ys0, hy0, hys0, rfl⟩ := mapAll_eq_some_cons f x xs ys h
    intro y hy
    rcases List.mem_cons.mp hy with rfl | hy
    · exact hf x _ hy0
    · exact ih ys0 hys0 y hy

theorem unmarshalTime_writable {T F : Type} (env : Env T F) (hl : env.WritesWhatItReads)
    (v : JVal) (cur x : T) (h : unmarshalTime env v cur = some x)
    (hw : (env.timeMarshal cur).isSome = true) : (env.timeMarshal x).isSome = true := by
  cases v with
  | null =>
    simp only [unmarshalTime, Option.some.injEq] at h
    subst h
    exact hw
  | str s => exact hl.2.2.1 s x h
  | bool b => simp [unmarshalTime] at h
  | num n => simp [unmarshalTime] at h
  | arr items => simp [unmarshalTime] at h
  | obj members => simp [unmarshalTime] at h

theorem unmarshalFloat_writable {T F : Type} (env : Env T F) (hl : env.WritesWhatItReads)
    (v : JVal) (cur x : F) (h : unmarshalFloat env v cur = some x)
    (hw : (env.floatMarshal cur).isSome = true) : (env.floatMarshal x).isSome = true := by
  cases v with
  | null =>
    simp only [unmarshalFloat, Option.some.injEq] at h
    subst h
    exact hw
  | num n => exact hl.2.2.2 n x h
  | bool b => simp [unmarshalFloat] at h
  | str s => simp [unmarshalFloat] at h
  | arr items => simp [unmarshalFloat] at h
  | obj members => simp [unmarshalFloat] at h

/-- A property that every stored member keeps holds after the whole value is
stored. -/
theorem unmarshalStruct_invariant {α : Type} (setField : α → String → JVal → Option α)
    (P : α → Prop) (hstep : ∀ cur d k v, setField cur k v = some d → P cur → P d)
    (v : JVal) (cur d : α) (h : unmarshalStruct setField v cur = some d) (hp : P cur) :
    P d := by
  cases v with
  | null =>
    simp only [unmarshalStruct, Option.some.injEq] at h
    subst h
    exact hp
  | obj members =>
    simp only [unmarshalStruct] at h
    induction members generalizing cur with
    | nil =>
      simp only [List.foldlM_nil, Option.pure_def, Option.some.injEq] at h
      subst h
      exact hp
    | cons m ms ih =>
      simp only [List.foldlM_cons, Option.bind_eq_bind, Option.bind_eq_some] at h
      obtain ⟨c1, hc1, hrest⟩ := h
      exact ih c1 (hstep cur c1 m.1 m.2 hc1 hp) hrest
  | bool b => simp [unmarshalStruct] at h
  | num n => simp [unmarshalStruct] at h
  | str s => simp [unmarshalStruct] at h
  | arr items => simp [unmarshalStruct] at h

/-- `json.Marshal` can write every `DepositionFile`. -/
theorem DepositionFile_marshal_isSome (d : DepositionFile) :
    (DepositionFile.marshal d).isSome = true := by
  simp only [DepositionFile.marshal, marshalFields, mapAll, Option.map_some']
  rfl

/-- `json.Marshal` can write every `DepositionLinks`. -/
theorem DepositionLinks_marshal_isSome (d : DepositionLinks) :
    (DepositionLinks.marshal d).isSome = true := by
  simp only [DepositionLinks.marshal, marshalFields, mapAll, Option.map_some']
  rfl

/-- `json.Marshal` can write every `DepositionCreator`. -/
theorem DepositionCreator_marshal_isSome (d : DepositionCreator) :
    (DepositionCreator.marshal d).isSome = true := by
  simp only [DepositionCreator.marshal, marshalFields, mapAll, Option.map_some']
  rfl

/-- `json.Marshal` can write every `DepositionIdentifier`. -/
theorem DepositionIdentifier_marshal_isSome (d : DepositionIdentifier) :
    (DepositionIdentifier.marshal d).isSome = true := by
  simp only [DepositionIdentifier.marshal, marshalFields, mapAll, Option.map_some']
  rfl

/-- `json.Marshal` can write every `DepositionContributor`. -/
theorem DepositionContributor_marshal_isSome (d : DepositionContributor) :
    (DepositionContributor.marshal d).isSome = true := by
  simp only [DepositionContributor.marshal, marshalFields, mapAll, Option.map_some']
  rfl

/-- `json.Marshal` can write every `DepositionCommunity`. -/
theorem DepositionCommunity_marshal_isSome (d : DepositionCommunity) :
    (DepositionCommunity.marshal d).isSome = true := by
  simp only [DepositionCommunity.marshal, marshalFields, mapAll, Option.map_some']
  rfl

/-- `json.Marshal` can write every `DepositionGrant`. -/
theorem DepositionGrant_marshal_isSome (d : DepositionGrant) :
    (DepositionGrant.marshal d).isSome = true := by
  simp only [DepositionGrant.marshal, marshalFields, mapAll, Option.map_some']
  rfl

/-- `json.Marshal` can write every `DepositionThesisSupervisor`. -/
theorem DepositionThesisSupervisor_marshal_isSome (d : DepositionThesisSupervisor) :
    (DepositionThesisSupervisor.marshal d).isSome = true := by
  simp only [DepositionThesisSupervisor.marshal, marshalFields, mapAll, Option.map_some']
  rfl

/-- `json.Marshal` can write every `DepositionSubject`. -/
theorem DepositionSubject_marshal_isSome (d : DepositionSubject) :
    (DepositionSubject.marshal d).isSome = true := by
  simp only [DepositionSubject.marshal, marshalFields, mapAll, Option.map_some']
  rfl

/-- `json.Marshal` can write every writable `DepositionLocation`. -/
theorem DepositionLocation_marshal_isSome {T F : Type} (env : Env T F) (d : (DepositionLocation F))
    (hw : DepositionLocation.Writable env d) :
    (DepositionLocation.marshal env d).isSome = true := by
  obtain ⟨j0, h0⟩ : ∃ j, marshalFloat env d.Lat = some j :=
    Option.isSome_iff_exists.mp (by simpa [marshalFloat] using hw.1)
  obtain ⟨j1, h1⟩ : ∃ j, marshalFloat env d.Long = some j :=
    Option.isSome_iff_exists.mp (by simpa [marshalFloat] using hw.2)
  simp only [DepositionLocation.marshal, marshalFields, mapAll, Option.map_some', h0, h1]
  rfl

/-- `json.Marshal` can write every `DepositionDate`. -/
theorem DepositionDate_marshal_isSome (d : DepositionDate) :
    (DepositionDate.marshal d).isSome = true := by
  simp only [DepositionDate.marshal, marshalFields, mapAll, Option.map_some']
  rfl

/-- `json.Marshal` can write every writable `DepositionMetadata`. -/
theorem DepositionMetadata_marshal_isSome {T F : Type} (env : Env T F) (d : (DepositionMetadata F))
    (hw : DepositionMetadata.Writable env d) :
    (DepositionMetadata.marshal env d).isSome = true := by
  obtain ⟨j5, h5⟩ : ∃ j, marshalSlice (DepositionCreator.marshal) d.Creators = some j :=
    Option.isSome_iff_exists.mp (marshalSlice_isSome _ (fun x => DepositionCreator_marshal_isSome x) _)
  obtain ⟨j13, h13⟩ : ∃ j, marshalSlice (fun s => some (JVal.str s)) d.Keywords = some j :=
    Option.isSome_iff_exists.mp (marshalSlice_isSome (fun s => some (JVal.str s)) (fun _ => rfl) _)
  obtain ⟨j15, h15⟩ : ∃ j, marshalSlice (DepositionIdentifier.marshal) d.RelatedIdentifiers = some j :=
    Option.isSome_iff_exists.mp (marshalSlice_isSome _ (fun x => DepositionIdentifier_marshal_isSome x) _)
  obtain ⟨j16, h16⟩ : ∃ j, marshalSlice (DepositionContributor.marshal) d.Contributors = some j :=
    Option.isSome_iff_exists.mp (marshalSlice_isSome _ (fun x => DepositionContributor_marshal_isSome x) _)
  obtain ⟨j17, h17⟩ : ∃ j, marshalSlice (fun s => some (JVal.str s)) d.References = some j :=
    Option.isSome_iff_exists.mp (marshalSlice_isSome (fun s => some (JVal.str s)) (fun _ => rfl) _)
  obtain ⟨j18, h18⟩ : ∃ j, marshalSlice (DepositionCommunity.marshal) d.Communities = some j :=
    Option.isSome_iff_exists.mp (marshalSlice_isSome _ (fun x => DepositionCommunity_marshal_isSome x) _)
  obtain ⟨j19, h19⟩ : ∃ j, marshalSlice (DepositionGrant.marshal) d.Grants = some j :=
    Option.isSome_iff_exists.mp (marshalSlice_isSome _ (fun x => DepositionGrant_marshal_isSome x) _)
  obtain ⟨j36, h36⟩ : ∃ j, marshalSlice (DepositionThesisSupervisor.marshal) d.ThesisSupervisors = some j :=
    Option.isSome_iff_exists.mp (marshalSlice_isSome _ (fun x => DepositionThesisSupervisor_marshal_isSome x) _)
  obtain ⟨j38, h38⟩ : ∃ j, marshalSlice (DepositionSubject.marshal) d.Subjects = some j :=
    Option.isSome_iff_exists.mp (marshalSlice_isSome _ (fun x => DepositionSubject_marshal_isSome x) _)
  obtain ⟨j41, h41⟩ : ∃ j, marshalSlice (DepositionLocation.marshal env) d.Locations = some j :=
    Option.isSome_iff_exists.mp (marshalSlice_isSome_of_mem _ _ (fun xs hxs x hx => DepositionLocation_marshal_isSome env x (hw xs hxs x hx)))
  obtain ⟨j42, h42⟩ : ∃ j, marshalSlice (DepositionDate.marshal) d.Dates = some j :=
    Option.isSome_iff_exists.mp (marshalSlice_isSome _ (fun x => DepositionDate_marshal_isSome x) _)
  simp only [DepositionMetadata.marshal, marshalFields, mapAll, Option.map_some', h5, h13, h15, h16, h17, h18, h19, h36, h38, h41, h42]
  rfl

/-- `json.Marshal` can write every writable `Deposition`. -/
theorem Deposition_marshal_isSome {T F : Type} (env : Env T F) (d : (Deposition T F))
    (hw : Deposition.Writable env d) :
    (Deposition.marshal env d).isSome = true := by
  obtain ⟨j0, h0⟩ : ∃ j, marshalTime env d.Created = some j :=
    Option.isSome_iff_exists.mp (by simpa [marshalTime] using hw.1)
  obtain ⟨j3, h3⟩ : ∃ j, marshalSlice (DepositionFile.marshal) d.Files = some j :=
    Option.isSome_iff_exists.mp (marshalSlice_isSome _ (fun x => DepositionFile_marshal_isSome x) _)
  obtain ⟨j5, h5⟩ : ∃ j, DepositionLinks.marshal d.Links = some j :=
    Option.isSome_iff_exists.mp (DepositionLinks_marshal_isSome _)
  obtain ⟨j6, h6⟩ : ∃ j, DepositionMetadata.marshal env d.Metadata = some j :=
    Option.isSome_iff_exists.mp (DepositionMetadata_marshal_isSome env _ hw.2.2)
  obtain ⟨j7, h7⟩ : ∃ j, marshalTime env d.Modified = some j :=
    Option.isSome_iff_exists.mp (by simpa [marshalTime] using hw.2.1)
  simp only [Deposition.marshal, marshalFields, mapAll, Option.map_some', h0, h3, h5, h6, h7]
  rfl
/-- Storing a value into a writable `DepositionLocation` leaves it writable. -/
theorem DepositionLocation_setFieldAt_writable {T F : Type} (env : Env T F)
    (hl : env.WritesWhatItReads) (cur d : (DepositionLocation F)) (i : Option Nat) (v : JVal)
    (h : DepositionLocation.setFieldAt env cur i v = some d) (hw : DepositionLocation.Writable env cur) :
    DepositionLocation.Writable env d := by
  unfold DepositionLocation.setFieldAt at h
  by_cases h0 : i = some 0
  · rw [if_pos h0, Option.map_eq_some'] at h
    obtain ⟨x, hx, rfl⟩ := h
    exact ⟨unmarshalFloat_writable env hl v cur.Lat x hx hw.1, hw.2⟩
  rw [if_neg h0] at h
  by_cases h1 : i = some 1
  · rw [if_pos h1, Option.map_eq_some'] at h
    obtain ⟨x, hx, rfl⟩ := h
    exact ⟨hw.1, unmarshalFloat_writable env hl v cur.Long x hx hw.2⟩
  rw [if_neg h1] at h
  by_cases h2 : i = some 2
  · rw [if_pos h2, Option.map_eq_some'] at h
    obtain ⟨x, -, rfl⟩ := h
    exact hw
  rw [if_neg h2] at h
  by_cases h3 : i = some 3
  · rw [if_pos h3, Option.map_eq_some'] at h
    obtain ⟨x, -, rfl⟩ := h
    exact hw
  rw [if_neg h3] at h
  cases h
  exact hw
theorem DepositionLocation_unmarshal_writable {T F : Type} (env : Env T F)
    (hl : env.WritesWhatItReads) (v : JVal) (cur d : DepositionLocation F)
    (h : DepositionLocation.unmarshal env v cur = some d)
    (hw : DepositionLocation.Writable env cur) : DepositionLocation.Writable env d :=
  unmarshalStruct_invariant (DepositionLocation.setField env) (DepositionLocation.Writable env)
    (fun cur d _ v hs hp => DepositionLocation_setFieldAt_writable env hl cur d _ v hs hp)
    v cur d h hw

theorem unmarshalSlice_locations_writable {T F : Type} (env : Env T F)
    (hl : env.WritesWhatItReads) (v : JVal) (cur s : Option (List (DepositionLocation F)))
    (h : unmarshalSlice (DepositionLocation.unmarshal env) (DepositionLocation.zero env) v cur
      = some s) :
    ∀ ls, s = some ls → ∀ l ∈ ls, DepositionLocation.Writable env l := by
  intro ls hls l hl0
  subst hls
  cases v with
  | arr items =>
    simp only [unmarshalSlice, Option.map_eq_some', Option.some.injEq] at h
    obtain ⟨ls0, hls0, rfl⟩ := h
    exact mapAll_forall_mem _ (DepositionLocation.Writable env)
      (fun x y hxy => DepositionLocation_unmarshal_writable env hl x _ y hxy ⟨hl.2.1, hl.2.1⟩)
      items ls0 hls0 l hl0
  | null => simp [unmarshalSlice] at h
  | bool b => simp [unmarshalSlice] at h
  | num n => simp [unmarshalSlice] at h
  | str s => simp [unmarshalSlice] at h
  | obj members => simp [unmarshalSlice] at h

/-- Storing a value into a writable `DepositionMetadata` leaves it writable. -/
theorem DepositionMetadata_setFieldAt_writable {T F : Type} (env : Env T F)
    (hl : env.WritesWhatItReads) (cur d : (DepositionMetadata F)) (i : Option Nat) (v : JVal)
    (h : DepositionMetadata.setFieldAt env cur i v = some d) (hw : DepositionMetadata.Writable env cur) :
    DepositionMetadata.Writable env d := by
  unfold DepositionMetadata.setFieldAt at h
  by_cases h0 : i = some 0
  · rw [if_pos h0, Option.map_eq_some'] at h
    obtain ⟨x, -, rfl⟩ := h
    exact hw
  rw [if_neg h0] at h
  by_cases h1 : i = some 1
  · rw [if_pos h1, Option.map_eq_some'] at h
    obtain ⟨x, -, rfl⟩ := h
    exact hw
  rw [if_neg h1] at h
  by_cases h2 : i = some 2
  · rw [if_pos h2, Option.map_eq_some'] at h
    obtain ⟨x, -, rfl⟩ := h
    exact hw
  rw [if_neg h2] at h
  by_cases h3 : i = some 3
  · rw [if_pos h3, Option.map_eq_some'] at h
    obtain ⟨x, -, rfl⟩ := h
    exact hw
  rw [if_neg h3] at h
  by_cases h4 : i = some 4
  · rw [if_pos h4, Option.map_eq_some'] at h
    obtain ⟨x, -, rfl⟩ := h
    exact hw
  rw [if_neg h4] at h
  by_cases h5 : i = some 5
  · rw [if_pos h5, Option.map_eq_some'] at h
    obtain ⟨x, -, rfl⟩ := h
    exact hw
  rw [if_neg h5] at h
  by_cases h6 : i = some 6
  · rw [if_pos h6, Option.map_eq_some'] at h
    obtain ⟨x, -, rfl⟩ := h
    exact hw
  rw [if_neg h6] at h
  by_cases h7 : i = some 7
  · rw [if_pos h7, Option.map_eq_some'] at h
    obtain ⟨x, -, rfl⟩ := h
    exact hw
  rw [if_neg h7] at h
  by_cases h8 : i = some 8
  · rw [if_pos h8, Option.map_eq_some'] at h
    obtain ⟨x, -, rfl⟩ := h
    exact hw
  rw [if_neg h8] at h
  by_cases h9 : i = some 9
  · rw [if_pos h9, Option.map_eq_some'] at h
    obtain ⟨x, -, rfl⟩ := h
    exact hw
  rw [if_neg h9] at h
  by_cases h10 : i = some 10
  · rw [if_pos h10, Option.map_eq_some'] at h
    obtain ⟨x, -, rfl⟩ := h
    exact hw
  rw [if_neg h10] at h
  by_cases h11 : i = some 11
  · rw [if_pos h11, Option.map_eq_some'] at h
    obtain ⟨x, -, rfl⟩ := h
    exact hw
  rw [if_neg h11] at h
  by_cases h12 : i = some 12
  · rw [if_pos h12, Option.map_eq_some'] at h
    obtain ⟨x, -, rfl⟩ := h
    exact hw
  rw [if_neg h12] at h
  by_cases h13 : i = some 13
  · rw [if_pos h13, Option.map_eq_some'] at h
    obtain ⟨x, -, rfl⟩ := h
    exact hw
  rw [if_neg h13] at h
  by_cases h14 : i = some 14
  · rw [if_pos h14, Option.map_eq_some'] at h
    obtain ⟨x, -, rfl⟩ := h
    exact hw
  rw [if_neg h14] at h
  by_cases h15 : i = some 15
  · rw [if_pos h15, Option.map_eq_some'] at h
    obtain ⟨x, -, rfl⟩ := h
    exact hw
  rw [if_neg h15] at h
  by_cases h16 : i = some 16
  · rw [if_pos h16, Option.map_eq_some'] at h
    obtain ⟨x, -, rfl⟩ := h
    exact hw
  rw [if_neg h16] at h
  by_cases h17 : i = some 17
  · rw [if_pos h17, Option.map_eq_some'] at h
    obtain ⟨x, -, rfl⟩ := h
    exact hw
  rw [if_neg h17] at h
  by_cases h18 : i = some 18
  · rw [if_pos h18, Option.map_eq_some'] at h
    obtain ⟨x, -, rfl⟩ := h
    exact hw
  rw [if_neg h18] at h
  by_cases h19 : i = some 19
  · rw [if_pos h19, Option.map_eq_some'] at h
    obtain ⟨x, -, rfl⟩ := h
    exact hw
  rw [if_neg h19] at h
  by_cases h20 : i = some 20
  · rw [if_pos h20, Option.map_eq_some'] at h
    obtain ⟨x, -, rfl⟩ := h
    exact hw
  rw [if_neg h20] at h
  by_cases h21 : i = some 21
  · rw [if_pos h21, Option.map_eq_some'] at h
    obtain ⟨x, -, rfl⟩ := h
    exact hw
  rw [if_neg h21] at h
  by_cases h22 : i = some 22
  · rw [if_pos h22, Option.map_eq_some'] at h
    obtain ⟨x, -, rfl⟩ := h
    exact hw
  rw [if_neg h22] at h
  by_cases h23 : i = some 23
  · rw [if_pos h23, Option.map_eq_some'] at h
    obtain ⟨x, -, rfl⟩ := h
    exact hw
  rw [if_neg h23] at h
  by_cases h24 : i = some 24
  · rw [if_pos h24, Option.map_eq_some'] at h
    obtain ⟨x, -, rfl⟩ := h
    exact hw
  rw [if_neg h24] at h
  by_cases h25 : i = some 25
  · rw [if_pos h25, Option.map_eq_some'] at h
    obtain ⟨x, -, rfl⟩ := h
    exact hw
  rw [if_neg h25] at h
  by_cases h26 : i = some 26
  · rw [if_pos h26, Option.map_eq_some'] at h
    obtain ⟨x, -, rfl⟩ := h
    exact hw
  rw [if_neg h26] at h
  by_cases h27 : i = some 27
  · rw [if_pos h27, Option.map_eq_some'] at h
    obtain ⟨x, -, rfl⟩ := h
    exact hw
  rw [if_neg h27] at h
  by_cases h28 : i = some 28
  · rw [if_pos h28, Option.map_eq_some'] at h
    obtain ⟨x, -, rfl⟩ := h
    exact hw
  rw [if_neg h28] at h
  by_cases h29 : i = some 29
  · rw [if_pos h29, Option.map_eq_some'] at h
    obtain ⟨x, -, rfl⟩ := h
    exact hw
  rw [if_neg h29] at h
  by_cases h30 : i = some 30
  · rw [if_pos h30, Option.map_eq_some'] at h
    obtain ⟨x, -, rfl⟩ := h
    exact hw
  rw [if_neg h30] at h
  by_cases h31 : i = some 31
  · rw [if_pos h31, Option.map_eq_some'] at h
    obtain ⟨x, -, rfl⟩ := h
    exact hw
  rw [if_neg h31] at h
  by_cases h32 : i = some 32
  · rw [if_pos h32, Option.map_eq_some'] at h
    obtain ⟨x, -, rfl⟩ := h
    exact hw
  rw [if_neg h32] at h
  by_cases h33 : i = some 33
  · rw [if_pos h33, Option.map_eq_some'] at h
    obtain ⟨x, -, rfl⟩ := h
    exact hw
  rw [if_neg h33] at h
  by_cases h34 : i = some 34
  · rw [if_pos h34, Option.map_eq_some'] at h
    obtain ⟨x, -, rfl⟩ := h
    exact hw
  rw [if_neg h34] at h
  by_cases h35 : i = some 35
  · rw [if_pos h35, Option.map_eq_some'] at h
    obtain ⟨x, -, rfl⟩ := h
    exact hw
  rw [if_neg h35] at h
  by_cases h36 : i = some 36
  · rw [if_pos h36, Option.map_eq_some'] at h
    obtain ⟨x, -, rfl⟩ := h
    exact hw
  rw [if_neg h36] at h
  by_cases h37 : i = some 37
  · rw [if_pos h37, Option.map_eq_some'] at h
    obtain ⟨x, -, rfl⟩ := h
    exact hw
  rw [if_neg h37] at h
  by_cases h38 : i = some 38
  · rw [if_pos h38, Option.map_eq_some'] at h
    obtain ⟨x, -, rfl⟩ := h
    exact hw
  rw [if_neg h38] at h
  by_cases h39 : i = some 39
  · rw [if_pos h39, Option.map_eq_some'] at h
    obtain ⟨x, -, rfl⟩ := h
    exact hw
  rw [if_neg h39] at h
  by_cases h40 : i = some 40
  · rw [if_pos h40, Option.map_eq_some'] at h
    obtain ⟨x, -, rfl⟩ := h
    exact hw
  rw [if_neg h40] at h
  by_cases h41 : i = some 41
  · rw [if_pos h41, Option.map_eq_some'] at h
    obtain ⟨x, hx, rfl⟩ := h
    exact unmarshalSlice_locations_writable env hl v cur.Locations x hx
  rw [if_neg h41] at h
  by_cases h42 : i = some 42
  · rw [if_pos h42, Option.map_eq_some'] at h
    obtain ⟨x, -, rfl⟩ := h
    exact hw
  rw [if_neg h42] at h
  by_cases h43 : i = some 43
  · rw [if_pos h43, Option.map_eq_some'] at h
    obtain ⟨x, -, rfl⟩ := h
    exact hw
  rw [if_neg h43] at h
  cases h
  exact hw
theorem DepositionMetadata_unmarshal_writable {T F : Type} (env : Env T F)
    (hl : env.WritesWhatItReads) (v : JVal) (cur d : DepositionMetadata F)
    (h : DepositionMetadata.unmarshal env v cur = some d)
    (hw : DepositionMetadata.Writable env cur) : DepositionMetadata.Writable env d :=
  unmarshalStruct_invariant (DepositionMetadata.setField env) (DepositionMetadata.Writable env)
    (fun cur d _ v hs hp => DepositionMetadata_setFieldAt_writable env hl cur d _ v hs hp)
    v cur d h hw

/-- Storing a value into a writable `Deposition` leaves it writable. -/
theorem Deposition_setFieldAt_writable {T F : Type} (env : Env T F)
    (hl : env.WritesWhatItReads) (cur d : (Deposition T F)) (i : Option Nat) (v : JVal)
    (h : Deposition.setFieldAt env cur i v = some d) (hw : Deposition.Writable env cur) :
    Deposition.Writable env d := by
  unfold Deposition.setFieldAt at h
  by_cases h0 : i = some 0
  · rw [if_pos h0, Option.map_eq_some'] at h
    obtain ⟨x, hx, rfl⟩ := h
    exact ⟨unmarshalTime_writable env hl v cur.Created x hx hw.1, hw.2.1, hw.2.2⟩
  rw [if_neg h0] at h
  by_cases h1 : i = some 1
  · rw [if_pos h1, Option.map_eq_some'] at h
    obtain ⟨x, -, rfl⟩ := h
    exact hw
  rw [if_neg h1] at h
  by_cases h2 : i = some 2
  · rw [if_pos h2, Option.map_eq_some'] at h
    obtain ⟨x, -, rfl⟩ := h
    exact hw
  rw [if_neg h2] at h
  by_cases h3 : i = some 3
  · rw [if_pos h3, Option.map_eq_some'] at h
    obtain ⟨x, -, rfl⟩ := h
    exact hw
  rw [if_neg h3] at h
  by_cases h4 : i = some 4
  · rw [if_pos h4, Option.map_eq_some'] at h
    obtain ⟨x, -, rfl⟩ := h
    exact hw
  rw [if_neg h4] at h
  by_cases h5 : i = some 5
  · rw [if_pos h5, Option.map_eq_some'] at h
    obtain ⟨x, -, rfl⟩ := h
    exact hw
  rw [if_neg h5] at h
  by_cases h6 : i = some 6
  · rw [if_pos h6, Option.map_eq_some'] at h
    obtain ⟨x, hx, rfl⟩ := h
    exact ⟨hw.1, hw.2.1, DepositionMetadata_unmarshal_writable env hl v cur.Metadata x hx hw.2.2⟩
  rw [if_neg h6] at h
  by_cases h7 : i = some 7
  · rw [if_pos h7, Option.map_eq_some'] at h
    obtain ⟨x, hx, rfl⟩ := h
    exact ⟨hw.1, unmarshalTime_writable env hl v cur.Modified x hx hw.2.1, hw.2.2⟩
  rw [if_neg h7] at h
  by_cases h8 : i = some 8
  · rw [if_pos h8, Option.map_eq_some'] at h
    obtain ⟨x, -, rfl⟩ := h
    exact hw
  rw [if_neg h8] at h
  by_cases h9 : i = some 9
  · rw [if_pos h9, Option.map_eq_some'] at h
    obtain ⟨x, -, rfl⟩ := h
    exact hw
  rw [if_neg h9] at h
  by_cases h10 : i = some 10
  · rw [if_pos h10, Option.map_eq_some'] at h
    obtain ⟨x, -, rfl⟩ := h
    exact hw
  rw [if_neg h10] at h
  by_cases h11 : i = some 11
  · rw [if_pos h11, Option.map_eq_some'] at h
    obtain ⟨x, -, rfl⟩ := h
    exact hw
  rw [if_neg h11] at h
  by_cases h12 : i = some 12
  · rw [if_pos h12, Option.map_eq_some'] at h
    obtain ⟨x, -, rfl⟩ := h
    exact hw
  rw [if_neg h12] at h
  by_cases h13 : i = some 13
  · rw [if_pos h13, Option.map_eq_some'] at h
    obtain ⟨x, -, rfl⟩ := h
    exact hw
  rw [if_neg h13] at h
  cases h
  exact hw
/-- A Deposition that was unmarshalled from JSON, starting from the zero
value, can be marshalled. -/
theorem Deposition_unmarshal_writable {T F : Type} (env : Env T F)
    (hl : env.WritesWhatItReads) (v : JVal) (d : Deposition T F)
    (h : Deposition.unmarshal env v (Deposition.zero env) = some d) :
    Deposition.Writable env d :=
  unmarshalStruct_invariant (Deposition.setField env) (Deposition.Writable env)
    (fun cur d _ v hs hp => Deposition_setFieldAt_writable env hl cur d _ v hs hp)
    v (Deposition.zero env) d h
    ⟨hl.1, hl.1, fun ls hls => by cases hls⟩

/-- The mock environment can write what it reads. -/
theorem mockEnv_writesWhatItReads (files : List (String × List UInt8)) (docs : List (String × JVal))
    (server : Request → Except String Response) :
    (mockEnv files docs server).WritesWhatItReads := by
  refine ⟨rfl, rfl, ?_, ?_⟩
  · intro s t h
    simp only [mockEnv, Option.some.injEq] at h
    subst h
    rfl
  · intro n x h
    simp only [mockEnv, Option.some.injEq] at h
    subst h
    rfl

/-! ## Theorems -/

/-- C1: with an empty token, each of the six operations returns the error
"token not set. use SetAccessToken" with a nil result and gives no request to
the HTTP client, whatever the arguments and whatever the environment (so
also when the local file of UploadFile cannot be read). -/
theorem empty_token_precondition {T F : Type} (env : Env T F) (c : Config)
    (h : c.Token = "") (id : GoInt) (d : Option (Deposition T F))
    (bucketID fileName path : String) :
    CreateDeposition env c = .returned none (some "token not set. use SetAccessToken") [] ∧
    GetDeposition env c id = .returned none (some "token not set. use SetAccessToken") [] ∧
    UpdateDeposition env c d = .returned none (some "token not set. use SetAccessToken") [] ∧
    DeleteDeposition env c id = .returned () (some "token not set. use SetAccessToken") [] ∧
    ListDepositions env c = .returned none (some "token not set. use SetAccessToken") [] ∧
    UploadFile env c bucketID fileName path
      = .returned none (some "token not set. use SetAccessToken") [] := by
  simp [CreateDeposition, GetDeposition, UpdateDeposition, DeleteDeposition, ListDepositions,
    UploadFile, h]

/-- Witness of C1: the initial configuration (no token), an unreachable
server and no local file. -/
theorem empty_token_precondition_witness :
    Config.initial.Token = "" ∧
    (mockEnv [] [] noServer).readFile "missing.txt"
      = .error "open missing.txt: no such file or directory" ∧
    (UploadFile (mockEnv [] [] noServer) Config.initial "https://b" "f.txt" "missing.txt").calls
      = [] ∧
    (UploadFile (mockEnv [] [] noServer) Config.initial "https://b" "f.txt" "missing.txt").failed
      = true :=
  ⟨rfl, rfl,
   by rw [(empty_token_precondition (mockEnv [] [] noServer) Config.initial rfl GoInt.zero none
        "https://b" "f.txt" "missing.txt").2.2.2.2.2]; rfl,
   by rw [(empty_token_precondition (mockEnv [] [] noServer) Config.initial rfl GoInt.zero none
        "https://b" "f.txt" "missing.txt").2.2.2.2.2]; rfl⟩

/-- C2 as stated fails: with the token set, DeleteDeposition gets status 409
with the body "conflict", and its error message "couldn't delete deposition"
does not contain the body. -/
theorem error_carries_body_counterexample :
    (SetAccessToken Config.initial "t").Token ≠ "" ∧
    Answered (mockEnv [] [] (fixedServer 409 "conflict"))
      (DeleteDeposition (mockEnv [] [] (fixedServer 409 "conflict"))
        (SetAccessToken Config.initial "t") ⟨42, by decide⟩)
      { statusCode := 409, body := some "conflict" } ∧
    (409 : Int) ≠ 204 ∧
    (DeleteDeposition (mockEnv [] [] (fixedServer 409 "conflict"))
        (SetAccessToken Config.initial "t") ⟨42, by decide⟩).err
      = some (some "couldn't delete deposition") ∧
    ¬ (DeleteDeposition (mockEnv [] [] (fixedServer 409 "conflict"))
        (SetAccessToken Config.initial "t") ⟨42, by decide⟩).errContains "conflict" := by
  refine ⟨by decide, ⟨_, rfl, rfl⟩, by decide, rfl, ?_⟩
  decide

/-- C2, amended: when the round trip completes with a status other than the
expected one and the body `b`, CreateDeposition, GetDeposition and
UpdateDeposition return the message "couldn't ... (" ++ b ++ ")", which
contains `b`; DeleteDeposition, ListDepositions and UploadFile return a fixed
message, the same for every body. -/
theorem status_mismatch_message {T F : Type} (env : Env T F) (c : Config) (res : Response)
    (b : String) (hb : res.body = some b)
    (id : GoInt) (d : Option (Deposition T F)) (bucketID fileName path : String) :
    (Answered env (CreateDeposition env c) res → res.statusCode ≠ 201 →
      (CreateDeposition env c).err = some (some ("couldn't create deposition (" ++ b ++ ")"))) ∧
    (Answered env (GetDeposition env c id) res → res.statusCode ≠ 200 →
      (GetDeposition env c id).err = some (some ("couldn't get deposition (" ++ b ++ ")"))) ∧
    (Answered env (UpdateDeposition env c d) res → res.statusCode ≠ 200 →
      (UpdateDeposition env c d).err = some (some ("couldn't updatedeposition (" ++ b ++ ")"))) ∧
    (Answered env (DeleteDeposition env c id) res → res.statusCode ≠ 204 →
      (DeleteDeposition env c id).err = some (some "couldn't delete deposition")) ∧
    (Answered env (ListDepositions env c) res → res.statusCode ≠ 200 →
      (ListDepositions env c).err = some (some "couldn't get depositions")) ∧
    (Answered env (UploadFile env c bucketID fileName path) res → res.statusCode ≠ 201 →
      (UploadFile env c bucketID fileName path).err = some (some "couldn't upload file")) := by
  refine ⟨?_, ?_, ?_, ?_, ?_, ?_⟩
  · rintro ⟨req, hc, hr⟩ hs
    rw [CreateDeposition_of_answered env c req res hc hr, hb]
    simp [hs, Run.err]
  · rintro ⟨req, hc, hr⟩ hs
    rw [GetDeposition_of_answered env c id req res hc hr, hb]
    simp [hs, Run.err]
  · rintro ⟨req, hc, hr⟩ hs
    rw [UpdateDeposition_of_answered env c d req res hc hr, hb]
    simp [hs, Run.err]
  · rintro ⟨req, hc, hr⟩ hs
    rw [DeleteDeposition_of_answered env c id req res hc hr]
    simp [hs, Run.err]
  · rintro ⟨req, hc, hr⟩ hs
    rw [ListDepositions_of_answered env c req res hc hr, hb]
    simp [hs, Run.err]
  · rintro ⟨req, hc, hr⟩ hs
    rw [UploadFile_of_answered env c bucketID fileName path req res hc hr, hb]
    simp [hs, Run.err]

/-- Witness of the amended C2: GetDeposition answered with 404 and the body
"not found". -/
theorem status_mismatch_message_witness :
    (GetDeposition (mockEnv [] [] (fixedServer 404 "not found"))
        (SetAccessToken Config.initial "t") ⟨42, by decide⟩).err
      = some (some "couldn't get deposition (not found)") :=
  (status_mismatch_message (mockEnv [] [] (fixedServer 404 "not found"))
      (SetAccessToken Config.initial "t") { statusCode := 404, body := some "not found" }
      "not found" rfl ⟨42, by decide⟩ none "" "" "").2.1 ⟨_, rfl, rfl⟩ (by decide)

/-- C3: each operation accepts a single status code (Create 201, Get 200,
Update 200, Delete 204, List 200, UploadFile 201): when its round trip
completes with any other status it returns a non-nil error, whatever the
body; and DeleteDeposition returns a nil error exactly when the status is
204. -/
theorem single_accepted_status {T F : Type} (env : Env T F) (c : Config) (res : Response)
    (id : GoInt) (d : Option (Deposition T F)) (bucketID fileName path : String) :
    (Answered env (CreateDeposition env c) res → res.statusCode ≠ 201 →
      (CreateDeposition env c).failed = true) ∧
    (Answered env (GetDeposition env c id) res → res.statusCode ≠ 200 →
      (GetDeposition env c id).failed = true) ∧
    (Answered env (UpdateDeposition env c d) res → res.statusCode ≠ 200 →
      (UpdateDeposition env c d).failed = true) ∧
    (Answered env (DeleteDeposition env c id) res → res.statusCode ≠ 204 →
      (DeleteDeposition env c id).failed = true) ∧
    (Answered env (ListDepositions env c) res → res.statusCode ≠ 200 →
      (ListDepositions env c).failed = true) ∧
    (Answered env (UploadFile env c bucketID fileName path) res → res.statusCode ≠ 201 →
      (UploadFile env c bucketID fileName path).failed = true) ∧
    (Answered env (DeleteDeposition env c id) res →
      ((DeleteDeposition env c id).err = some none ↔ res.statusCode = 204)) := by
  refine ⟨?_, ?_, ?_, ?_, ?_, ?_, ?_⟩
  · rintro ⟨req, hc, hr⟩ hs
    rw [CreateDeposition_of_answered env c req res hc hr]
    cases res.body <;> simp [hs, Run.failed]
  · rintro ⟨req, hc, hr⟩ hs
    rw [GetDeposition_of_answered env c id req res hc hr]
    cases res.body <;> simp [hs, Run.failed]
  · rintro ⟨req, hc, hr⟩ hs
    rw [UpdateDeposition_of_answered env c d req res hc hr]
    cases res.body <;> simp [hs, Run.failed]
  · rintro ⟨req, hc, hr⟩ hs
    rw [DeleteDeposition_of_answered env c id req res hc hr]
    simp [hs, Run.failed]
  · rintro ⟨req, hc, hr⟩ hs
    rw [ListDepositions_of_answered env c req res hc hr]
    cases res.body <;> simp [hs, Run.failed]
  · rintro ⟨req, hc, hr⟩ hs
    rw [UploadFile_of_answered env c bucketID fileName path req res hc hr]
    cases res.body <;> simp [hs, Run.failed]
  · rintro ⟨req, hc, hr⟩
    rw [DeleteDeposition_of_answered env c id req res hc hr]
    by_cases hs : res.statusCode = 204 <;> simp [hs, Run.err]

/-- Witness of C3: DeleteDeposition answered with 409 returns an error, and
answered with 204 returns none. -/
theorem single_accepted_status_witness :
    (DeleteDeposition (mockEnv [] [] (fixedServer 409 "conflict"))
        (SetAccessToken Config.initial "t") ⟨42, by decide⟩).failed = true ∧
    (DeleteDeposition (mockEnv [] [] (fixedServer 204 ""))
        (SetAccessToken Config.initial "t") ⟨42, by decide⟩).err = some none :=
  ⟨(single_accepted_status (mockEnv [] [] (fixedServer 409 "conflict"))
      (SetAccessToken Config.initial "t") { statusCode := 409, body := some "conflict" }
      ⟨42, by decide⟩ none "" "" "").2.2.2.1 ⟨_, rfl, rfl⟩ (by decide),
   ((single_accepted_status (mockEnv [] [] (fixedServer 204 ""))
      (SetAccessToken Config.initial "t") { statusCode := 204, body := some "" }
      ⟨42, by decide⟩ none "" "" "").2.2.2.2.2.2 ⟨_, rfl, rfl⟩).2 rfl⟩

/-- C4: when the round trip of CreateDeposition, GetDeposition or
UpdateDeposition completes with a status other than the expected one (201,
200, 200) and the body `b`, the operation returns a nil deposition and an
error whose message contains `b`. -/
theorem rejection_returns_nil_and_body {T F : Type} (env : Env T F) (c : Config)
    (res : Response) (b : String) (hb : res.body = some b)
    (id : GoInt) (d : Option (Deposition T F)) :
    (Answered env (CreateDeposition env c) res → res.statusCode ≠ 201 →
      (CreateDeposition env c).result = some none ∧
      (CreateDeposition env c).errContains b) ∧
    (Answered env (GetDeposition env c id) res → res.statusCode ≠ 200 →
      (GetDeposition env c id).result = some none ∧
      (GetDeposition env c id).errContains b) ∧
    (Answered env (UpdateDeposition env c d) res → res.statusCode ≠ 200 →
      (UpdateDeposition env c d).result = some none ∧
      (UpdateDeposition env c d).errContains b) := by
  refine ⟨?_, ?_, ?_⟩
  · rintro ⟨req, hc, hr⟩ hs
    rw [CreateDeposition_of_answered env c req res hc hr, hb]
    simp only [hs, ne_eq, not_false_eq_true, if_true, Run.result, Run.errContains, true_and]
    exact ⟨"couldn't create deposition (".data, ")".data, by simp⟩
  · rintro ⟨req, hc, hr⟩ hs
    rw [GetDeposition_of_answered env c id req res hc hr, hb]
    simp only [hs, ne_eq, not_false_eq_true, if_true, Run.result, Run.errContains, true_and]
    exact ⟨"couldn't get deposition (".data, ")".data, by simp⟩
  · rintro ⟨req, hc, hr⟩ hs
    rw [UpdateDeposition_of_answered env c d req res hc hr, hb]
    simp only [hs, ne_eq, not_false_eq_true, if_true, Run.result, Run.errContains, true_and]
    exact ⟨"couldn't updatedeposition (".data, ")".data, by simp⟩

/-- Witness of C4: GetDeposition answered with 404 and the body
"no such deposition". -/
theorem rejection_returns_nil_and_body_witness :
    (GetDeposition (mockEnv [] [] (fixedServer 404 "no such deposition"))
        (SetAccessToken Config.initial "t") ⟨42, by decide⟩).result = some none ∧
    (GetDeposition (mockEnv [] [] (fixedServer 404 "no such deposition"))
        (SetAccessToken Config.initial "t") ⟨42, by decide⟩).errContains "no such deposition" :=
  (rejection_returns_nil_and_body (mockEnv [] [] (fixedServer 404 "no such deposition"))
      (SetAccessToken Config.initial "t")
      { statusCode := 404, body := some "no such deposition" }
      "no such deposition" rfl ⟨42, by decide⟩ none).2.1 ⟨_, rfl, rfl⟩ (by decide)

/-- C7 as stated fails, in two ways.  The token is set and the local file is
readable in both.  With a line feed in the file name, `http.NewRequest`
rejects the URL and UploadFile returns that error without any request.  With
a space in the file name, the one request that is made carries the URL as
parsed, in which the space is escaped, and this is not B + "/" + f; with a
number sign in the file name, what follows it is not part of what is sent. -/
theorem upload_issues_put_counterexample :
    (SetAccessToken Config.initial "t").Token ≠ "" ∧
    (mockEnv [("f.txt", utf8 "hello")] [] (fixedServer 201 "null")).readFile "f.txt"
      = .ok (utf8 "hello") ∧
    UploadFile (mockEnv [("f.txt", utf8 "hello")] [] (fixedServer 201 "null"))
        (SetAccessToken Config.initial "t") "https://b" "a\nb.txt" "f.txt"
      = .returned none (some "net/url: invalid control character in URL") [] ∧
    (UploadFile (mockEnv [("f.txt", utf8 "hello")] [] (fixedServer 201 "null"))
        (SetAccessToken Config.initial "t") "https://b" "my file.txt" "f.txt").calls =
      [{ method := "PUT", url := "https://b/my file.txt",
         target := "https://b/my%20file.txt",
         header := [("Authorization", "Bearer t")], body := utf8 "hello" }] ∧
    "https://b/my%20file.txt" ≠ "https://b" ++ "/" ++ "my file.txt" ∧
    (UploadFile (mockEnv [("f.txt", utf8 "hello")] [] (fixedServer 201 "null"))
        (SetAccessToken Config.initial "t") "https://b" "a#b.txt" "f.txt").calls =
      [{ method := "PUT", url := "https://b/a#b.txt",
         target := "https://b/a",
         header := [("Authorization", "Bearer t")], body := utf8 "hello" }] ∧
    "https://b/a" ≠ "https://b" ++ "/" ++ "a#b.txt" := by
  refine ⟨by decide, rfl, rfl, rfl, by decide, rfl, by decide⟩

/-- C7, amended: with the token set, when the local file is readable and
`http.NewRequest` accepts the URL text B + "/" + f, UploadFile gives the
HTTP client exactly one request, a PUT built from exactly the text
B + "/" + f, which carries as its target what the URL parser makes of this
text (the text itself whenever the parser leaves it as it is), with the header
Authorization alone, and whose body is exactly the bytes of the file,
whatever they are; when the file is readable and the URL is rejected, it
returns that error and no request is made; when the file cannot be read, it
returns the read error and no request is made. -/
theorem upload_request {T F : Type} (env : Env T F) (c : Config) (ht : c.Token ≠ "")
    (bucketID fileName path : String) :
    (∀ fileData, env.readFile path = .ok fileData →
      env.urlError (bucketID ++ "/" ++ fileName) = none →
      (UploadFile env c bucketID fileName path).calls =
        [{ method := "PUT", url := bucketID ++ "/" ++ fileName,
           target := env.urlTarget (bucketID ++ "/" ++ fileName),
           header := [("Authorization", "Bearer " ++ c.Token)], body := fileData }] ∧
      (env.urlTarget (bucketID ++ "/" ++ fileName) = bucketID ++ "/" ++ fileName →
        ∀ req ∈ (UploadFile env c bucketID fileName path).calls,
          req.target = bucketID ++ "/" ++ fileName ∧ req.body = fileData)) ∧
    (∀ fileData err, env.readFile path = .ok fileData →
      env.urlError (bucketID ++ "/" ++ fileName) = some err →
      UploadFile env c bucketID fileName path = .returned none (some err) []) ∧
    (∀ err, env.readFile path = .error err →
      UploadFile env c bucketID fileName path = .returned none (some err) []) := by
  refine ⟨?_, ?_, ?_⟩
  · intro fileData hf hu
    have hcalls : (UploadFile env c bucketID fileName path).calls =
        [uploadRequest env c (bucketID ++ "/" ++ fileName) fileData] := by
      rw [UploadFile_calls env c bucketID fileName path fileData ht hf, hu]
    refine ⟨hcalls, ?_⟩
    intro hp req hreq
    rw [hcalls, List.mem_singleton] at hreq
    rw [hreq]
    exact ⟨hp, rfl⟩
  · intro fileData err hf hu
    simp [UploadFile, newRequest, ht, hf, hu]
  · intro err hf
    simp [UploadFile, ht, hf]

/-- Witness of the amended C7: the file "raw.bin" holds three bytes that are
not UTF-8 and is sent as it is to "https://b/f.txt"; the file "missing.txt"
does not exist. -/
theorem upload_request_witness :
    (UploadFile (mockEnv [("raw.bin", [0xff, 0xfe, 0x00])] [] (fixedServer 201 "null"))
        (SetAccessToken Config.initial "t") "https://b" "f.txt" "raw.bin").calls =
      [{ method := "PUT", url := "https://b/f.txt", target := "https://b/f.txt",
         header := [("Authorization", "Bearer t")], body := [0xff, 0xfe, 0x00] }] ∧
    UploadFile (mockEnv [("raw.bin", [0xff, 0xfe, 0x00])] [] (fixedServer 201 "null"))
        (SetAccessToken Config.initial "t") "https://b" "f.txt" "missing.txt"
      = .returned none (some "open missing.txt: no such file or directory") [] :=
  ⟨((upload_request (mockEnv [("raw.bin", [0xff, 0xfe, 0x00])] [] (fixedServer 201 "null"))
      (SetAccessToken Config.initial "t") (by decide) "https://b" "f.txt" "raw.bin").1
      [0xff, 0xfe, 0x00] rfl rfl).1,
   (upload_request (mockEnv [("raw.bin", [0xff, 0xfe, 0x00])] [] (fixedServer 201 "null"))
      (SetAccessToken Config.initial "t") (by decide) "https://b" "f.txt" "missing.txt").2.2
      "open missing.txt: no such file or directory" rfl⟩

/-- C8: every request of CreateDeposition is a POST and every request of
ListDepositions a GET to base + "/api/deposit/depositions"; every request of
GetDeposition (GET), UpdateDeposition (PUT, id = d.ID) and DeleteDeposition
(DELETE) goes to base + "/api/deposit/depositions/" + decimal(id); with the
token set and the URL accepted the request is made; base is the sandbox URL
when sandbox mode is true and the production URL when it is false, sandbox
mode is true initially, SetSandboxMode(m) makes m decide, and UploadFile
does not depend on sandbox mode. -/
theorem request_line {T F : Type} (env : Env T F) (c : Config) (id : GoInt)
    (d : Deposition T F) (m : Bool) (bucketID fileName path : String) :
    (∀ req ∈ (CreateDeposition env c).calls,
      req.method = "POST" ∧ req.url = zenodoBaseURL c ++ "/api/deposit/depositions") ∧
    (∀ req ∈ (ListDepositions env c).calls,
      req.method = "GET" ∧ req.url = zenodoBaseURL c ++ "/api/deposit/depositions") ∧
    (∀ req ∈ (GetDeposition env c id).calls,
      req.method = "GET" ∧
      req.url = zenodoBaseURL c ++ "/api/deposit/depositions/" ++ toString id.val) ∧
    (∀ req ∈ (UpdateDeposition env c (some d)).calls,
      req.method = "PUT" ∧
      req.url = zenodoBaseURL c ++ "/api/deposit/depositions/" ++ toString d.ID.val) ∧
    (∀ req ∈ (DeleteDeposition env c id).calls,
      req.method = "DELETE" ∧
      req.url = zenodoBaseURL c ++ "/api/deposit/depositions/" ++ toString id.val) ∧
    (c.Token ≠ "" →
      env.urlError (zenodoBaseURL c ++ "/api/deposit/depositions/" ++ toString id.val) = none →
      (GetDeposition env c id).calls =
        [jsonRequest env c "GET"
          (zenodoBaseURL c ++ "/api/deposit/depositions/" ++ toString id.val) "{}"]) ∧
    zenodoBaseURL c = (if c.SandboxMode = true then c.SandboxURL else c.ProdURL) ∧
    Config.initial.SandboxMode = true ∧
    zenodoBaseURL (SetSandboxMode c m) = (if m = true then c.SandboxURL else c.ProdURL) ∧
    UploadFile env (SetSandboxMode c m) bucketID fileName path
      = UploadFile env c bucketID fileName path := by
  refine ⟨?_, ?_, ?_, ?_, ?_, ?_, ?_, rfl, ?_, rfl⟩
  · intro req h
    rw [CreateDeposition_issued env c req h]
    exact ⟨rfl, rfl⟩
  · intro req h
    rw [ListDepositions_issued env c req h]
    exact ⟨rfl, rfl⟩
  · intro req h
    rw [GetDeposition_issued env c id req h]
    exact ⟨rfl, rfl⟩
  · intro req h
    obtain ⟨d0, j, hd, _, hreq⟩ := UpdateDeposition_issued env c (some d) req h
    cases hd
    rw [hreq]
    exact ⟨rfl, rfl⟩
  · intro req h
    rw [DeleteDeposition_issued env c id req h]
    exact ⟨rfl, rfl⟩
  · intro ht hu
    rw [GetDeposition_calls env c id ht, hu]
  · cases hs : c.SandboxMode <;> simp [zenodoBaseURL, hs]
  · cases m <;> simp [zenodoBaseURL, SetSandboxMode]

/-- Witness of C8: with the initial configuration and a token,
GetDeposition(42) sends its request to the sandbox URL, path
/api/deposit/depositions/42, and after SetSandboxMode(false) to the
production URL. -/
theorem request_line_witness :
    (GetDeposition (mockEnv [] [] (fixedServer 200 "null"))
        (SetAccessToken Config.initial "t") ⟨42, by decide⟩).calls =
      [{ method := "GET", url := "https://sandbox.zenodo.org/api/deposit/depositions/42",
         target := "https://sandbox.zenodo.org/api/deposit/depositions/42",
         header := [("Content-Type", "application/json"), ("Authorization", "Bearer t")],
         body := utf8 "{}" }] ∧
    (GetDeposition (mockEnv [] [] (fixedServer 200 "null"))
        (SetSandboxMode (SetAccessToken Config.initial "t") false) ⟨42, by decide⟩).calls =
      [{ method := "GET", url := "https://zenodo.org/api/deposit/depositions/42",
         target := "https://zenodo.org/api/deposit/depositions/42",
         header := [("Content-Type", "application/json"), ("Authorization", "Bearer t")],
         body := utf8 "{}" }] :=
  ⟨(request_line (mockEnv [] [] (fixedServer 200 "null"))
      (SetAccessToken Config.initial "t") ⟨42, by decide⟩
      (Deposition.zero (mockEnv [] [] (fixedServer 200 "null"))) true "" "" "").2.2.2.2.2.1
      (by decide) rfl,
   (request_line (mockEnv [] [] (fixedServer 200 "null"))
      (SetSandboxMode (SetAccessToken Config.initial "t") false) ⟨42, by decide⟩
      (Deposition.zero (mockEnv [] [] (fixedServer 200 "null"))) true "" "" "").2.2.2.2.2.1
      (by decide) rfl⟩

/-- C10: every request of the six operations carries the header
Authorization with the value "Bearer " + token; the requests of Create, Get,
Update, Delete and List carry Content-Type: application/json as well, and
the request of UploadFile has no Content-Type (Authorization is its only
header). -/
theorem request_headers {T F : Type} (env : Env T F) (c : Config) (id : GoInt)
    (d : Option (Deposition T F)) (bucketID fileName path : String) :
    (∀ req, (req ∈ (CreateDeposition env c).calls ∨ req ∈ (GetDeposition env c id).calls ∨
        req ∈ (UpdateDeposition env c d).calls ∨ req ∈ (DeleteDeposition env c id).calls ∨
        req ∈ (ListDepositions env c).calls) →
      req.header = [("Content-Type", "application/json"), ("Authorization", "Bearer " ++ c.Token)] ∧
      req.headerGet "Authorization" = some ("Bearer " ++ c.Token) ∧
      req.headerGet "Content-Type" = some "application/json") ∧
    (∀ req ∈ (UploadFile env c bucketID fileName path).calls,
      req.header = [("Authorization", "Bearer " ++ c.Token)] ∧
      req.headerGet "Authorization" = some ("Bearer " ++ c.Token) ∧
      req.headerGet "Content-Type" = none) := by
  have key : ∀ (m u b : String),
      (jsonRequest env c m u b).header
          = [("Content-Type", "application/json"), ("Authorization", "Bearer " ++ c.Token)] ∧
        (jsonRequest env c m u b).headerGet "Authorization" = some ("Bearer " ++ c.Token) ∧
        (jsonRequest env c m u b).headerGet "Content-Type" = some "application/json" := by
    intro m u b
    simp [jsonRequest, Request.headerGet, List.lookup]
  refine ⟨?_, ?_⟩
  · rintro req (h | h | h | h | h)
    · rw [CreateDeposition_issued env c req h]; exact key _ _ _
    · rw [GetDeposition_issued env c id req h]; exact key _ _ _
    · obtain ⟨d0, j, _, _, hreq⟩ := UpdateDeposition_issued env c d req h
      rw [hreq]; exact key _ _ _
    · rw [DeleteDeposition_issued env c id req h]; exact key _ _ _
    · rw [ListDepositions_issued env c req h]; exact key _ _ _
  · intro req h
    obtain ⟨fileData, _, hreq⟩ := UploadFile_issued env c bucketID fileName path req h
    rw [hreq]
    simp [uploadRequest, Request.headerGet, List.lookup]

/-- Witness of C10: the requests of DeleteDeposition and of UploadFile under
the token "t". -/
theorem request_headers_witness :
    (∀ req ∈ (DeleteDeposition (mockEnv [("f.txt", utf8 "hello")] [] (fixedServer 204 ""))
        (SetAccessToken Config.initial "t") ⟨42, by decide⟩).calls,
      req.header = [("Content-Type", "application/json"), ("Authorization", "Bearer t")]) ∧
    (UploadFile (mockEnv [("f.txt", utf8 "hello")] [] (fixedServer 204 ""))
        (SetAccessToken Config.initial "t") "https://b" "f.txt" "f.txt").calls ≠ [] ∧
    (∀ req ∈ (UploadFile (mockEnv [("f.txt", utf8 "hello")] [] (fixedServer 204 ""))
        (SetAccessToken Config.initial "t") "https://b" "f.txt" "f.txt").calls,
      req.headerGet "Content-Type" = none) :=
  ⟨fun req h => ((request_headers (mockEnv [("f.txt", utf8 "hello")] [] (fixedServer 204 ""))
      (SetAccessToken Config.initial "t") ⟨42, by decide⟩ none "https://b" "f.txt" "f.txt").1
      req (Or.inr (Or.inr (Or.inr (Or.inl h))))).1,
   by decide,
   fun req h => ((request_headers (mockEnv [("f.txt", utf8 "hello")] [] (fixedServer 204 ""))
      (SetAccessToken Config.initial "t") ⟨42, by decide⟩ none "https://b" "f.txt" "f.txt").2
      req h).2.2⟩

/-- C5 as stated fails: the token is set and the deposition is non-nil, but
its creation time has a year that `json.Marshal` refuses, and
UpdateDeposition returns the marshalling error without any request. -/
theorem update_issues_put_counterexample :
    (SetAccessToken Config.initial "t").Token ≠ "" ∧
    UpdateDeposition (mockEnv [] [] (fixedServer 200 "null")) (SetAccessToken Config.initial "t")
        (some { Deposition.zero (mockEnv [] [] (fixedServer 200 "null")) with
                Created := MockTime.yearOutOfRange })
      = .returned none (some "json: error calling MarshalJSON or unsupported value") [] :=
  ⟨by decide, rfl⟩

/-- C5, amended: with the token set, for every non-nil Deposition d whose
strings hold valid UTF-8 (the strings of this embedding).  When `json.Marshal`
can write d and `http.NewRequest` accepts the URL, UpdateDeposition gives the
HTTP client exactly one request, a PUT to
base + "/api/deposit/depositions/" + decimal(d.ID), whose body is the
rendering of the object with the single member `metadata`, the value of which
is the serialization of the whole of d; unmarshalling that value as a
Deposition gives d back, provided the times and the coordinates of d are read
back as they are written, and its member `title` is d.Title.  When
`json.Marshal` refuses d, whatever d is, UpdateDeposition returns the error
of `json.Marshal` and no request is made; when the URL is rejected, it
returns that error and no request is made. -/
theorem update_body {T F : Type} (env : Env T F) (c : Config)
    (ht : c.Token ≠ "") (d : Deposition T F) :
    (∀ j, Deposition.marshal env d = some j →
      env.urlError
        (zenodoBaseURL c ++ "/api/deposit/depositions/" ++ toString d.ID.val) = none →
      (UpdateDeposition env c (some d)).calls =
        [{ method := "PUT",
           url := zenodoBaseURL c ++ "/api/deposit/depositions/" ++ toString d.ID.val,
           target := env.urlTarget
             (zenodoBaseURL c ++ "/api/deposit/depositions/" ++ toString d.ID.val),
           header := [("Content-Type", "application/json"),
                      ("Authorization", "Bearer " ++ c.Token)],
           body := utf8 (env.jsonRender (.obj [("metadata", j)])) }] ∧
      (Deposition.ReadsBack env d →
        Deposition.unmarshal env j (Deposition.zero env) = some d) ∧
      ∃ members, j = .obj members ∧ members.lookup "title" = some (.str d.Title)) ∧
    (Deposition.marshal env d = none →
      UpdateDeposition env c (some d) = .returned none (some marshalError) []) ∧
    (∀ j err, Deposition.marshal env d = some j →
      env.urlError
        (zenodoBaseURL c ++ "/api/deposit/depositions/" ++ toString d.ID.val) = some err →
      UpdateDeposition env c (some d) = .returned none (some err) []) := by
  refine ⟨?_, ?_, ?_⟩
  · intro j hj hu
    refine ⟨?_, fun hr => Deposition_unmarshal_marshal_of_readsBack env d _ j hr hj,
      Deposition_marshal_title env d j hj⟩
    have hreq : UpdateDepositionRequest.marshal env { Metadata := some d }
        = some (.obj [("metadata", j)]) := by
      simp [UpdateDepositionRequest.marshal, marshalFields, mapAll, hj]
    rw [UpdateDeposition_calls env c d _ ht hreq, hu]
    rfl
  · intro hj
    have hreq : UpdateDepositionRequest.marshal env { Metadata := some d } = none := by
      simp [UpdateDepositionRequest.marshal, marshalFields, mapAll, hj]
    simp only [UpdateDeposition, ht, if_false, hreq]
  · intro j err hj hu
    have hreq : UpdateDepositionRequest.marshal env { Metadata := some d }
        = some (.obj [("metadata", j)]) := by
      simp [UpdateDepositionRequest.marshal, marshalFields, mapAll, hj]
    simp only [UpdateDeposition, ht, if_false, hreq, newRequest, hu]

/-- Witness of the amended C5: the deposition 42 with the title
"test title 123" is sent and reads back as it was; the same deposition with a
modification time whose year is out of range is refused. -/
theorem update_body_witness :
    (∃ j, Deposition.marshal (mockEnv [] [] (fixedServer 200 "null"))
        { Deposition.zero (mockEnv [] [] (fixedServer 200 "null")) with
          ID := ⟨42, by decide⟩, Title := "test title 123" } = some j ∧
      (UpdateDeposition (mockEnv [] [] (fixedServer 200 "null"))
          (SetAccessToken Config.initial "t")
          (some { Deposition.zero (mockEnv [] [] (fixedServer 200 "null")) with
                  ID := ⟨42, by decide⟩, Title := "test title 123" })).calls =
        [{ method := "PUT",
           url := "https://sandbox.zenodo.org/api/deposit/depositions/42",
           target := "https://sandbox.zenodo.org/api/deposit/depositions/42",
           header := [("Content-Type", "application/json"), ("Authorization", "Bearer t")],
           body := utf8 ((mockEnv [] [] (fixedServer 200 "null")).jsonRender
             (.obj [("metadata", j)])) }] ∧
      Deposition.unmarshal (mockEnv [] [] (fixedServer 200 "null")) j
          (Deposition.zero (mockEnv [] [] (fixedServer 200 "null")))
        = some { Deposition.zero (mockEnv [] [] (fixedServer 200 "null")) with
                 ID := ⟨42, by decide⟩, Title := "test title 123" } ∧
      ∃ members, j = .obj members ∧
        members.lookup "title" = some (.str "test title 123")) ∧
    UpdateDeposition (mockEnv [] [] (fixedServer 200 "null"))
        (SetAccessToken Config.initial "t")
        (some { Deposition.zero (mockEnv [] [] (fixedServer 200 "null")) with
                ID := ⟨42, by decide⟩, Title := "test title 123",
                Modified := MockTime.yearOutOfRange })
      = .returned none (some marshalError) [] :=
  ⟨⟨_, rfl,
    ((update_body (mockEnv [] [] (fixedServer 200 "null"))
      (SetAccessToken Config.initial "t") (by decide)
      { Deposition.zero (mockEnv [] [] (fixedServer 200 "null")) with
        ID := ⟨42, by decide⟩, Title := "test title 123" }).1 _ rfl rfl).1,
    ((update_body (mockEnv [] [] (fixedServer 200 "null"))
      (SetAccessToken Config.initial "t") (by decide)
      { Deposition.zero (mockEnv [] [] (fixedServer 200 "null")) with
        ID := ⟨42, by decide⟩, Title := "test title 123" }).1 _ rfl rfl).2.1
      (Deposition_readsBack_of_codecsInvert _ (mockEnv_codecsInvert _ _ _) _),
    ((update_body (mockEnv [] [] (fixedServer 200 "null"))
      (SetAccessToken Config.initial "t") (by decide)
      { Deposition.zero (mockEnv [] [] (fixedServer 200 "null")) with
        ID := ⟨42, by decide⟩, Title := "test title 123" }).1 _ rfl rfl).2.2⟩,
   (update_body (mockEnv [] [] (fixedServer 200 "null"))
      (SetAccessToken Config.initial "t") (by decide)
      { Deposition.zero (mockEnv [] [] (fixedServer 200 "null")) with
        ID := ⟨42, by decide⟩, Title := "test title 123",
        Modified := MockTime.yearOutOfRange }).2.1 rfl⟩

/-- C9: when the round trip completes with the expected status and the body
unmarshals, the operation returns a nil error and the value that
`json.Unmarshal` stored (DeleteDeposition: a nil error); for ListDepositions
a body that is an array of n values, the i-th of which unmarshals to the
i-th element of `ds`, gives exactly `ds`, in the order of the array; for
CreateDeposition a body that is an object with the members "id": 42 and
"state": "inprogress" (no other member selecting these fields with another
value), and that unmarshals, gives ID == 42 and State == "inprogress". -/
theorem success_returns_decoding {T F : Type} (env : Env T F) (c : Config) (res : Response)
    (data : String) (hb : res.body = some data) (id : GoInt) (d : Option (Deposition T F))
    (bucketID fileName path : String) :
    (Answered env (CreateDeposition env c) res → res.statusCode = 201 →
      ∀ v, jsonUnmarshal env (unmarshalPtr (Deposition.unmarshal env) (Deposition.zero env))
          data none = .ok v →
        (CreateDeposition env c).result = some v ∧ (CreateDeposition env c).err = some none) ∧
    (Answered env (GetDeposition env c id) res → res.statusCode = 200 →
      ∀ v, jsonUnmarshal env (unmarshalPtr (Deposition.unmarshal env) (Deposition.zero env))
          data none = .ok v →
        (GetDeposition env c id).result = some v ∧ (GetDeposition env c id).err = some none) ∧
    (Answered env (UpdateDeposition env c d) res → res.statusCode = 200 →
      ∀ v, jsonUnmarshal env (unmarshalPtr (Deposition.unmarshal env) (Deposition.zero env))
          data none = .ok v →
        (UpdateDeposition env c d).result = some v ∧
        (UpdateDeposition env c d).err = some none) ∧
    (Answered env (UploadFile env c bucketID fileName path) res → res.statusCode = 201 →
      ∀ v, jsonUnmarshal env
          (unmarshalPtr (DepositionFileUpload.unmarshal env) (DepositionFileUpload.zero env))
          data none = .ok v →
        (UploadFile env c bucketID fileName path).result = some v ∧
        (UploadFile env c bucketID fileName path).err = some none) ∧
    (Answered env (DeleteDeposition env c id) res → res.statusCode = 204 →
      (DeleteDeposition env c id).err = some none) ∧
    (Answered env (ListDepositions env c) res → res.statusCode = 200 →
      ∀ items ds, env.jsonParse data = .ok (.arr items) →
        List.Forall₂ (fun item dep =>
          unmarshalPtr (Deposition.unmarshal env) (Deposition.zero env) item none = some dep)
          items ds →
        (ListDepositions env c).result = some (some ds) ∧
        (ListDepositions env c).err = some none ∧ ds.length = items.length) ∧
    (Answered env (CreateDeposition env c) res → res.statusCode = 201 →
      ∀ members dep, env.jsonParse data = .ok (.obj members) →
        Deposition.unmarshal env (.obj members) (Deposition.zero env) = some dep →
        ("id", JVal.num (.int 42)) ∈ members →
        ("state", JVal.str "inprogress") ∈ members →
        (∀ kv ∈ members, fieldIndex Deposition.jsonNames kv.1 = some 4 →
          kv.2 = JVal.num (.int 42)) →
        (∀ kv ∈ members, fieldIndex Deposition.jsonNames kv.1 = some 11 →
          kv.2 = JVal.str "inprogress") →
        (CreateDeposition env c).result = some (some dep) ∧
        (CreateDeposition env c).err = some none ∧
        dep.ID.val = 42 ∧ dep.State = "inprogress") := by
  refine ⟨?_, ?_, ?_, ?_, ?_, ?_, ?_⟩
  · rintro ⟨req, hc, hr⟩ hs v hv
    rw [CreateDeposition_of_answered env c req res hc hr, hb]
    simp [hs, hv, Run.result, Run.err]
  · rintro ⟨req, hc, hr⟩ hs v hv
    rw [GetDeposition_of_answered env c id req res hc hr, hb]
    simp [hs, hv, Run.result, Run.err]
  · rintro ⟨req, hc, hr⟩ hs v hv
    rw [UpdateDeposition_of_answered env c d req res hc hr, hb]
    simp [hs, hv, Run.result, Run.err]
  · rintro ⟨req, hc, hr⟩ hs v hv
    rw [UploadFile_of_answered env c bucketID fileName path req res hc hr, hb]
    simp [hs, hv, Run.result, Run.err]
  · rintro ⟨req, hc, hr⟩ hs
    rw [DeleteDeposition_of_answered env c id req res hc hr]
    simp [hs, Run.err]
  · rintro ⟨req, hc, hr⟩ hs items ds hp hall
    rw [ListDepositions_of_answered env c req res hc hr, hb]
    have hm := mapAll_of_forall₂ _ items ds hall
    simp [hs, jsonUnmarshal, hp, unmarshalSlice, hm, Run.result, Run.err, hall.length_eq]
  · rintro ⟨req, hc, hr⟩ hs members dep hp hd hid hstate hallid hallstate
    rw [CreateDeposition_of_answered env c req res hc hr, hb]
    refine ⟨?_, ?_, Deposition_unmarshal_ID env members _ dep 42 hd hid hallid,
      Deposition_unmarshal_State env members _ dep "inprogress" hd hstate hallstate⟩
    · simp [hs, jsonUnmarshal, hp, unmarshalPtr, hd, Run.result]
    · simp [hs, jsonUnmarshal, hp, unmarshalPtr, hd, Run.err]

/-- Witness of C9: CreateDeposition answered with 201 and the body
`createdBody` returns the deposition 42 in the state "inprogress", and
ListDepositions answered with 200 and `listBody` returns the three
depositions 3, 1, 2 in this order. -/
theorem success_returns_decoding_witness :
    ((CreateDeposition createdEnv (SetAccessToken Config.initial "t")).result
        = some (some { Deposition.zero createdEnv with
                       ID := ⟨42, by decide⟩, State := "inprogress" }) ∧
      (CreateDeposition createdEnv (SetAccessToken Config.initial "t")).err = some none ∧
      ({ Deposition.zero createdEnv with
         ID := ⟨42, by decide⟩, State := "inprogress" } : Deposition MockTime MockFloat).ID.val
        = 42 ∧
      ({ Deposition.zero createdEnv with
         ID := ⟨42, by decide⟩, State := "inprogress" } : Deposition MockTime MockFloat).State
        = "inprogress") ∧
    ((ListDepositions listEnv (SetAccessToken Config.initial "t")).result
        = some (some [some { Deposition.zero listEnv with ID := ⟨3, by decide⟩ },
                      some { Deposition.zero listEnv with ID := ⟨1, by decide⟩ },
                      some { Deposition.zero listEnv with ID := ⟨2, by decide⟩ }]) ∧
      (ListDepositions listEnv (SetAccessToken Config.initial "t")).err = some none ∧
      [some { Deposition.zero listEnv with ID := ⟨3, by decide⟩ },
       some { Deposition.zero listEnv with ID := ⟨1, by decide⟩ },
       some { Deposition.zero listEnv with ID := ⟨2, by decide⟩ }].length = 3) :=
  ⟨(success_returns_decoding createdEnv (SetAccessToken Config.initial "t")
      { statusCode := 201, body := some createdBody } createdBody rfl GoInt.zero none
      "" "" "").2.2.2.2.2.2 ⟨_, rfl, rfl⟩ rfl
      [("id", .num (.int 42)), ("state", .str "inprogress")] _ rfl rfl
      (List.mem_cons_self _ _) (List.mem_cons_of_mem _ (List.mem_cons_self _ _))
      (by
        intro kv hkv hsel
        simp only [List.mem_cons, List.mem_singleton, List.not_mem_nil, or_false] at hkv
        rcases hkv with rfl | rfl
        · rfl
        · exact absurd hsel (by decide))
      (by
        intro kv hkv hsel
        simp only [List.mem_cons, List.mem_singleton, List.not_mem_nil, or_false] at hkv
        rcases hkv with rfl | rfl
        · exact absurd hsel (by decide)
        · rfl),
   (success_returns_decoding listEnv (SetAccessToken Config.initial "t")
      { statusCode := 200, body := some listBody } listBody rfl GoInt.zero none
      "" "" "").2.2.2.2.2.1 ⟨_, rfl, rfl⟩ rfl
      [.obj [("id", .num (.int 3))], .obj [("id", .num (.int 1))], .obj [("id", .num (.int 2))]]
      _ rfl
      (List.Forall₂.cons rfl (List.Forall₂.cons rfl (List.Forall₂.cons rfl List.Forall₂.nil)))⟩

/-- C6 as stated fails: the service answers CreateDeposition with the object
`conceptBody`, which has the member "conceptrecid" and no member "doi"; the
Deposition that is returned, passed unmodified to UpdateDeposition, is
re-sent as an object without "conceptrecid" (a received field is dropped) and
with "doi": "" (a field is invented). -/
theorem lossless_round_trip_counterexample :
    ∃ d j members,
      (CreateDeposition conceptEnv (SetAccessToken Config.initial "t")).result = some (some d) ∧
      (CreateDeposition conceptEnv (SetAccessToken Config.initial "t")).err = some none ∧
      Deposition.marshal conceptEnv d = some j ∧ j = JVal.obj members ∧
      (UpdateDeposition conceptEnv (SetAccessToken Config.initial "t") (some d)).calls =
        [{ method := "PUT", url := "https://sandbox.zenodo.org/api/deposit/depositions/42",
           target := "https://sandbox.zenodo.org/api/deposit/depositions/42",
           header := [("Content-Type", "application/json"), ("Authorization", "Bearer t")],
           body := utf8 (conceptEnv.jsonRender (.obj [("metadata", j)])) }] ∧
      conceptEnv.jsonParse conceptBody = .ok (.obj conceptMembers) ∧
      (conceptMembers.lookup "conceptrecid").isSome = true ∧
      (members.lookup "conceptrecid").isSome = false ∧
      (conceptMembers.lookup "doi").isSome = false ∧
      (members.lookup "doi").isSome = true :=
  ⟨_, _, _, rfl, rfl, rfl, rfl, rfl, rfl, rfl, rfl, rfl, rfl⟩

/-- C6, amended: when a JSON value that the service returned unmarshals
into the Deposition d, and d is passed unmodified to UpdateDeposition (token
set, URL accepted), what is re-sent under the key `metadata` is the
serialization of d, which unmarshals into d again: each field that the
Deposition type declares is re-sent with the value it was decoded to.
(Members that the type does not declare are not part of d, and fields that
were not received are part of d with their zero values.) -/
theorem declared_fields_round_trip {T F : Type} (env : Env T F) (hc : env.CodecsInvert)
    (hl : env.WritesWhatItReads) (c : Config) (ht : c.Token ≠ "") (received : JVal)
    (d : Deposition T F)
    (hd : unmarshalPtr (Deposition.unmarshal env) (Deposition.zero env) received none
      = some (some d))
    (hu : env.urlError
      (zenodoBaseURL c ++ "/api/deposit/depositions/" ++ toString d.ID.val) = none) :
    ∃ j, Deposition.marshal env d = some j ∧
      (UpdateDeposition env c (some d)).calls =
        [jsonRequest env c "PUT"
          (zenodoBaseURL c ++ "/api/deposit/depositions/" ++ toString d.ID.val)
          (env.jsonRender (.obj [("metadata", j)]))] ∧
      unmarshalPtr (Deposition.unmarshal env) (Deposition.zero env) j none = some (some d) := by
  have hdec : Deposition.unmarshal env received (Deposition.zero env) = some d := by
    cases received <;> simp [unmarshalPtr] at hd <;> exact hd
  obtain ⟨j, hj⟩ := Option.isSome_iff_exists.mp
    (Deposition_marshal_isSome env d (Deposition_unmarshal_writable env hl received d hdec))
  have hreq : UpdateDepositionRequest.marshal env { Metadata := some d }
      = some (.obj [("metadata", j)]) := by
    simp [UpdateDepositionRequest.marshal, marshalFields, mapAll, hj]
  refine ⟨j, hj, ?_, ?_⟩
  · rw [UpdateDeposition_calls env c d _ ht hreq, hu]
  · have hrt := Deposition_unmarshal_marshal env hc d (Deposition.zero env) j hj
    obtain ⟨members, rfl, -⟩ := Deposition_marshal_title env d j hj
    simp [unmarshalPtr, hrt]

/-- Witness of the amended C6: the deposition decoded from `conceptBody`. -/
theorem declared_fields_round_trip_witness :
    ∃ j, Deposition.marshal conceptEnv
        { Deposition.zero conceptEnv with ID := ⟨42, by decide⟩ } = some j ∧
      (UpdateDeposition conceptEnv (SetAccessToken Config.initial "t")
          (some { Deposition.zero conceptEnv with ID := ⟨42, by decide⟩ })).calls =
        [jsonRequest conceptEnv (SetAccessToken Config.initial "t") "PUT"
          "https://sandbox.zenodo.org/api/deposit/depositions/42"
          (conceptEnv.jsonRender (.obj [("metadata", j)]))] ∧
      unmarshalPtr (Deposition.unmarshal conceptEnv) (Deposition.zero conceptEnv) j none
        = some (some { Deposition.zero conceptEnv with ID := ⟨42, by decide⟩ }) :=
  declared_fields_round_trip conceptEnv (mockEnv_codecsInvert _ _ _)
    (mockEnv_writesWhatItReads _ _ _)
    (SetAccessToken Config.initial "t") (by decide) (.obj conceptMembers)
    { Deposition.zero conceptEnv with ID := ⟨42, by decide⟩ } rfl rfl

/-- Stored into a nil pointer, only the JSON value `null` leaves the pointer
nil. -/
theorem unmarshalPtr_eq_some_none {α : Type} (elem : JVal → α → Option α) (zero : α)
    (v : JVal) (cur : Option α) : unmarshalPtr elem zero v cur = some none ↔ v = .null := by
  cases v <;> simp [unmarshalPtr]

/-- After a completed round trip with a nil error, the pointer returned by
CreateDeposition, GetDeposition, UpdateDeposition and UploadFile is nil
exactly when the body of the response is the JSON value `null`. -/
theorem nil_pointer_iff_null_body {T F : Type} (env : Env T F) (c : Config) (res : Response)
    (data : String) (hb : res.body = some data) (id : GoInt) (d : Option (Deposition T F))
    (bucketID fileName path : String) :
    (Answered env (CreateDeposition env c) res → (CreateDeposition env c).err = some none →
      ((CreateDeposition env c).result = some none ↔ env.jsonParse data = .ok .null)) ∧
    (Answered env (GetDeposition env c id) res → (GetDeposition env c id).err = some none →
      ((GetDeposition env c id).result = some none ↔ env.jsonParse data = .ok .null)) ∧
    (Answered env (UpdateDeposition env c d) res →
      (UpdateDeposition env c d).err = some none →
      ((UpdateDeposition env c d).result = some none ↔ env.jsonParse data = .ok .null)) ∧
    (Answered env (UploadFile env c bucketID fileName path) res →
      (UploadFile env c bucketID fileName path).err = some none →
      ((UploadFile env c bucketID fileName path).result = some none ↔
        env.jsonParse data = .ok .null)) := by
  refine ⟨?_, ?_, ?_, ?_⟩
  · rintro ⟨req, hc, hr⟩
    rw [CreateDeposition_of_answered env c req res hc hr, hb]
    by_cases hs : res.statusCode = 201
    · cases hp : env.jsonParse data with
      | error e => simp [hs, jsonUnmarshal, hp, Run.err]
      | ok v =>
        cases hv : unmarshalPtr (Deposition.unmarshal env) (Deposition.zero env) v none with
        | none => simp [hs, jsonUnmarshal, hp, hv, Run.err]
        | some r =>
          have h := unmarshalPtr_eq_some_none (Deposition.unmarshal env) (Deposition.zero env)
            v none
          rw [hv] at h
          simp [hs, jsonUnmarshal, hp, hv, Run.err, Run.result]
          simpa using h
    · simp [hs, Run.err]
  · rintro ⟨req, hc, hr⟩
    rw [GetDeposition_of_answered env c id req res hc hr, hb]
    by_cases hs : res.statusCode = 200
    · cases hp : env.jsonParse data with
      | error e => simp [hs, jsonUnmarshal, hp, Run.err]
      | ok v =>
        cases hv : unmarshalPtr (Deposition.unmarshal env) (Deposition.zero env) v none with
        | none => simp [hs, jsonUnmarshal, hp, hv, Run.err]
        | some r =>
          have h := unmarshalPtr_eq_some_none (Deposition.unmarshal env) (Deposition.zero env)
            v none
          rw [hv] at h
          simp [hs, jsonUnmarshal, hp, hv, Run.err, Run.result]
          simpa using h
    · simp [hs, Run.err]
  · rintro ⟨req, hc, hr⟩
    rw [UpdateDeposition_of_answered env c d req res hc hr, hb]
    by_cases hs : res.statusCode = 200
    · cases hp : env.jsonParse data with
      | error e => simp [hs, jsonUnmarshal, hp, Run.err]
      | ok v =>
        cases hv : unmarshalPtr (Deposition.unmarshal env) (Deposition.zero env) v none with
        | none => simp [hs, jsonUnmarshal, hp, hv, Run.err]
        | some r =>
          have h := unmarshalPtr_eq_some_none (Deposition.unmarshal env) (Deposition.zero env)
            v none
          rw [hv] at h
          simp [hs, jsonUnmarshal, hp, hv, Run.err, Run.result]
          simpa using h
    · simp [hs, Run.err]
  · rintro ⟨req, hc, hr⟩
    rw [UploadFile_of_answered env c bucketID fileName path req res hc hr, hb]
    by_cases hs : res.statusCode = 201
    · cases hp : env.jsonParse data with
      | error e => simp [hs, jsonUnmarshal, hp, Run.err]
      | ok v =>
        cases hv : unmarshalPtr (DepositionFileUpload.unmarshal env) (DepositionFileUpload.zero env) v none with
        | none => simp [hs, jsonUnmarshal, hp, hv, Run.err]
        | some r =>
          have h := unmarshalPtr_eq_some_none (DepositionFileUpload.unmarshal env) (DepositionFileUpload.zero env)
            v none
          rw [hv] at h
          simp [hs, jsonUnmarshal, hp, hv, Run.err, Run.result]
          simpa using h
    · simp [hs, Run.err]

/-- C11 fails on the code: with the token set, a response with the expected
status and the body `null` makes CreateDeposition, GetDeposition,
UpdateDeposition and UploadFile return a nil error together with a nil
pointer, after one request each. -/
theorem nil_error_with_nil_pointer :
    (SetAccessToken Config.initial "t").Token ≠ "" ∧
    (nullEnv 201).jsonParse "null" = .ok .null ∧
    CreateDeposition (nullEnv 201) (SetAccessToken Config.initial "t") =
      .returned none none
        [jsonRequest (nullEnv 201) (SetAccessToken Config.initial "t") "POST"
          "https://sandbox.zenodo.org/api/deposit/depositions" "{}"] ∧
    GetDeposition (nullEnv 200) (SetAccessToken Config.initial "t") ⟨42, by decide⟩ =
      .returned none none
        [jsonRequest (nullEnv 200) (SetAccessToken Config.initial "t") "GET"
          "https://sandbox.zenodo.org/api/deposit/depositions/42" "{}"] ∧
    (UpdateDeposition (nullEnv 200) (SetAccessToken Config.initial "t")
        (some { Deposition.zero (nullEnv 200) with ID := ⟨42, by decide⟩ })).result
      = some none ∧
    (UpdateDeposition (nullEnv 200) (SetAccessToken Config.initial "t")
        (some { Deposition.zero (nullEnv 200) with ID := ⟨42, by decide⟩ })).err
      = some none ∧
    UploadFile (nullEnv 201) (SetAccessToken Config.initial "t") "https://b" "f.txt" "f.txt" =
      .returned none none
        [uploadRequest (nullEnv 201) (SetAccessToken Config.initial "t") "https://b/f.txt"
          (utf8 "hello")] :=
  ⟨by decide, rfl, rfl, rfl, rfl, rfl, rfl⟩

end GoZenodo
